import Mathlib

/-! Talos declarative runtime core: resource API, streaming router patterns, static pod
controllers.

A shallow embedding of
* `internal/app/machined/internal/server/v1alpha1/v1alpha1_resource.go`
  (`marshalResource`, `resolveResourceKind`, `checkReadAccess`, `Get`, `List`),
* `internal/app/apid/main.go` (the registered streaming patterns),
* `internal/app/machined/pkg/controllers/k8s/control_plane_static_pod.go`
  (`Run`, `teardownAll`, `manageAPIServer`),
* `internal/app/machined/pkg/controllers/config/k8s_control_plane.go`
  (`Run`, `manageAPIServerConfig`),
* `internal/app/machined/pkg/controllers/k8s/kubelet_static_pod_controller.go`
  (`Run`, `runPod`, `teardownPod`, `teardownAll`),
* `internal/app/machined/pkg/controllers/legacy/service.go` (`Run`),
* `internal/app/machined/pkg/controllers/network/link_merge.go` (`Run`),
* `cmd/talosctl/cmd/talos/get.go` (the list mode of `getCmd.RunE`),
together with the resource types they touch.

Go values that live behind interfaces of external libraries (the resource store, the
gRPC stream, the YAML encoder, `strconv.Quote`, `filepath.Join`, `sort.Slice`, the output
writer) are taken as explicit parameters; the file system is embedded as a map from paths
to nodes.
-/

namespace Talos

/-! ## Errors and gRPC status codes -/

/-- The gRPC status codes that occur in the embedded code (`google.golang.org/grpc/codes`). -/
inductive Code
  | OK
  | NotFound
  | Internal
  | Unknown
  | Unimplemented
  | Canceled
  deriving DecidableEq, Repr

/-- The name printed for a code by `codes.Code.String`. -/
def Code.String : Code → String
  | .OK => "OK"
  | .NotFound => "NotFound"
  | .Internal => "Internal"
  | .Unknown => "Unknown"
  | .Unimplemented => "Unimplemented"
  | .Canceled => "Canceled"

/-- Go `error` values, split by what the embedded code can observe of them:
`status` is a value built by `status.Error(code, desc)`, `stateNotFound` is a store error
for which `state.IsNotFoundError` holds, `other` is any other error value, and
`wrapped msg err` is the value built by `fmt.Errorf` with the format `msg: %w`, and
`notExist` is a file system error for which `os.IsNotExist` holds, and `EOF` is the value
`io.EOF`. -/
inductive Error
  | status (code : Code) (desc : String)
  | stateNotFound (msg : String)
  | other (msg : String)
  | wrapped (msg : String) (err : Error)
  | notExist (msg : String)
  | EOF
  deriving DecidableEq, Repr

/-- The text of an error, `err.Error()`. -/
def Error.errorText : Error → String
  | .status code desc => "rpc error: code = " ++ code.String ++ " desc = " ++ desc
  | .stateNotFound msg => msg
  | .other msg => msg
  | .wrapped msg err => msg ++ ": " ++ err.errorText
  | .notExist msg => msg
  | .EOF => "EOF"

/-- The gRPC code a server reports for an error, `status.Code(err)`: the code of a status
error, `Unknown` for every other non-nil error. -/
def Error.statusCode : Error → Code
  | .status code _ => code
  | .stateNotFound _ => .Unknown
  | .other _ => .Unknown
  | .wrapped _ _ => .Unknown
  | .notExist _ => .Unknown
  | .EOF => .Unknown

/-- The predicate `state.IsNotFoundError`, which looks through wrapping. -/
def IsNotFoundError : Error → Bool
  | .stateNotFound _ => true
  | .wrapped _ err => IsNotFoundError err
  | _ => false

/-! ## Resources -/

abbrev Namespace := String
abbrev ResType := String
abbrev ID := String

/-- Lifecycle phase of a resource (`resource.Phase`). -/
inductive Phase
  | PhaseRunning
  | PhaseTearingDown
  deriving DecidableEq, Repr

/-- Resource metadata (`resource.Metadata`). -/
structure Metadata where
  Namespace : Namespace
  Typ : ResType
  ID : ID
  Version : Nat
  Phase : Phase
  Finalizers : List String
  deriving DecidableEq, Repr

/-- The spec of a resource definition (`core.ResourceDefinitionSpec`). -/
structure ResourceDefinitionSpec where
  Typ : ResType
  Aliases : List ResType
  DefaultNamespace : Namespace
  deriving DecidableEq, Repr

/-- Modelled from the spec: the machine role `machine.Type` of
`pkg/machinery/config/types/v1alpha1/machine`, whose declaration is not among the sources;
the spec lists the roles `init`, `control-plane` and `worker`. -/
inductive MachineRole
  | TypeInit
  | TypeControlPlane
  | TypeJoin
  deriving DecidableEq, Repr

/-- Configuration for kube-apiserver (`config.K8sControlPlaneAPIServerSpec`). `ExtraArgs`
is a Go map, kept as the list of its key/value pairs. -/
structure K8sControlPlaneAPIServerSpec where
  Image : String
  ControlPlaneEndpoint : String
  EtcdServers : List String
  LocalPort : Int
  ServiceCIDR : String
  ExtraArgs : List (String × String)
  deriving DecidableEq, Repr

/-- An environment variable of a container (`v1.EnvVar` with a field reference). -/
structure EnvVar where
  Name : String
  FieldPath : String
  deriving DecidableEq, Repr

/-- A volume mount of a container (`v1.VolumeMount`). -/
structure VolumeMount where
  Name : String
  MountPath : String
  ReadOnly : Bool
  deriving DecidableEq, Repr

/-- A container of a pod (`v1.Container`). -/
structure Container where
  Name : String
  Image : String
  Command : List String
  Env : List EnvVar
  VolumeMounts : List VolumeMount
  deriving DecidableEq, Repr

/-- A host-path volume of a pod (`v1.Volume` with `HostPath` source). -/
structure Volume where
  Name : String
  HostPath : String
  deriving DecidableEq, Repr

/-- The fields of `v1.Pod` that `manageAPIServer` sets. -/
structure Pod where
  APIVersion : String
  Kind : String
  Name : String
  Namespace : String
  Labels : List (String × String)
  Containers : List Container
  HostNetwork : Bool
  RunAsNonRoot : Option Bool
  RunAsUser : Option Int
  Volumes : List Volume
  deriving DecidableEq, Repr

/-- Modelled from the spec: the configuration provider `talosconfig.Provider`, whose
implementation (package `pkg/machinery/config`) is not among the sources, as the values
that `manageAPIServerConfig` reads through it: the API server image, the control plane
endpoint as a string, the service CIDR, the extra arguments of the API server, and the
local API server port as it is written in the machine configuration, `0` when it is not
supplied. -/
structure Provider where
  APIServerImage : String
  Endpoint : String
  ConfiguredLocalAPIServerPort : Int
  ServiceCIDR : String
  APIServerExtraArgs : List (String × String)
  deriving DecidableEq, Repr

/-- Modelled from the spec: the spec of a link, `network.LinkSpecSpec`, declared in package
`pkg/resources/network`, which is not among the sources: the link name and the
configuration layer, which the controller reads, and the remaining settings of the link
kept as one value. -/
structure LinkSpecSpec where
  Name : String
  ConfigLayer : Int
  Settings : String
  deriving DecidableEq, Repr

/-- The dynamic value returned by `Spec()` of a resource, when it is not nil. -/
inductive SpecValue
  | definition (spec : ResourceDefinitionSpec)
  | machineType (t : MachineRole)
  | apiServer (spec : K8sControlPlaneAPIServerSpec)
  | pod (p : Pod)
  | document (doc : String)
  | service (running : Bool)
  | machineConfig (cfg : Provider)
  | linkSpec (spec : LinkSpecSpec)
  deriving DecidableEq, Repr

/-- A stored resource (`resource.Resource`), by its Go type: `*core.ResourceDefinition`,
`*config.MachineType`, `*config.K8sControlPlane`, `*k8s.StaticPod` (whose pod may be nil),
any other resource type with its spec, nil or a document, `*legacy.Service` with its
running flag, `*config.V1Alpha1` with the configuration provider it holds, and
`*network.LinkSpec`. -/
inductive Resource
  | ResourceDefinition (md : Metadata) (spec : ResourceDefinitionSpec)
  | MachineType (md : Metadata) (spec : MachineRole)
  | K8sControlPlane (md : Metadata) (spec : K8sControlPlaneAPIServerSpec)
  | StaticPod (md : Metadata) (pod : Option Pod)
  | Other (md : Metadata) (spec : Option String)
  | Service (md : Metadata) (running : Bool)
  | V1Alpha1 (md : Metadata) (cfg : Provider)
  | LinkSpec (md : Metadata) (spec : LinkSpecSpec)
  deriving DecidableEq, Repr

/-- The method `Metadata()` of a resource. -/
def Resource.Metadata : Resource → Metadata
  | .ResourceDefinition md _ => md
  | .MachineType md _ => md
  | .K8sControlPlane md _ => md
  | .StaticPod md _ => md
  | .Other md _ => md
  | .Service md _ => md
  | .V1Alpha1 md _ => md
  | .LinkSpec md _ => md

/-- The method `Spec()` of a resource; `none` is the nil interface value. -/
def Resource.Spec : Resource → Option SpecValue
  | .ResourceDefinition _ spec => some (.definition spec)
  | .MachineType _ spec => some (.machineType spec)
  | .K8sControlPlane _ spec => some (.apiServer spec)
  | .StaticPod _ pod => pod.map SpecValue.pod
  | .Other _ spec => spec.map SpecValue.document
  | .Service _ running => some (.service running)
  | .V1Alpha1 _ cfg => some (.machineConfig cfg)
  | .LinkSpec _ spec => some (.linkSpec spec)

/-! ## The resource service -/

/-- What the resource server reaches through `s.server` and through library calls: the
constants of package `core`, the store operations `List` and `Get` of
`State().V2().Resources()`, `yaml.Marshal`, the renderings `Version().String()` and
`Phase().String()`, and `strconv.Quote` as used by the verb `%q`. -/
structure Server where
  coreNamespaceName : Namespace
  coreResourceDefinitionType : ResType
  coreNamespaceType : ResType
  List : Namespace → ResType → Except Error (List Resource)
  Get : Namespace → ResType → ID → Except Error Resource
  yamlMarshal : SpecValue → Except Error String
  versionString : Nat → String
  phaseString : Phase → String
  quote : String → String

/-- The wire metadata (`resourceapi.Metadata`). -/
structure ProtoMetadata where
  Namespace : String
  Typ : String
  Id : String
  Version : String
  Phase : String
  Finalizers : List String
  deriving DecidableEq, Repr

/-- The wire resource (`resourceapi.Resource`); `Yaml` is `Spec.Yaml`, empty when the spec
is nil. -/
structure ProtoResource where
  Metadata : ProtoMetadata
  Yaml : String
  deriving DecidableEq, Repr

/-- The function `marshalResource`. -/
def marshalResource (s : Server) (r : Resource) : Except Error ProtoResource :=
  let md : ProtoMetadata :=
    { Namespace := r.Metadata.Namespace
      Typ := r.Metadata.Typ
      Id := r.Metadata.ID
      Version := s.versionString r.Metadata.Version
      Phase := s.phaseString r.Metadata.Phase
      Finalizers := r.Metadata.Finalizers.foldl (fun acc fin => acc ++ [fin]) [] }
  match r.Spec with
  | none => .ok { Metadata := md, Yaml := "" }
  | some spec =>
    match s.yamlMarshal spec with
    | .error err => .error err
    | .ok yaml => .ok { Metadata := md, Yaml := yaml }

/-- The struct `resourceKind`. -/
structure resourceKind where
  Namespace : Namespace
  Typ : ResType
  deriving DecidableEq, Repr

/-- The inner loop of `resolveResourceKind` over `spec.Aliases`. -/
def aliasMatches (t : ResType) : List ResType → Bool
  | [] => false
  | a :: rest => if a == t then true else aliasMatches t rest

/-- The value of `matches` in `resolveResourceKind` after the alias loop. -/
def kindMatches (md : Metadata) (spec : ResourceDefinitionSpec) (t : ResType) : Bool :=
  let m := md.ID == t || spec.Typ == t
  if !m then aliasMatches t spec.Aliases else m

/-- The loop of `resolveResourceKind` over `registeredResources.Items`; the second
component is `*kind` when the function returns. -/
def resolveLoop (s : Server) (kind : resourceKind) :
    List Resource → Except Error Resource × resourceKind
  | [] =>
    (.error (.status .NotFound ("resource " ++ s.quote kind.Typ ++ " is not registered")), kind)
  | item :: rest =>
    match item with
    | .ResourceDefinition md spec =>
      if kindMatches md spec kind.Typ then
        let kind1 : resourceKind := { kind with Typ := md.ID }
        let kind2 : resourceKind :=
          if kind1.Namespace == "" then { kind1 with Namespace := spec.DefaultNamespace }
          else kind1
        (.ok item, kind2)
      else resolveLoop s kind rest
    | _ => (.error (.other "unexpected resource definition type"), kind)

/-- The method `ResourceServer.resolveResourceKind`; `kind` is passed by pointer in the
source, so the updated value is returned next to the result. -/
def resolveResourceKind (s : Server) (kind : resourceKind) :
    Except Error Resource × resourceKind :=
  match s.List s.coreNamespaceName s.coreResourceDefinitionType with
  | .error err => (.error err, kind)
  | .ok registeredResources => resolveLoop s kind registeredResources

/-- The loop of `checkReadAccess` over `registeredNamespaces.Items`. -/
def namespaceLoop (s : Server) (kind : resourceKind) : List Resource → Option Error
  | [] =>
    some (.status .NotFound ("namespace " ++ s.quote kind.Namespace ++ " is not registered"))
  | ns :: rest => if ns.Metadata.ID == kind.Namespace then none else namespaceLoop s kind rest

/-- The method `ResourceServer.checkReadAccess`; `none` is the nil error. -/
def checkReadAccess (s : Server) (kind : resourceKind) : Option Error :=
  match s.List s.coreNamespaceName s.coreNamespaceType with
  | .error err => some err
  | .ok registeredNamespaces => namespaceLoop s kind registeredNamespaces

/-- The message `resourceapi.Get`; a nil pointer field is `none`. -/
structure GetMessage where
  Definition : Option ProtoResource
  Resource : Option ProtoResource
  deriving DecidableEq, Repr

/-- The message `resourceapi.GetResponse`. -/
structure GetResponse where
  Messages : List GetMessage
  deriving DecidableEq, Repr

/-- The method `ResourceServer.Get`, on the request fields namespace, type and id. -/
def ResourceServer.Get (s : Server) (inNamespace : Namespace) (inType : ResType) (inId : ID) :
    Except Error GetResponse :=
  let kind : resourceKind := { Namespace := inNamespace, Typ := inType }
  match resolveResourceKind s kind with
  | (.error err, _) => .error err
  | (.ok resourceDefinition, kind) =>
    match checkReadAccess s kind with
    | some err => .error err
    | none =>
      match s.Get kind.Namespace kind.Typ inId with
      | .error err =>
        if IsNotFoundError err then .error (.status .NotFound err.errorText) else .error err
      | .ok r =>
        match marshalResource s resourceDefinition with
        | .error err => .error err
        | .ok protoD =>
          match marshalResource s r with
          | .error err => .error err
          | .ok protoR => .ok { Messages := [{ Definition := some protoD, Resource := some protoR }] }

/-- The message `resourceapi.ListResponse`; a nil pointer field is `none`. -/
structure ListResponse where
  Definition : Option ProtoResource
  Resource : Option ProtoResource
  deriving DecidableEq, Repr

/-- The server side of the stream (`resourceapi.ResourceService_ListServer`): `Send` is
given the frames already sent and the frame to send, and returns nil or an error. -/
structure ListServer where
  Send : List ListResponse → ListResponse → Option Error

/-- The loop of `List` over `list.Items`; `sent` holds the frames sent so far. -/
def listLoop (s : Server) (srv : ListServer) :
    List ListResponse → List Resource → List ListResponse × Option Error
  | sent, [] => (sent, none)
  | sent, r :: rest =>
    match marshalResource s r with
    | .error err => (sent, some err)
    | .ok protoR =>
      let frame : ListResponse := { Definition := none, Resource := some protoR }
      match srv.Send sent frame with
      | some err => (sent, some err)
      | none => listLoop s srv (sent ++ [frame]) rest

/-- The method `ResourceServer.List`: the frames sent on the stream, in order, and the
returned error (`none` is nil). -/
def ResourceServer.List (s : Server) (srv : ListServer) (inNamespace : Namespace) (inType : ResType) :
    List ListResponse × Option Error :=
  let kind : resourceKind := { Namespace := inNamespace, Typ := inType }
  match resolveResourceKind s kind with
  | (.error err, _) => ([], some err)
  | (.ok resourceDefinition, kind) =>
    match checkReadAccess s kind with
    | some err => ([], some err)
    | none =>
      match s.List kind.Namespace kind.Typ with
      | .error err => ([], some err)
      | .ok list =>
        match marshalResource s resourceDefinition with
        | .error err => ([], some err)
        | .ok protoD =>
          let first : ListResponse := { Definition := some protoD, Resource := none }
          match srv.Send [] first with
          | some err => ([], some err)
          | none => listLoop s srv [first] list

/-- The resource of type `*core.ResourceDefinition` made of a metadata/spec pair. -/
def definitionResource (d : Metadata × ResourceDefinitionSpec) : Resource :=
  .ResourceDefinition d.1 d.2

/-- The value of `*kind` after a match on the definition `d`. -/
def resolvedKind (kind : resourceKind) (d : Metadata × ResourceDefinitionSpec) : resourceKind :=
  { Namespace := if kind.Namespace = "" then d.2.DefaultNamespace else kind.Namespace
    Typ := d.1.ID }

/-! ## Resource definitions declared in the sources, and sample servers -/

/-- Modelled from the spec: the constant `config.NamespaceName`, declared in a file of
package `resources/config` that is not among the sources; it is the default namespace of
`config/k8sControlPlane` and `config/machineType`. -/
def config.NamespaceName : Namespace := "config"

/-- Modelled from the spec: the constant `k8s.ControlPlaneNamespaceName`, declared in a
file of package `resources/k8s` that is not among the sources; it is the namespace of the
control plane static pods. -/
def k8s.ControlPlaneNamespaceName : Namespace := "controlplane"

/-- Modelled from the spec: the constant `k8s.StaticPodType`, declared in a file of
package `resources/k8s` that is not among the sources; the spec names the type
`k8s/staticPod`. -/
def k8s.StaticPodType : ResType := "k8s/staticPod"

/-- The constant `config.K8sControlPlaneType`. -/
def config.K8sControlPlaneType : ResType := "config/k8sControlPlane"

/-- The constant `config.K8sControlPlaneAPIServerID`. -/
def config.K8sControlPlaneAPIServerID : ID := "kube-apiserver"

/-- The constant `config.MachineTypeType`. -/
def config.MachineTypeType : ResType := "config/machineType"

/-- The constant `config.MachineTypeID`. -/
def config.MachineTypeID : ID := "machine-type"

/-- The constant `k8s.StaticPodStatusType`. -/
def k8s.StaticPodStatusType : ResType := "k8s/staticPodStatus"

/-- The method `K8sControlPlane.ResourceDefinition`. -/
def config.K8sControlPlane.ResourceDefinition : ResourceDefinitionSpec :=
  { Typ := config.K8sControlPlaneType
    Aliases := ["controlPlane"]
    DefaultNamespace := config.NamespaceName }

/-- The method `MachineType.ResourceDefinition`. -/
def config.MachineType.ResourceDefinition : ResourceDefinitionSpec :=
  { Typ := config.MachineTypeType
    Aliases := ["machineType"]
    DefaultNamespace := config.NamespaceName }

/-- The method `StaticPodStatus.ResourceDefinition`. -/
def k8s.StaticPodStatus.ResourceDefinition : ResourceDefinitionSpec :=
  { Typ := k8s.StaticPodStatusType
    Aliases := ["podStatus"]
    DefaultNamespace := k8s.ControlPlaneNamespaceName }

/-- Metadata of a registered definition with the given id, in a sample registry. -/
def sampleDefinitionMetadata (id : ID) : Metadata :=
  { Namespace := "meta", Typ := "ResourceDefinition", ID := id, Version := 1,
    Phase := .PhaseRunning, Finalizers := [] }

/-- A sample registry holding the three definitions declared in the sources. -/
def sampleDefinitions : List (Metadata × ResourceDefinitionSpec) :=
  [ (sampleDefinitionMetadata "config/k8sControlPlane", config.K8sControlPlane.ResourceDefinition),
    (sampleDefinitionMetadata "config/machineType", config.MachineType.ResourceDefinition),
    (sampleDefinitionMetadata "k8s/staticPodStatus", k8s.StaticPodStatus.ResourceDefinition) ]

/-- A sample namespace resource with the given id. -/
def sampleNamespace (id : ID) : Resource :=
  .Other { Namespace := "meta", Typ := "Namespace", ID := id, Version := 1,
           Phase := .PhaseRunning, Finalizers := [] } none

/-- A sample API server configuration. -/
def sampleAPIServerSpec : K8sControlPlaneAPIServerSpec :=
  { Image := "k8s.gcr.io/kube-apiserver:v1.20.2"
    ControlPlaneEndpoint := "https://cp:6443"
    EtcdServers := ["https://127.0.0.1:2379"]
    LocalPort := 6443
    ServiceCIDR := "10.96.0.0/12"
    ExtraArgs := [] }

/-- A sample stored `config/k8sControlPlane` resource with id `kube-apiserver`. -/
def sampleAPIServerResource : Resource :=
  .K8sControlPlane
    { Namespace := config.NamespaceName, Typ := config.K8sControlPlaneType,
      ID := config.K8sControlPlaneAPIServerID, Version := 1, Phase := .PhaseRunning,
      Finalizers := [] }
    sampleAPIServerSpec

/-- A sample server: the registry above, the namespaces `meta`, `config` and
`controlplane`, one stored resource, and library calls that succeed. -/
def sampleServer : Server :=
  { coreNamespaceName := "meta"
    coreResourceDefinitionType := "ResourceDefinition"
    coreNamespaceType := "Namespace"
    List := fun ns t =>
      if ns = "meta" ∧ t = "ResourceDefinition" then .ok (sampleDefinitions.map definitionResource)
      else if ns = "meta" ∧ t = "Namespace" then
        .ok [sampleNamespace "meta", sampleNamespace "config", sampleNamespace "controlplane"]
      else if ns = "config" ∧ t = "config/k8sControlPlane" then .ok [sampleAPIServerResource]
      else .ok []
    Get := fun ns t id =>
      if ns = "config" ∧ t = "config/k8sControlPlane" ∧ id = "kube-apiserver" then
        .ok sampleAPIServerResource
      else .error (.stateNotFound "resource doesn't exist")
    yamlMarshal := fun v =>
      match v with
      | .document doc => .ok doc
      | .definition spec => .ok ("type: " ++ spec.Typ)
      | _ => .ok "spec"
    versionString := fun v => toString v
    phaseString := fun p => match p with
      | .PhaseRunning => "running"
      | .PhaseTearingDown => "tearingDown"
    quote := fun x => "\"" ++ x ++ "\"" }

/-- The sample server with a YAML encoder that fails on every value. -/
def failingMarshalServer : Server :=
  { sampleServer with yamlMarshal := fun _ => .error (.other "yaml: cannot marshal") }

/-- A stream on which every `Send` succeeds. -/
def sampleStream : ListServer :=
  { Send := fun _ _ => none }

/-! ## Streaming patterns registered by apid

The patterns are Go regular expressions (package `regexp`). The fragment of the syntax
that the registered patterns use is embedded: the anchors `^` and `$` (begin and end of
text, no multi-line flag), a backslash followed by a punctuation character (that character,
literally), and ordinary characters. `MatchString` reports whether the text contains a
match, starting at any position. -/

/-- The bytes that `regexp.QuoteMeta` escapes, those of the Go string with the characters
backslash, dot, plus, star, question mark, parentheses, bar, brackets, braces, caret and
dollar. -/
def specialBytes : List Char :=
  ['\\', '.', '+', '*', '?', '(', ')', '|', '[', ']', '{', '}', '^', '$']

/-- The function `special` of package `regexp`. -/
def special (b : Char) : Bool := specialBytes.contains b

/-- The loop of `regexp.QuoteMeta`: a backslash is put before every special byte. -/
def quoteMetaChars : List Char → List Char
  | [] => []
  | b :: rest => if special b then '\\' :: b :: quoteMetaChars rest else b :: quoteMetaChars rest

/-- The function `regexp.QuoteMeta`. -/
def QuoteMeta (s : String) : String := ⟨quoteMetaChars s.data⟩

/-- The operations of a compiled pattern in the embedded fragment. -/
inductive RegexOp
  | beginText
  | endText
  | literal (c : Char)
  deriving DecidableEq, Repr

/-- Parsing of a pattern in the embedded fragment; `none` for a pattern outside of it (an
unescaped operator, an escape of a character that is not special, a trailing backslash). -/
def parseRegex : List Char → Option (List RegexOp)
  | [] => some []
  | c :: rest =>
    if c = '^' then (parseRegex rest).map (fun ops => RegexOp.beginText :: ops)
    else if c = '$' then (parseRegex rest).map (fun ops => RegexOp.endText :: ops)
    else if c = '\\' then
      match rest with
      | [] => none
      | e :: rest2 =>
        if special e then (parseRegex rest2).map (fun ops => RegexOp.literal e :: ops) else none
    else if special c then none
    else (parseRegex rest).map (fun ops => RegexOp.literal c :: ops)

/-- The function `regexp.Compile` on the embedded fragment. -/
def regexpCompile (expr : String) : Option (List RegexOp) := parseRegex expr.data

/-- Whether the operations match a prefix of the input that starts at the current position;
`atStart` tells whether that position is the beginning of the text. -/
def matchHere : List RegexOp → Bool → List Char → Bool
  | [], _, _ => true
  | .beginText :: ops, atStart, input => atStart && matchHere ops atStart input
  | .endText :: ops, atStart, input => input.isEmpty && matchHere ops atStart input
  | .literal _ :: _, _, [] => false
  | .literal c :: ops, _, x :: input => x == c && matchHere ops false input

/-- Whether the operations match at the current position or at a later one. -/
def matchFrom (ops : List RegexOp) : Bool → List Char → Bool
  | atStart, [] => matchHere ops atStart []
  | atStart, x :: input => matchHere ops atStart (x :: input) || matchFrom ops false input

/-- The method `Regexp.MatchString`: the text contains a match of the pattern. -/
def MatchString (ops : List RegexOp) (s : String) : Bool := matchFrom ops true s.data

/-- The method names listed in `main` under "all existing streaming methods". -/
def streamedMethodNames : List String :=
  [ "/machine.MachineService/Copy",
    "/machine.MachineService/DiskUsage",
    "/machine.MachineService/Dmesg",
    "/machine.MachineService/Events",
    "/machine.MachineService/Kubeconfig",
    "/machine.MachineService/List",
    "/machine.MachineService/Logs",
    "/machine.MachineService/Read",
    "/resource.ResourceService/List",
    "/resource.ResourceService/Watch",
    "/os.OSService/Dmesg",
    "/cluster.ClusterService/HealthCheck" ]

/-- The patterns that `main` passes to `router.RegisterStreamedRegex`, in order: one per
listed method name, then the pattern for the suffix `Stream`. -/
def registeredStreamedRegexes : List String :=
  streamedMethodNames.map (fun methodName => "^" ++ QuoteMeta methodName ++ "$") ++ ["Stream$"]

/-- Whether a full method name is matched by at least one of the registered patterns; a
pattern that does not compile matches nothing. -/
def matchedByStreamedRegex (fullMethodName : String) : Bool :=
  (registeredStreamedRegexes.map regexpCompile).any (fun re =>
    match re with
    | some ops => MatchString ops fullMethodName
    | none => false)

/-- The operations of a pattern that matches exactly the given text. -/
def exactOps (text : List Char) : List RegexOp :=
  RegexOp.beginText :: (text.map RegexOp.literal ++ [RegexOp.endText])

/-- The operations of a pattern that matches a text ending in the given one. -/
def suffixOps (text : List Char) : List RegexOp :=
  text.map RegexOp.literal ++ [RegexOp.endText]

/-! ## Control plane static pod controller -/

/-- The operations of `controller.Runtime` that the controllers call, over a store state
`σ`. `Destroy`, `Update`, `AddFinalizer` and `Teardown` return the state after the call;
the function given to `Update` returns `none` when it panics. `Update` is also the
operation that the newer runtime library names `Modify`; `Teardown` returns whether the
resource is ready to be destroyed. -/
structure Runtime (σ : Type) where
  Get : σ → Namespace → ResType → ID → Except Error Resource
  List : σ → Namespace → ResType → Except Error (List Resource)
  Destroy : σ → Metadata → σ × Option Error
  Update : σ → Resource → (Resource → Option Resource) → σ × Option Error
  AddFinalizer : σ → Metadata → String → σ × Option Error
  Teardown : σ → Metadata → σ × Except Error Bool

/-- How one pass through the body of the `for` loop of `Run` ends: the loop goes on to wait
for the next event (`next`, by `continue` or at the end of the body), `Run` returns an
error, or a type assertion panics. -/
inductive Outcome
  | next
  | returned (err : Error)
  | panicked
  deriving DecidableEq, Repr

/-- The loop of `teardownAll` over `list.Items`. -/
def ControlPlaneStaticPodController.teardownLoop {σ : Type} (r : Runtime σ) :
    σ → List Resource → σ × Option Error
  | st, [] => (st, none)
  | st, res :: rest =>
    match r.Destroy st res.Metadata with
    | (st2, some err) => (st2, some err)
    | (st2, none) => ControlPlaneStaticPodController.teardownLoop r st2 rest

/-- The method `ControlPlaneStaticPodController.teardownAll`. -/
def ControlPlaneStaticPodController.teardownAll {σ : Type} (r : Runtime σ) (st : σ) :
    σ × Option Error :=
  match r.List st k8s.ControlPlaneNamespaceName k8s.StaticPodType with
  | .error err => (st, some err)
  | .ok list => ControlPlaneStaticPodController.teardownLoop r st list

/-- The slice literal `args` of `manageAPIServer`, before the loop over `cfg.ExtraArgs`. -/
def apiServerBaseArgs (cfg : K8sControlPlaneAPIServerSpec) : List String :=
  [ "/go-runner",
    "/usr/local/bin/kube-apiserver",
    "--enable-admission-plugins=PodSecurityPolicy,NamespaceLifecycle,LimitRanger,ServiceAccount,PersistentVolumeClaimResize,DefaultStorageClass,DefaultTolerationSeconds,MutatingAdmissionWebhook,ValidatingAdmissionWebhook,ResourceQuota,Priority,NodeRestriction",
    "--advertise-address=$(POD_IP)",
    "--allow-privileged=true",
    "--api-audiences=" ++ cfg.ControlPlaneEndpoint,
    "--authorization-mode=Node,RBAC",
    "--bind-address=0.0.0.0",
    "--client-ca-file=/etc/kubernetes/secrets/ca.crt",
    "--requestheader-client-ca-file=/etc/kubernetes/secrets/front-proxy-ca.crt",
    "--requestheader-allowed-names=front-proxy-client",
    "--requestheader-extra-headers-prefix=X-Remote-Extra-",
    "--requestheader-group-headers=X-Remote-Group",
    "--requestheader-username-headers=X-Remote-User",
    "--proxy-client-cert-file=/etc/kubernetes/secrets/front-proxy-client.crt",
    "--proxy-client-key-file=/etc/kubernetes/secrets/front-proxy-client.key",
    "--cloud-provider=",
    "--enable-bootstrap-token-auth=true",
    "--tls-cipher-suites=TLS_ECDHE_ECDSA_WITH_AES_128_GCM_SHA256,TLS_ECDHE_RSA_WITH_AES_128_GCM_SHA256,TLS_ECDHE_ECDSA_WITH_CHACHA20_POLY1305,TLS_ECDHE_RSA_WITH_AES_256_GCM_SHA384,TLS_ECDHE_RSA_WITH_CHACHA20_POLY1305,TLS_ECDHE_ECDSA_WITH_AES_256_GCM_SHA384,TLS_RSA_WITH_AES_256_GCM_SHA384,TLS_RSA_WITH_AES_128_GCM_SHA256",
    "--encryption-provider-config=/etc/kubernetes/secrets/encryptionconfig.yaml",
    "--audit-policy-file=/etc/kubernetes/secrets/auditpolicy.yaml",
    "--audit-log-path=-",
    "--audit-log-maxage=30",
    "--audit-log-maxbackup=3",
    "--audit-log-maxsize=50",
    "--profiling=false",
    "--etcd-cafile=/etc/kubernetes/secrets/etcd-client-ca.crt",
    "--etcd-certfile=/etc/kubernetes/secrets/etcd-client.crt",
    "--etcd-keyfile=/etc/kubernetes/secrets/etcd-client.key",
    "--etcd-servers=" ++ ",".intercalate cfg.EtcdServers,
    "--insecure-port=0",
    "--kubelet-client-certificate=/etc/kubernetes/secrets/apiserver-kubelet-client.crt",
    "--kubelet-client-key=/etc/kubernetes/secrets/apiserver-kubelet-client.key",
    "--secure-port=" ++ toString cfg.LocalPort,
    "--service-account-issuer=" ++ cfg.ControlPlaneEndpoint,
    "--service-account-key-file=/etc/kubernetes/secrets/service-account.pub",
    "--service-account-signing-key-file=/etc/kubernetes/secrets/service-account.key",
    "--service-cluster-ip-range=" ++ cfg.ServiceCIDR,
    "--tls-cert-file=/etc/kubernetes/secrets/apiserver.crt",
    "--tls-private-key-file=/etc/kubernetes/secrets/apiserver.key",
    "--kubelet-preferred-address-types=InternalIP,ExternalIP,Hostname" ]

/-- The value of `args` in `manageAPIServer` after the loop over `cfg.ExtraArgs`; `ranged`
is the sequence of key/value pairs in the order in which the `range` statement yields them
(Go leaves the iteration order of a map unspecified). -/
def apiServerArgs (cfg : K8sControlPlaneAPIServerSpec) (ranged : List (String × String)) :
    List String :=
  ranged.foldl (fun args kv => args ++ ["--" ++ kv.1 ++ "=" ++ kv.2]) (apiServerBaseArgs cfg)

/-- The pod document that `manageAPIServer` passes to `SetPod`. -/
def apiServerPod (cfg : K8sControlPlaneAPIServerSpec) (args : List String) : Pod :=
  { APIVersion := "v1"
    Kind := "Pod"
    Name := "kube-apiserver-static"
    Namespace := "kube-system"
    Labels := [("tier", "control-plane"), ("k8s-app", "kube-apiserver")]
    Containers :=
      [ { Name := "kube-apiserver"
          Image := cfg.Image
          Command := args
          Env := [{ Name := "POD_IP", FieldPath := "status.podIP" }]
          VolumeMounts :=
            [ { Name := "ssl-certs", MountPath := "/etc/ssl/certs", ReadOnly := true },
              { Name := "secrets", MountPath := "/etc/kubernetes/secrets", ReadOnly := true } ] } ]
    HostNetwork := true
    RunAsNonRoot := some true
    RunAsUser := some 65534
    Volumes :=
      [ { Name := "ssl-certs", HostPath := "/etc/ssl/certs" },
        { Name := "secrets", HostPath := "/etc/kubernetes/secrets" } ] }

/-- Modelled from the spec: the constructor `k8s.NewStaticPod`, declared in a file of
package `resources/k8s` that is not among the sources; like the constructors that are among
them it builds the metadata from namespace, type and id with an undefined version, and
bumps the version. -/
def k8s.NewStaticPod (ns : Namespace) (id : ID) (pod : Option Pod) : Resource :=
  .StaticPod
    { Namespace := ns, Typ := k8s.StaticPodType, ID := id, Version := 1,
      Phase := .PhaseRunning, Finalizers := [] }
    pod

/-- The function literal that `manageAPIServer` passes to `r.Update`: the assertion
`r.(*k8s.StaticPod)` followed by `SetPod`. -/
def setAPIServerPod (pod : Pod) : Resource → Option Resource
  | .StaticPod md _ => some (.StaticPod md (some pod))
  | _ => none

/-- The method `ControlPlaneStaticPodController.manageAPIServer`, on the spec returned by
`configResource.APIServer()`; `rangeMap` gives the order in which `range` yields the
entries of a map. -/
def ControlPlaneStaticPodController.manageAPIServer {σ : Type} (r : Runtime σ)
    (rangeMap : List (String × String) → List (String × String)) (st : σ)
    (cfg : K8sControlPlaneAPIServerSpec) : σ × Option Error :=
  let args := apiServerArgs cfg (rangeMap cfg.ExtraArgs)
  r.Update st (k8s.NewStaticPod k8s.ControlPlaneNamespaceName "kube-apiserver" none)
    (setAPIServerPod (apiServerPod cfg args))

/-- The inner loop of `Run` over the control plane components, which are the single entry
`manageAPIServer` with id `config.K8sControlPlaneAPIServerID`. -/
def ControlPlaneStaticPodController.podLoop {σ : Type} (r : Runtime σ)
    (rangeMap : List (String × String) → List (String × String)) :
    σ → List ID → σ × Outcome
  | st, [] => (st, .next)
  | st, id :: rest =>
    match r.Get st config.NamespaceName config.K8sControlPlaneType id with
    | .error err =>
      if IsNotFoundError err then ControlPlaneStaticPodController.podLoop r rangeMap st rest
      else (st, .returned (.wrapped "error getting control plane config" err))
    | .ok res =>
      match res with
      | .K8sControlPlane _ cfg =>
        match ControlPlaneStaticPodController.manageAPIServer r rangeMap st cfg with
        | (st2, some err) =>
          (st2, .returned (.wrapped ("error updating static pod for \"" ++ id ++ "\"") err))
        | (st2, none) => ControlPlaneStaticPodController.podLoop r rangeMap st2 rest
      | _ => (st, .panicked)

/-- One pass through the body of the `for` loop of `ControlPlaneStaticPodController.Run`,
after an event has been received. -/
def ControlPlaneStaticPodController.iteration {σ : Type} (r : Runtime σ)
    (rangeMap : List (String × String) → List (String × String)) (st : σ) : σ × Outcome :=
  match r.Get st config.NamespaceName config.MachineTypeType config.MachineTypeID with
  | .error err =>
    if IsNotFoundError err then (st, .next)
    else (st, .returned (.wrapped "error getting machine type" err))
  | .ok machineTypeRes =>
    match machineTypeRes with
    | .MachineType _ machineType =>
      if machineType ≠ .TypeControlPlane ∧ machineType ≠ .TypeInit then
        match ControlPlaneStaticPodController.teardownAll r st with
        | (st2, some err) => (st2, .returned (.wrapped "error destroying static pods" err))
        | (st2, none) =>
          ControlPlaneStaticPodController.podLoop r rangeMap st2 [config.K8sControlPlaneAPIServerID]
      else ControlPlaneStaticPodController.podLoop r rangeMap st [config.K8sControlPlaneAPIServerID]
    | _ => (st, .panicked)

/-! ### A sample store -/

/-- The resource with its metadata replaced. -/
def Resource.withMetadata (md : Talos.Metadata) : Resource → Resource
  | .ResourceDefinition _ spec => .ResourceDefinition md spec
  | .MachineType _ spec => .MachineType md spec
  | .K8sControlPlane _ spec => .K8sControlPlane md spec
  | .StaticPod _ pod => .StaticPod md pod
  | .Other _ spec => .Other md spec
  | .Service _ running => .Service md running
  | .V1Alpha1 _ cfg => .V1Alpha1 md cfg
  | .LinkSpec _ spec => .LinkSpec md spec

/-- The resource with a finalizer added to its metadata, unless it is already there. -/
def Resource.addFinalizer (fin : String) (res : Resource) : Resource :=
  if res.Metadata.Finalizers.contains fin then res
  else res.withMetadata { res.Metadata with Finalizers := res.Metadata.Finalizers ++ [fin] }

/-- Whether a resource has the given namespace, type and id. -/
def hasKey (ns : Namespace) (t : ResType) (id : ID) (res : Resource) : Bool :=
  res.Metadata.Namespace == ns && res.Metadata.Typ == t && res.Metadata.ID == id

/-- A sample runtime over a store kept as a list of resources: `Get` finds by namespace,
type and id, `List` filters by namespace and type, `Destroy` removes a resource that has no
finalizers, `Update` applies the function to the stored resource, or to the given empty
resource when none is stored, and writes the result, `AddFinalizer` adds the finalizer
to the stored resource, and `Teardown` puts the stored resource into the phase tearing
down and reports it ready when it has no finalizers. -/
def sampleRuntime : Runtime (List Resource) :=
  { Get := fun st ns t id =>
      match st.find? (hasKey ns t id) with
      | some res => .ok res
      | none => .error (.stateNotFound "resource doesn't exist")
    List := fun st ns t =>
      .ok (st.filter (fun res => res.Metadata.Namespace == ns && res.Metadata.Typ == t))
    Destroy := fun st md =>
      match st.find? (hasKey md.Namespace md.Typ md.ID) with
      | none => (st, some (.stateNotFound "resource doesn't exist"))
      | some res =>
        if res.Metadata.Finalizers.isEmpty then
          (st.filter (fun x => !hasKey md.Namespace md.Typ md.ID x), none)
        else (st, some (.other "resource has pending finalizers"))
    Update := fun st emptyResource f =>
      match st.find? (hasKey emptyResource.Metadata.Namespace emptyResource.Metadata.Typ
          emptyResource.Metadata.ID) with
      | none =>
        match f emptyResource with
        | some res => (st ++ [res], none)
        | none => (st, some (.other "panic"))
      | some current =>
        match f current with
        | some res =>
          (st.map (fun x =>
            if hasKey emptyResource.Metadata.Namespace emptyResource.Metadata.Typ
                emptyResource.Metadata.ID x then res else x), none)
        | none => (st, some (.other "panic"))
    AddFinalizer := fun st md fin =>
      match st.find? (hasKey md.Namespace md.Typ md.ID) with
      | none => (st, some (.stateNotFound "resource doesn't exist"))
      | some _ =>
        (st.map (fun x =>
          if hasKey md.Namespace md.Typ md.ID x then x.addFinalizer fin else x), none)
    Teardown := fun st md =>
      match st.find? (hasKey md.Namespace md.Typ md.ID) with
      | none => (st, .error (.stateNotFound "resource doesn't exist"))
      | some res =>
        (st.map (fun x =>
          if hasKey md.Namespace md.Typ md.ID x then
            x.withMetadata { x.Metadata with Phase := .PhaseTearingDown }
          else x), .ok res.Metadata.Finalizers.isEmpty) }

/-- A sample `config/machineType` resource. -/
def sampleMachineType (machineType : MachineRole) : Resource :=
  .MachineType
    { Namespace := config.NamespaceName, Typ := config.MachineTypeType,
      ID := config.MachineTypeID, Version := 1, Phase := .PhaseRunning, Finalizers := [] }
    machineType

/-- The store of a worker whose machine configuration carries a control plane section: the
machine type is `worker` and a `kube-apiserver` control plane config resource is stored;
there is no static pod. -/
def workerStore : List Resource :=
  [sampleMachineType .TypeJoin, sampleAPIServerResource]

/-! ## Rendering of the kube-apiserver command: sample inputs -/

/-- The entry that `manageAPIServer` appends for one pair of `cfg.ExtraArgs`, the result of
`fmt.Sprintf` with the format `--%s=%s`. -/
def extraArgEntry (kv : String × String) : String := "--" ++ kv.1 ++ "=" ++ kv.2

/-- A sample API server configuration with two extra arguments. -/
def sampleExtraArgsSpec : K8sControlPlaneAPIServerSpec :=
  { sampleAPIServerSpec with ExtraArgs := [("v", "2"), ("audit-log-format", "json")] }

/-- An API server configuration all of whose fields have their zero value. -/
def emptyAPIServerSpec : K8sControlPlaneAPIServerSpec :=
  { Image := "", ControlPlaneEndpoint := "", EtcdServers := [], LocalPort := 0,
    ServiceCIDR := "", ExtraArgs := [] }

/-! ## Control plane config controller -/

/-- The constant `constants.DefaultControlPlanePort`. -/
def constants.DefaultControlPlanePort : Int := 6443

/-- The constant `constants.ManifestsDirectory`. -/
def constants.ManifestsDirectory : String := "/etc/kubernetes/manifests"

/-- Modelled from the spec: the method `LocalAPIServerPort` of the cluster configuration,
which is not among the sources; the spec gives the secure port as the configured local
port, "default 6443 if not supplied". -/
def Provider.LocalAPIServerPort (p : Provider) : Int :=
  if p.ConfiguredLocalAPIServerPort = 0 then constants.DefaultControlPlanePort
  else p.ConfiguredLocalAPIServerPort

/-- The composite literal that `manageAPIServerConfig` passes to `SetAPIServer`. -/
def projectAPIServerSpec (p : Provider) : K8sControlPlaneAPIServerSpec :=
  { Image := p.APIServerImage
    ControlPlaneEndpoint := p.Endpoint
    EtcdServers := ["https://127.0.0.1:2379"]
    LocalPort := p.LocalAPIServerPort
    ServiceCIDR := p.ServiceCIDR
    ExtraArgs := p.APIServerExtraArgs }

/-- The constructor `config.NewK8sControlPlaneAPIServer`. -/
def config.NewK8sControlPlaneAPIServer (spec : K8sControlPlaneAPIServerSpec) : Resource :=
  .K8sControlPlane
    { Namespace := config.NamespaceName, Typ := config.K8sControlPlaneType,
      ID := config.K8sControlPlaneAPIServerID, Version := 1, Phase := .PhaseRunning,
      Finalizers := [] }
    spec

/-- The function literal that `manageAPIServerConfig` passes to `r.Update`: the assertion
`r.(*config.K8sControlPlane)` followed by `SetAPIServer`. -/
def setAPIServerConfig (p : Provider) : Resource → Option Resource
  | .K8sControlPlane md _ => some (.K8sControlPlane md (projectAPIServerSpec p))
  | _ => none

/-- The method `K8sControlPlaneController.manageAPIServerConfig`. -/
def K8sControlPlaneController.manageAPIServerConfig {σ : Type} (r : Runtime σ) (st : σ)
    (cfgProvider : Provider) : σ × Option Error :=
  r.Update st (config.NewK8sControlPlaneAPIServer emptyAPIServerSpec)
    (setAPIServerConfig cfgProvider)

/-- A sample provider, the machine configuration of the cold start scenario of the spec,
which supplies no local API server port. -/
def sampleProvider : Provider :=
  { APIServerImage := "k8s.gcr.io/kube-apiserver:v1.20.2"
    Endpoint := "https://cp:6443"
    ConfiguredLocalAPIServerPort := 0
    ServiceCIDR := "10.96.0.0/12"
    APIServerExtraArgs := [] }

/-! ## Kubelet static pod controller

The controller reads and writes manifest files through `ioutil.ReadFile` and
`ioutil.WriteFile`. The file system is embedded as a map from paths to nodes, together
with the list of the `WriteFile` calls made so far. -/

/-- The constant `legacy.NamespaceName`. -/
def legacy.NamespaceName : Namespace := "legacy"

/-- Modelled from the spec: the constant `legacy.ServiceType`, declared in a file of
package `resources/legacy` that is not among the sources; the spec names the type
`legacy/service`. -/
def legacy.ServiceType : ResType := "legacy/service"

/-- A node of the file system: a regular file with its bytes and permission bits, or a
directory. -/
inductive FileNode
  | regular (data : String) (perm : Nat)
  | directory
  deriving DecidableEq, Repr

/-- One call of `ioutil.WriteFile`: the path, the bytes and the permission argument. -/
structure WriteCall where
  path : String
  data : String
  perm : Nat
  deriving DecidableEq, Repr

/-- The file system: the node at each path, and the `WriteFile` calls made so far. -/
structure Disk where
  nodes : String → Option FileNode
  writes : List WriteCall

/-- The predicate `os.IsNotExist`. -/
def os.IsNotExist : Error → Bool
  | .notExist _ => true
  | _ => false

/-- The function `ioutil.ReadFile`: the bytes of a regular file, a not-exist error for a
path without a node, another error for a directory. -/
def ioutil.ReadFile (disk : Disk) (path : String) : Except Error String :=
  match disk.nodes path with
  | none => .error (.notExist ("open " ++ path ++ ": no such file or directory"))
  | some (.regular data _) => .ok data
  | some .directory => .error (.other ("read " ++ path ++ ": is a directory"))

/-- The function `ioutil.WriteFile`: a file that does not exist is created with the given
permission bits, an existing regular file gets the new bytes and keeps its permission
bits, and writing to a directory fails. -/
def ioutil.WriteFile (disk : Disk) (path : String) (data : String) (perm : Nat) :
    Disk × Option Error :=
  let writes := disk.writes ++ [{ path := path, data := data, perm := perm }]
  match disk.nodes path with
  | none =>
    ({ nodes := fun q => if q = path then some (.regular data perm) else disk.nodes q,
       writes := writes }, none)
  | some (.regular _ oldPerm) =>
    ({ nodes := fun q => if q = path then some (.regular data oldPerm) else disk.nodes q,
       writes := writes }, none)
  | some .directory =>
    ({ nodes := disk.nodes, writes := writes },
      some (.other ("open " ++ path ++ ": is a directory")))

/-- The library calls of `runPod` that are taken as parameters: `yaml.Marshal` on the
value of `Spec()` (`none` is the nil interface value), `strconv.Quote` as used by the verb
`%q`, and `filepath.Join` of two elements. -/
structure Library where
  yamlMarshal : Option SpecValue → Except Error String
  quote : String → String
  filepathJoin : String → String → String

/-- The method `StaticPodStatus.String`, on the id of the resource. -/
def k8s.StaticPodStatus.String (lib : Library) (id : ID) : String :=
  "k8s.StaticPodStatus(" ++ lib.quote id ++ ")"

/-- The value of `podPath` in `runPod`. -/
def podPath (lib : Library) (id : ID) : String :=
  lib.filepathJoin constants.ManifestsDirectory (id ++ ".yaml")

/-- The value of `existingPod` in `runPod` after the call of `ioutil.ReadFile` and the test
of its error: the bytes read, no bytes when the file does not exist (a nil slice, which
`bytes.Equal` takes as equal to an empty one), or the error that `runPod` returns. -/
def readExistingPod (disk : Disk) (path : String) : Except Error String :=
  match ioutil.ReadFile disk path with
  | .error err => if !os.IsNotExist err then .error err else .ok ""
  | .ok existingPod => .ok existingPod

/-- The method `KubeletStaticPodController.runPod`: the store and the file system after the
call, and the returned error (`none` is nil). -/
def KubeletStaticPodController.runPod {σ : Type} (r : Runtime σ) (lib : Library) (st : σ)
    (disk : Disk) (staticPod : Resource) : σ × Disk × Option Error :=
  match r.AddFinalizer st staticPod.Metadata
      (k8s.StaticPodStatus.String lib staticPod.Metadata.ID) with
  | (st2, some err) => (st2, disk, some err)
  | (st2, none) =>
    match lib.yamlMarshal staticPod.Spec with
    | .error _ => (st2, disk, none)
    | .ok renderedPod =>
      match readExistingPod disk (podPath lib staticPod.Metadata.ID) with
      | .error err => (st2, disk, some err)
      | .ok existingPod =>
        if renderedPod = existingPod then (st2, disk, none)
        else
          match ioutil.WriteFile disk (podPath lib staticPod.Metadata.ID) renderedPod 0o600 with
          | (disk2, res) => (st2, disk2, res)

/-- The method `KubeletStaticPodController.teardownPod`, whose body is `return nil`. -/
def KubeletStaticPodController.teardownPod {σ : Type} (_r : Runtime σ) (_lib : Library)
    (st : σ) (disk : Disk) (_staticPod : Resource) : σ × Disk × Option Error :=
  (st, disk, none)

/-- The method `KubeletStaticPodController.teardownAll`, whose body is `return nil`. -/
def KubeletStaticPodController.teardownAll {σ : Type} (_r : Runtime σ) (_lib : Library)
    (st : σ) (disk : Disk) : σ × Disk × Option Error :=
  (st, disk, none)

/-- The loop of `KubeletStaticPodController.Run` over `staticPods.Items`. -/
def KubeletStaticPodController.podsLoop {σ : Type} (r : Runtime σ) (lib : Library) :
    σ → Disk → List Resource → σ × Disk × Outcome
  | st, disk, [] => (st, disk, .next)
  | st, disk, staticPod :: rest =>
    match staticPod.Metadata.Phase with
    | .PhaseRunning =>
      match staticPod with
      | .StaticPod _ _ =>
        match KubeletStaticPodController.runPod r lib st disk staticPod with
        | (st2, disk2, some err) => (st2, disk2, .returned (.wrapped "error running pod" err))
        | (st2, disk2, none) => KubeletStaticPodController.podsLoop r lib st2 disk2 rest
      | _ => (st, disk, .panicked)
    | .PhaseTearingDown =>
      match staticPod with
      | .StaticPod _ _ =>
        match KubeletStaticPodController.teardownPod r lib st disk staticPod with
        | (st2, disk2, some err) =>
          (st2, disk2, .returned (.wrapped "error tearing down pod" err))
        | (st2, disk2, none) => KubeletStaticPodController.podsLoop r lib st2 disk2 rest
      | _ => (st, disk, .panicked)

/-- One pass through the body of the `for` loop of `KubeletStaticPodController.Run`, after
an event has been received. -/
def KubeletStaticPodController.iteration {σ : Type} (r : Runtime σ) (lib : Library) (st : σ)
    (disk : Disk) : σ × Disk × Outcome :=
  match r.Get st legacy.NamespaceName legacy.ServiceType "kubelet" with
  | .error err =>
    if IsNotFoundError err then
      match KubeletStaticPodController.teardownAll r lib st disk with
      | (st2, disk2, some err2) => (st2, disk2, .returned (.wrapped "error tearing down" err2))
      | (st2, disk2, none) => (st2, disk2, .next)
    else (st, disk, .returned err)
  | .ok kubeletResource =>
    match kubeletResource with
    | .Service _ running =>
      if !running then
        match KubeletStaticPodController.teardownAll r lib st disk with
        | (st2, disk2, some err2) => (st2, disk2, .returned (.wrapped "error tearing down" err2))
        | (st2, disk2, none) => (st2, disk2, .next)
      else
        match r.List st k8s.ControlPlaneNamespaceName k8s.StaticPodType with
        | .error err => (st, disk, .returned (.wrapped "error listing static pods" err))
        | .ok staticPods => KubeletStaticPodController.podsLoop r lib st disk staticPods
    | _ => (st, disk, .panicked)

/-! ### Sample inputs of the kubelet static pod controller -/

/-- A sample library: the YAML encoder gives a fixed document for each kind of value,
`quote` is `strconv.Quote` on a text of printable ASCII characters other than the double
quote and the backslash, and `filepathJoin` is `filepath.Join` of a clean directory path
and a file name without separators. -/
def sampleLibrary : Library :=
  { yamlMarshal := fun v =>
      match v with
      | none => .ok "null\n"
      | some (.pod p) => .ok ("kind: " ++ p.Kind ++ "\nname: " ++ p.Name ++ "\n")
      | some _ => .ok "spec\n"
    quote := fun x => "\"" ++ x ++ "\""
    filepathJoin := fun dir name => dir ++ "/" ++ name }

/-- The sample library with a YAML encoder that fails on every value. -/
def failingLibrary : Library :=
  { sampleLibrary with yamlMarshal := fun _ => .error (.other "yaml: cannot marshal") }

/-- A file system without any node. -/
def emptyDisk : Disk :=
  { nodes := fun _ => none, writes := [] }

/-- The `kube-apiserver` static pod in phase running, as `manageAPIServer` writes it for
the sample configuration. -/
def sampleStaticPod : Resource :=
  k8s.NewStaticPod k8s.ControlPlaneNamespaceName "kube-apiserver"
    (some (apiServerPod sampleAPIServerSpec (apiServerBaseArgs sampleAPIServerSpec)))

/-- The `legacy/service` resource of the kubelet with the given running flag. -/
def sampleKubeletService (running : Bool) : Resource :=
  .Service
    { Namespace := legacy.NamespaceName, Typ := legacy.ServiceType, ID := "kubelet",
      Version := 1, Phase := .PhaseRunning, Finalizers := [] }
    running

/-- The part of `runPod` that follows the call of `AddFinalizer`, as a function of the
file system, the id and the value of `Spec()`: the file system afterwards and the returned
error. -/
def manifestStep (lib : Library) (disk : Disk) (id : ID) (spec : Option SpecValue) :
    Disk × Option Error :=
  match lib.yamlMarshal spec with
  | .error _ => (disk, none)
  | .ok renderedPod =>
    match readExistingPod disk (podPath lib id) with
    | .error err => (disk, some err)
    | .ok existingPod =>
      if renderedPod = existingPod then (disk, none)
      else ioutil.WriteFile disk (podPath lib id) renderedPod 0o600

/-- The finalizer that `runPod` adds to the sample static pod. -/
def sampleFinalizer : String := "k8s.StaticPodStatus(\"kube-apiserver\")"

/-- The path of the manifest of the sample static pod. -/
def sampleManifestPath : String := "/etc/kubernetes/manifests/kube-apiserver.yaml"

/-- The bytes that the sample library renders for the sample static pod. -/
def sampleManifest : String := "kind: Pod\nname: kube-apiserver-static\n"

/-- The store of a control plane node after the kubelet static pod controller has rendered
the sample static pod: the static pod carries the finalizer of the controller; the kubelet
service resource has the given running flag. -/
def renderedStore (kubeletRunning : Bool) : List Resource :=
  [sampleKubeletService kubeletRunning, sampleStaticPod.addFinalizer sampleFinalizer]

/-- The file system after the kubelet static pod controller has rendered the sample static
pod: the manifest is there, written by one call of `WriteFile`. -/
def renderedDisk : Disk :=
  { nodes := fun q =>
      if q = sampleManifestPath then some (.regular sampleManifest 0o600) else none
    writes := [{ path := sampleManifestPath, data := sampleManifest, perm := 0o600 }] }

/-- The sample static pod in phase tearing down, carrying the finalizer of the controller. -/
def tearingDownStaticPod : Resource :=
  (sampleStaticPod.addFinalizer sampleFinalizer).withMetadata
    { (sampleStaticPod.addFinalizer sampleFinalizer).Metadata with Phase := .PhaseTearingDown }

/-! ## Recording of runtime calls, and the loop of the control plane config controller -/

/-- A call of a method of `controller.Runtime` that changes the store. For `Update` the
call carries the empty resource it was given and what its function makes of that
resource; for `Teardown` it carries the answer of the call, whether the resource is ready
to be destroyed, `none` when the call failed. -/
inductive RuntimeCall
  | Destroy (md : Metadata)
  | Update (emptyResource : Resource) (written : Option Resource)
  | AddFinalizer (md : Metadata) (fin : String)
  | Teardown (md : Metadata) (ready : Option Bool)
  deriving DecidableEq, Repr

/-- The runtime that behaves as `r` and keeps, next to the store of `r`, the list of the
store-changing calls made on it, in order. -/
def recordingRuntime {σ : Type} (r : Runtime σ) : Runtime (σ × List RuntimeCall) :=
  { Get := fun st ns t id => r.Get st.1 ns t id
    List := fun st ns t => r.List st.1 ns t
    Destroy := fun st md => (((r.Destroy st.1 md).1, st.2 ++ [.Destroy md]), (r.Destroy st.1 md).2)
    Update := fun st emptyResource f =>
      (((r.Update st.1 emptyResource f).1, st.2 ++ [.Update emptyResource (f emptyResource)]),
        (r.Update st.1 emptyResource f).2)
    AddFinalizer := fun st md fin =>
      (((r.AddFinalizer st.1 md fin).1, st.2 ++ [.AddFinalizer md fin]),
        (r.AddFinalizer st.1 md fin).2)
    Teardown := fun st md =>
      (((r.Teardown st.1 md).1,
          st.2 ++ [.Teardown md
            (match (r.Teardown st.1 md).2 with
             | .ok ready => some ready
             | .error _ => none)]),
        (r.Teardown st.1 md).2) }

/-- Modelled from the spec: the constant `config.V1Alpha1Type`, declared in a file of
package `resources/config` that is not among the sources; the spec names the type
`config/v1alpha1`. -/
def config.V1Alpha1Type : ResType := "config/v1alpha1"

/-- Modelled from the spec: the constant `config.V1Alpha1ID`, declared in a file of package
`resources/config` that is not among the sources; the resource is a singleton. -/
def config.V1Alpha1ID : ID := "v1alpha1"

/-- One pass through the body of the `for` loop of `K8sControlPlaneController.Run`, after
an event has been received; the inner loop runs over the single function
`manageAPIServerConfig`. -/
def K8sControlPlaneController.iteration {σ : Type} (r : Runtime σ) (st : σ) : σ × Outcome :=
  match r.Get st config.NamespaceName config.V1Alpha1Type config.V1Alpha1ID with
  | .error err =>
    if IsNotFoundError err then (st, .next)
    else (st, .returned (.wrapped "error getting config" err))
  | .ok cfg =>
    match cfg with
    | .V1Alpha1 _ cfgProvider =>
      match K8sControlPlaneController.manageAPIServerConfig r st cfgProvider with
      | (st2, some err) => (st2, .returned (.wrapped "error updating objects" err))
      | (st2, none) => (st2, .next)
    | _ => (st, .panicked)

/-! ## Link merge controller: the comparator -/

/-- The function literal that `LinkMergeController.Run` passes to `sort.Slice`, on the
specs of the two items. -/
def linkLess (left right : LinkSpecSpec) : Bool :=
  if left.Name < right.Name then false
  else if left.Name = right.Name then decide (left.ConfigLayer < right.ConfigLayer)
  else true

/-- The resource definitions declared in the sources. -/
def declaredDefinitions : List ResourceDefinitionSpec :=
  [ config.K8sControlPlane.ResourceDefinition,
    config.MachineType.ResourceDefinition,
    k8s.StaticPodStatus.ResourceDefinition ]

/-- The names under which a definition can be asked for: its type and its aliases. -/
def definitionNames (spec : ResourceDefinitionSpec) : List ResType :=
  spec.Typ :: spec.Aliases

/-! ## The steps of a write of the manifest -/

/-- The file system states that one call of `ioutil.WriteFile` goes through, in order:
`os.OpenFile` with the flags `O_WRONLY|O_CREATE|O_TRUNC` creates the file or truncates it,
then `Write` stores the bytes. When the open fails there is no state. -/
def ioutil.WriteFileSteps (disk : Disk) (path : String) (data : String) (perm : Nat) :
    List Disk :=
  let writes := disk.writes ++ [{ path := path, data := data, perm := perm }]
  match disk.nodes path with
  | none =>
    [ { nodes := fun q => if q = path then some (.regular "" perm) else disk.nodes q,
        writes := writes },
      { nodes := fun q => if q = path then some (.regular data perm) else disk.nodes q,
        writes := writes } ]
  | some (.regular _ oldPerm) =>
    [ { nodes := fun q => if q = path then some (.regular "" oldPerm) else disk.nodes q,
        writes := writes },
      { nodes := fun q => if q = path then some (.regular data oldPerm) else disk.nodes q,
        writes := writes } ]
  | some .directory => []

/-- The file system states that `runPod` goes through after the call of `AddFinalizer`:
none when it returns before `ioutil.WriteFile`, the steps of that call otherwise. -/
def manifestStepStates (lib : Library) (disk : Disk) (id : ID) (spec : Option SpecValue) :
    List Disk :=
  match lib.yamlMarshal spec with
  | .error _ => []
  | .ok renderedPod =>
    match readExistingPod disk (podPath lib id) with
    | .error _ => []
    | .ok existingPod =>
      if renderedPod = existingPod then []
      else ioutil.WriteFileSteps disk (podPath lib id) renderedPod 0o600

/-- The file system states that `runPod` goes through, in order. -/
def KubeletStaticPodController.runPodStates {σ : Type} (r : Runtime σ) (lib : Library)
    (st : σ) (disk : Disk) (staticPod : Resource) : List Disk :=
  match r.AddFinalizer st staticPod.Metadata
      (k8s.StaticPodStatus.String lib staticPod.Metadata.ID) with
  | (_, some _) => []
  | (_, none) => manifestStepStates lib disk staticPod.Metadata.ID staticPod.Spec

/-- A file system that holds an older manifest of the sample static pod. -/
def staleDisk : Disk :=
  { nodes := fun q =>
      if q = sampleManifestPath then some (.regular "kind: Pod\nname: old\n" 0o600) else none
    writes := [] }

/-! ## Service controller -/

/-- Modelled from the spec: the actions of a service state event, the enumeration
`machine.ServiceStateEvent_Action` of the generated API package, which is not among the
sources. The controller tells `RUNNING` apart from all the others. -/
inductive ServiceAction
  | INITIALIZED
  | PREPARING
  | WAITING
  | RUNNING
  | STOPPING
  | FINISHED
  | FAILED
  | SKIPPED
  deriving DecidableEq, Repr

/-- The payload of a runtime event: a `*machine.ServiceStateEvent` with its service name
and action, or a value of another type. -/
inductive Payload
  | ServiceStateEvent (Service : String) (Action : ServiceAction)
  | other (description : String)
  deriving DecidableEq, Repr

/-- Modelled from the spec: the constructor `legacy.NewService`, declared in a file of
package `resources/legacy` that is not among the sources; it builds a `legacy/service`
resource with the given id, whose running flag is not set. -/
def legacy.NewService (id : ID) : Resource :=
  .Service
    { Namespace := legacy.NamespaceName, Typ := legacy.ServiceType, ID := id, Version := 1,
      Phase := .PhaseRunning, Finalizers := [] }
    false

/-- The function literal that `ServiceController.Run` passes to `r.Update`: the assertion
`r.(*legacy.Service)` followed by `SetRunning(true)`. -/
def setRunning : Resource → Option Resource
  | .Service md _ => some (.Service md true)
  | _ => none

/-- A line that `ServiceController.Run` prints with `logger.Printf`. -/
inductive ServiceLog
  | failedCreating (service : ID) (err : Error)
  | failedDestroying (service : ID) (err : Error)
  deriving DecidableEq, Repr

/-- The body of the loop of `ServiceController.Run` for one received event: the store and
the log lines after it. -/
def ServiceController.handleEvent {σ : Type} (r : Runtime σ) (st : σ × List ServiceLog)
    (event : Payload) : σ × List ServiceLog :=
  match event with
  | .ServiceStateEvent name action =>
    match action with
    | .RUNNING =>
      match r.Update st.1 (legacy.NewService name) setRunning with
      | (st2, some err) => (st2, st.2 ++ [.failedCreating name err])
      | (st2, none) => (st2, st.2)
    | _ =>
      match r.Destroy st.1 (legacy.NewService name).Metadata with
      | (st2, some err) =>
        if !IsNotFoundError err then (st2, st.2 ++ [.failedDestroying name err]) else (st2, st.2)
      | (st2, none) => (st2, st.2)
  | .other _ => st

/-- The loop of `ServiceController.Run` over the events received before the channel is
closed. -/
def ServiceController.processEvents {σ : Type} (r : Runtime σ) (st : σ)
    (events : List Payload) : σ × List ServiceLog :=
  events.foldl (ServiceController.handleEvent r) (st, [])

/-- Whether an event is a service state event of the service `n`. -/
def isEventOf (n : String) : Payload → Bool
  | .ServiceStateEvent name _ => name == n
  | .other _ => false

/-- The condition of the claim on a sequence of events and a service `n`: there is an event
of the service `n`, and the last one has the action `RUNNING`. -/
def lastEventRunning (n : String) : List Payload → Bool
  | [] => false
  | event :: rest =>
    if rest.any (isEventOf n) then lastEventRunning n rest
    else event == .ServiceStateEvent n .RUNNING

/-- The `legacy/service` resource that the controller writes for a running service. -/
def runningService (id : ID) : Resource :=
  .Service
    { Namespace := legacy.NamespaceName, Typ := legacy.ServiceType, ID := id, Version := 1,
      Phase := .PhaseRunning, Finalizers := [] }
    true

/-! ## talosctl get, list mode -/

/-- The metadata of a received frame (`common.Metadata`), as far as `get` reads it. -/
structure ResponseMetadata where
  Hostname : String
  Error : String
  deriving DecidableEq, Repr

/-- A frame returned by `listClient.Recv` (`client.ResourceResponse`); each of the three
pointers may be nil. -/
structure ResourceResponse where
  Metadata : Option ResponseMetadata
  Definition : Option Resource
  Resource : Option Resource

/-- The getter `msg.Metadata.GetError()`, which gives the empty string for nil metadata. -/
def ResourceResponse.GetError (msg : ResourceResponse) : String :=
  match msg.Metadata with
  | some md => md.Error
  | none => ""

/-- The getter `msg.Metadata.GetHostname()`, which gives the empty string for nil
metadata. -/
def ResourceResponse.GetHostname (msg : ResourceResponse) : String :=
  match msg.Metadata with
  | some md => md.Hostname
  | none => ""

/-- A call made to the `output.Writer`. -/
inductive WriterCall
  | WriteHeader (definition : Resource)
  | WriteResource (node : String) (r : Resource)

/-- The interface `output.Writer`: the error of each call, which may depend on the calls
made before it. -/
structure Writer where
  WriteHeader : List WriterCall → Resource → Option Error
  WriteResource : List WriterCall → String → Resource → Option Error

/-- The state of the list loop of `getCmd.RunE`: the calls made to the writer, the lines
printed to standard error, and the variable `headerWritten`. -/
structure GetState where
  out : List WriterCall
  stderr : List String
  headerWritten : Bool

/-- The start of the list loop: nothing written, `headerWritten` false. -/
def GetState.initial : GetState := { out := [], stderr := [], headerWritten := false }

/-- The header step of the loop body: `if msg.Definition != nil && !headerWritten`. -/
def writeHeaderStep (out : Writer) (st : GetState) (msg : ResourceResponse) :
    GetState × Option Error :=
  match msg.Definition with
  | some definition =>
    if !st.headerWritten then
      match out.WriteHeader st.out definition with
      | some e => ({ st with out := st.out ++ [.WriteHeader definition] }, some e)
      | none => ({ st with out := st.out ++ [.WriteHeader definition], headerWritten := true }, none)
    else (st, none)
  | none => (st, none)

/-- The list loop of `getCmd.RunE` over a stream that delivers `frames` and then fails
`Recv` with `final`: the state at the return and the returned error. -/
def listMode (out : Writer) (st : GetState) : List ResourceResponse → Error →
    GetState × Option Error
  | [], err =>
    if err = Error.EOF ∨ err.statusCode = Code.Canceled then (st, none) else (st, some err)
  | msg :: rest, err =>
    if msg.GetError ≠ "" then
      listMode out
        { st with stderr := st.stderr ++ [msg.GetHostname ++ ": " ++ msg.GetError ++ "\n"] }
        rest err
    else
      match writeHeaderStep out st msg with
      | (st2, some e) => (st2, some e)
      | (st2, none) =>
        match msg.Resource with
        | some r =>
          match out.WriteResource st2.out msg.GetHostname r with
          | some e => ({ st2 with out := st2.out ++ [.WriteResource msg.GetHostname r] }, some e)
          | none =>
            listMode out { st2 with out := st2.out ++ [.WriteResource msg.GetHostname r] }
              rest err
        | none => listMode out st2 rest err

/-- The `WriteResource` calls among the calls made to the writer, in order. -/
def resourceCalls (calls : List WriterCall) : List (String × Resource) :=
  calls.filterMap fun call =>
    match call with
    | .WriteResource node r => some (node, r)
    | .WriteHeader _ => none

/-- The frames without an error that carry a resource, in arrival order, each with its
hostname. -/
def resourceFrames (frames : List ResourceResponse) : List (String × Resource) :=
  frames.filterMap fun msg =>
    if msg.GetError ≠ "" then none else msg.Resource.map fun r => (msg.GetHostname, r)

/-- The lines reported for the frames that carry an error, in arrival order. -/
def errorReports (frames : List ResourceResponse) : List String :=
  frames.filterMap fun msg =>
    if msg.GetError ≠ "" then some (msg.GetHostname ++ ": " ++ msg.GetError ++ "\n") else none

/-- A writer none of whose calls fails. -/
def sampleWriter : Writer :=
  { WriteHeader := fun _ _ => none, WriteResource := fun _ _ _ => none }

/-- Three frames of an aggregated list: a resource of node `a`, a failure of node `b`, a
resource of node `c`. -/
def sampleFrames : List ResourceResponse :=
  [ { Metadata := some { Hostname := "a", Error := "" }, Definition := none,
      Resource := some (runningService "etcd") },
    { Metadata := some { Hostname := "b", Error := "connection refused" }, Definition := none,
      Resource := none },
    { Metadata := some { Hostname := "c", Error := "" }, Definition := none,
      Resource := some (runningService "kubelet") } ]

/-! ## Link merge controller -/

/-- What `LinkMergeController` reaches outside the sources: the constants
`network.ConfigNamespaceName`, `network.NamespaceName` and `network.LinkSpecType`, the
functions `network.LinkID` and `network.NewLinkSpec` and the method `LinkSpecSpec.Merge` of
package `pkg/resources/network` (the receiver after the call and the returned error),
`sort.Slice` of the Go library, and the order in which `range` yields the entries of the
map `links`. -/
structure LinkLibrary where
  ConfigNamespaceName : Namespace
  NamespaceName : Namespace
  LinkSpecType : ResType
  LinkID : String → ID
  NewLinkSpec : Namespace → ID → Resource
  Merge : LinkSpecSpec → LinkSpecSpec → LinkSpecSpec × Option Error
  sortSlice : (LinkSpecSpec → LinkSpecSpec → Bool) → List LinkSpecSpec → List LinkSpecSpec
  rangeLinks : List (ID × LinkSpecSpec) → List (ID × LinkSpecSpec)

/-- The type assertions `.(*network.LinkSpec)` over `list.Items`, which the comparator and
the merge loop make on every item: the values `Status()` of the items, `none` when an
assertion panics. The loop reads nothing else of the items. -/
def linkSpecs : List Resource → Option (List LinkSpecSpec)
  | [] => some []
  | .LinkSpec _ spec :: rest => (linkSpecs rest).map (spec :: ·)
  | _ :: _ => none

/-- The assignment `links[id] = v` on the map kept as a list of entries with distinct
keys. -/
def mapSet (links : List (ID × LinkSpecSpec)) (id : ID) (v : LinkSpecSpec) :
    List (ID × LinkSpecSpec) :=
  match links with
  | [] => [(id, v)]
  | (k, w) :: rest => if k = id then (k, v) :: rest else (k, w) :: mapSet rest id v

/-- The body of the loop that builds `links`, for one item: the map and the warnings logged
after it. `existing` points into the map, so `Merge` changes the entry in place. -/
def mergeStep (lib : LinkLibrary) (acc : List (ID × LinkSpecSpec) × List Error)
    (link : LinkSpecSpec) : List (ID × LinkSpecSpec) × List Error :=
  match acc.1.lookup (lib.LinkID link.Name) with
  | none => (mapSet acc.1 (lib.LinkID link.Name) link, acc.2)
  | some existing =>
    match lib.Merge existing link with
    | (merged, some err) => (mapSet acc.1 (lib.LinkID link.Name) merged, acc.2 ++ [err])
    | (merged, none) => (mapSet acc.1 (lib.LinkID link.Name) merged, acc.2)

/-- The loop `for _, res := range list.Items` that builds `links` from the sorted items. -/
def mergeLinks (lib : LinkLibrary) (sorted : List LinkSpecSpec) :
    List (ID × LinkSpecSpec) × List Error :=
  sorted.foldl (mergeStep lib) ([], [])

/-- The function given to `r.Modify`: `*l.Status() = *link` after the type assertion. -/
def setLinkStatus (link : LinkSpecSpec) : Resource → Option Resource
  | .LinkSpec md _ => some (.LinkSpec md link)
  | _ => none

/-- The loop `for id, link := range links` over the entries in the order of `range`. -/
def LinkMergeController.modifyLoop {σ : Type} (lib : LinkLibrary) (r : Runtime σ) :
    σ → List (ID × LinkSpecSpec) → σ × Option Error
  | st, [] => (st, none)
  | st, (id, link) :: rest =>
    match r.Update st (lib.NewLinkSpec lib.NamespaceName id) (setLinkStatus link) with
    | (st2, some err) => (st2, some (.wrapped "error updating resource" err))
    | (st2, none) => LinkMergeController.modifyLoop lib r st2 rest

/-- The clean up loop over the listed resources of the output namespace. -/
def LinkMergeController.cleanupLoop {σ : Type} (r : Runtime σ)
    (links : List (ID × LinkSpecSpec)) : σ → List Resource → σ × Option Error
  | st, [] => (st, none)
  | st, res :: rest =>
    if (links.lookup res.Metadata.ID).isNone then
      match r.Teardown st res.Metadata with
      | (st2, .error err) => (st2, some (.wrapped "error cleaning up addresses" err))
      | (st2, .ok okToDestroy) =>
        if okToDestroy then
          match r.Destroy st2 res.Metadata with
          | (st3, some err) => (st3, some (.wrapped "error cleaning up addresses" err))
          | (st3, none) => LinkMergeController.cleanupLoop r links st3 rest
        else LinkMergeController.cleanupLoop r links st2 rest
    else LinkMergeController.cleanupLoop r links st rest

/-- One pass through the body of the `for` loop of `LinkMergeController.Run`, after an
event has been received: the store, the warnings logged, and how the pass ends. -/
def LinkMergeController.iteration {σ : Type} (lib : LinkLibrary) (r : Runtime σ) (st : σ) :
    σ × List Error × Outcome :=
  match r.List st lib.ConfigNamespaceName lib.LinkSpecType with
  | .error err => (st, [], .returned (.wrapped "error listing source network routes" err))
  | .ok items =>
    match linkSpecs items with
    | none => (st, [], .panicked)
    | some specs =>
      match LinkMergeController.modifyLoop lib r st
          (lib.rangeLinks (mergeLinks lib (lib.sortSlice linkLess specs)).1) with
      | (st2, some err) =>
        (st2, (mergeLinks lib (lib.sortSlice linkLess specs)).2, .returned err)
      | (st2, none) =>
        match r.List st2 lib.NamespaceName lib.LinkSpecType with
        | .error err =>
          (st2, (mergeLinks lib (lib.sortSlice linkLess specs)).2,
            .returned (.wrapped "error listing resources" err))
        | .ok list =>
          match LinkMergeController.cleanupLoop r
              (mergeLinks lib (lib.sortSlice linkLess specs)).1 st2 list with
          | (st3, some err) =>
            (st3, (mergeLinks lib (lib.sortSlice linkLess specs)).2, .returned err)
          | (st3, none) => (st3, (mergeLinks lib (lib.sortSlice linkLess specs)).2, .next)

/-- The specs among `sorted` whose link id is `id`, in the order of `sorted`. -/
def layersOf (lib : LinkLibrary) (id : ID) (sorted : List LinkSpecSpec) : List LinkSpecSpec :=
  sorted.filter fun s => lib.LinkID s.Name = id

/-- The spec that comes of merging `higher` onto `first` one after the other. -/
def mergeOnto (lib : LinkLibrary) (first : LinkSpecSpec) (higher : List LinkSpecSpec) :
    LinkSpecSpec :=
  higher.foldl (fun acc s => (lib.Merge acc s).1) first

/-- The spec that comes of merging onto `first` those of `higher` whose merge succeeds, and
skipping the others. -/
def mergeOntoSkipping (lib : LinkLibrary) (first : LinkSpecSpec) (higher : List LinkSpecSpec) :
    LinkSpecSpec :=
  higher.foldl (fun acc s => if (lib.Merge acc s).2 = none then (lib.Merge acc s).1 else acc)
    first

/-- The library with the same `Merge` results whose `Merge` never reports an error. -/
def LinkLibrary.silent (lib : LinkLibrary) : LinkLibrary :=
  { lib with Merge := fun a b => ((lib.Merge a b).1, none) }

/-- The calls that the clean up loop makes for one listed resource when nothing fails:
`Teardown`, and `Destroy` after it when `Teardown` answered that the resource is ready. -/
def cleanupCallsOf (md : Metadata) (ready : Bool) : List RuntimeCall :=
  if ready then [.Teardown md (some true), .Destroy md] else [.Teardown md (some false)]

/-- Insertion of an element into a list before the first element that it precedes. -/
def insertBy (less : LinkSpecSpec → LinkSpecSpec → Bool) (x : LinkSpecSpec) :
    List LinkSpecSpec → List LinkSpecSpec
  | [] => [x]
  | y :: ys => if less x y then x :: y :: ys else y :: insertBy less x ys

/-- A sample library: the link id is the link name, `Merge` takes the settings of the other
spec and fails, leaving the receiver as it is, when the other spec has no settings, the
sort is an insertion sort, and `range` yields the entries in reverse. -/
def sampleLinkLibrary : LinkLibrary :=
  { ConfigNamespaceName := "network-config"
    NamespaceName := "network"
    LinkSpecType := "LinkSpecs.net.talos.dev"
    LinkID := fun name => name
    NewLinkSpec := fun ns id =>
      .LinkSpec
        { Namespace := ns, Typ := "LinkSpecs.net.talos.dev", ID := id, Version := 1,
          Phase := .PhaseRunning, Finalizers := [] }
        { Name := "", ConfigLayer := 0, Settings := "" }
    Merge := fun spec other =>
      if other.Settings = "" then (spec, some (.other "nothing to merge"))
      else ({ spec with Settings := spec.Settings ++ "+" ++ other.Settings }, none)
    sortSlice := fun less items => items.foldr (insertBy less) []
    rangeLinks := fun entries => entries.reverse }

/-- Three config specs of the link `eth0` on the layers 2, 0 and 1, the one on layer 1
without settings, and one spec of the link `lo`. -/
def sampleLinkSpecs : List LinkSpecSpec :=
  [ { Name := "eth0", ConfigLayer := 2, Settings := "operator" },
    { Name := "lo", ConfigLayer := 0, Settings := "loopback" },
    { Name := "eth0", ConfigLayer := 0, Settings := "default" },
    { Name := "eth0", ConfigLayer := 1, Settings := "" } ]

/-- The entry of a link id after one more item: the item itself when the id is new, the
existing entry after `Merge` otherwise. -/
def layerStep (lib : LinkLibrary) (entry : Option LinkSpecSpec) (link : LinkSpecSpec) :
    Option LinkSpecSpec :=
  match entry with
  | none => some link
  | some existing => some (lib.Merge existing link).1

/-- The `Modify` call that the controller makes for one entry of `links`, as
`recordingRuntime` records it. -/
def updateCall (lib : LinkLibrary) (entry : ID × LinkSpecSpec) : RuntimeCall :=
  .Update (lib.NewLinkSpec lib.NamespaceName entry.1)
    (setLinkStatus entry.2 (lib.NewLinkSpec lib.NamespaceName entry.1))

/-- Whether the id of a listed resource is not a key of `links`: the test
`_, ok := links[res.Metadata().ID()]; !ok`. -/
def notMerged (links : List (ID × LinkSpecSpec)) (res : Resource) : Bool :=
  (links.lookup res.Metadata.ID).isNone

/-- The metadata of a sample link spec resource. -/
def sampleLinkMetadata (ns : Namespace) (id : ID) (finalizers : List String) : Metadata :=
  { Namespace := ns, Typ := "LinkSpecs.net.talos.dev", ID := id, Version := 1,
    Phase := .PhaseRunning, Finalizers := finalizers }

/-- The resources of the config namespace that carry the sample specs. -/
def sampleLinkItems : List Resource :=
  [ .LinkSpec (sampleLinkMetadata "network-config" "operator/eth0" [])
      { Name := "eth0", ConfigLayer := 2, Settings := "operator" },
    .LinkSpec (sampleLinkMetadata "network-config" "default/lo" [])
      { Name := "lo", ConfigLayer := 0, Settings := "loopback" },
    .LinkSpec (sampleLinkMetadata "network-config" "default/eth0" [])
      { Name := "eth0", ConfigLayer := 0, Settings := "default" },
    .LinkSpec (sampleLinkMetadata "network-config" "platform/eth0" [])
      { Name := "eth0", ConfigLayer := 1, Settings := "" } ]

/-- A store with the sample config items and two link specs of the output namespace that no
config spec names any more: `eth1` without finalizers and `eth2` with a finalizer. -/
def sampleLinkStore : List Resource :=
  sampleLinkItems ++
  [ .LinkSpec (sampleLinkMetadata "network" "eth1" [])
      { Name := "eth1", ConfigLayer := 0, Settings := "old" },
    .LinkSpec (sampleLinkMetadata "network" "eth2" ["network.LinkSpecController"])
      { Name := "eth2", ConfigLayer := 0, Settings := "old" } ]

/-- The store of a control plane node that holds the machine configuration `p` and the
machine type, before any controller has run. -/
def machineConfigStore (p : Provider) : List Resource :=
  [ .V1Alpha1
      { Namespace := config.NamespaceName, Typ := config.V1Alpha1Type, ID := config.V1Alpha1ID,
        Version := 1, Phase := .PhaseRunning, Finalizers := [] }
      p,
    sampleMachineType .TypeControlPlane ]

/-! # Theorems -/

/-! ## Type resolution and the namespace check -/

theorem aliasMatches_iff (t : ResType) (l : List ResType) :
    aliasMatches t l = true ↔ t ∈ l := by
  induction l with
  | nil => simp [aliasMatches]
  | cons a rest ih =>
    by_cases h : a = t
    · simp [aliasMatches, h]
    · have h2 : ¬ t = a := fun e => h e.symm
      simp [aliasMatches, h, h2, ih]

theorem kindMatches_iff (md : Metadata) (spec : ResourceDefinitionSpec) (t : ResType) :
    kindMatches md spec t = true ↔ (md.ID = t ∨ spec.Typ = t ∨ t ∈ spec.Aliases) := by
  unfold kindMatches
  by_cases h1 : md.ID = t
  · simp [h1]
  · by_cases h2 : spec.Typ = t
    · simp [h2]
    · simp [h1, h2, aliasMatches_iff]

theorem kindMatches_false_iff (md : Metadata) (spec : ResourceDefinitionSpec) (t : ResType) :
    kindMatches md spec t = false ↔ ¬ (md.ID = t ∨ spec.Typ = t ∨ t ∈ spec.Aliases) := by
  rw [← kindMatches_iff]
  simp

theorem resolveLoop_defs (s : Server) (kind : resourceKind)
    (defs : List (Metadata × ResourceDefinitionSpec)) :
    (∃ pre d post, defs = pre ++ d :: post
        ∧ (∀ x ∈ pre, kindMatches x.1 x.2 kind.Typ = false)
        ∧ kindMatches d.1 d.2 kind.Typ = true
        ∧ resolveLoop s kind (defs.map definitionResource)
            = (.ok (definitionResource d), resolvedKind kind d))
    ∨ ((∀ x ∈ defs, kindMatches x.1 x.2 kind.Typ = false)
        ∧ resolveLoop s kind (defs.map definitionResource)
            = (.error (.status .NotFound
                ("resource " ++ s.quote kind.Typ ++ " is not registered")), kind)) := by
  induction defs with
  | nil => right; simp [resolveLoop]
  | cons d rest ih =>
    by_cases hm : kindMatches d.1 d.2 kind.Typ = true
    · left
      refine ⟨[], d, rest, rfl, by simp, hm, ?_⟩
      by_cases hns : kind.Namespace = "" <;>
        simp [resolveLoop, definitionResource, resolvedKind, hm, hns]
    · have hm2 : kindMatches d.1 d.2 kind.Typ = false := by simpa using hm
      rcases ih with ⟨pre, d2, post, hsplit, hpre, hd2, hres⟩ | ⟨hall, hres⟩
      · left
        refine ⟨d :: pre, d2, post, by simp [hsplit], ?_, hd2, ?_⟩
        · intro x hx
          rcases List.mem_cons.mp hx with rfl | hx
          · exact hm2
          · exact hpre x hx
        · rw [← hres]
          simp [resolveLoop, definitionResource, hm2]
      · right
        refine ⟨?_, ?_⟩
        · intro x hx
          rcases List.mem_cons.mp hx with rfl | hx
          · exact hm2
          · exact hall x hx
        · rw [← hres]
          simp [resolveLoop, definitionResource, hm2]

theorem resolveLoop_ok (s : Server) (kind : resourceKind) (items : List Resource)
    (r : Resource) (kind2 : resourceKind)
    (h : resolveLoop s kind items = (.ok r, kind2)) :
    ∃ md spec, r = .ResourceDefinition md spec ∧ r ∈ items
      ∧ kindMatches md spec kind.Typ = true ∧ kind2 = resolvedKind kind (md, spec) := by
  induction items with
  | nil => simp [resolveLoop] at h
  | cons item rest ih =>
    cases item with
    | ResourceDefinition md spec =>
      by_cases hm : kindMatches md spec kind.Typ = true
      · by_cases hns : kind.Namespace = "" <;>
          simp [resolveLoop, hm, hns] at h <;>
          exact ⟨md, spec, h.1.symm, by simp [← h.1], hm, by simp [resolvedKind, hns, ← h.2]⟩
      · have hm2 : kindMatches md spec kind.Typ = false := by simpa using hm
        simp only [resolveLoop, hm2] at h
        obtain ⟨md2, spec2, h1, h2, h3, h4⟩ := ih (by simpa using h)
        exact ⟨md2, spec2, h1, List.mem_cons_of_mem _ h2, h3, h4⟩
    | MachineType _ _ => simp [resolveLoop] at h
    | K8sControlPlane _ _ => simp [resolveLoop] at h
    | StaticPod _ _ => simp [resolveLoop] at h
    | Other _ _ => simp [resolveLoop] at h
    | Service _ _ => simp [resolveLoop] at h
    | V1Alpha1 _ _ => simp [resolveLoop] at h
    | LinkSpec _ _ => simp [resolveLoop] at h

theorem resolveLoop_error_kind (s : Server) (kind : resourceKind) (items : List Resource)
    (e : Error) (kind2 : resourceKind)
    (h : resolveLoop s kind items = (.error e, kind2)) : kind2 = kind := by
  induction items with
  | nil => simp [resolveLoop] at h; exact h.2.symm
  | cons item rest ih =>
    cases item with
    | ResourceDefinition md spec =>
      by_cases hm : kindMatches md spec kind.Typ = true
      · by_cases hns : kind.Namespace = "" <;> simp [resolveLoop, hm, hns] at h
      · have hm2 : kindMatches md spec kind.Typ = false := by simpa using hm
        simp only [resolveLoop, hm2] at h
        exact ih (by simpa using h)
    | MachineType _ _ => simp [resolveLoop] at h; exact h.2.symm
    | K8sControlPlane _ _ => simp [resolveLoop] at h; exact h.2.symm
    | StaticPod _ _ => simp [resolveLoop] at h; exact h.2.symm
    | Other _ _ => simp [resolveLoop] at h; exact h.2.symm
    | Service _ _ => simp [resolveLoop] at h; exact h.2.symm
    | V1Alpha1 _ _ => simp [resolveLoop] at h; exact h.2.symm
    | LinkSpec _ _ => simp [resolveLoop] at h; exact h.2.symm

end Talos

namespace Talos

/-- C1: when the registry lists only resource definitions and at least one of them matches
the requested type (by metadata ID, by spec type or by an alias), `resolveResourceKind`
succeeds, returns the first matching definition in list order, and sets `kind.Type` to the
metadata ID of that definition. -/
theorem resolveResourceKind_first_match (s : Server) (kind : resourceKind)
    (defs : List (Metadata × ResourceDefinitionSpec))
    (hlist : s.List s.coreNamespaceName s.coreResourceDefinitionType
      = .ok (defs.map definitionResource))
    (hmatch : ∃ d ∈ defs, d.1.ID = kind.Typ ∨ d.2.Typ = kind.Typ ∨ kind.Typ ∈ d.2.Aliases) :
    ∃ pre d post, defs = pre ++ d :: post
      ∧ (∀ x ∈ pre, ¬ (x.1.ID = kind.Typ ∨ x.2.Typ = kind.Typ ∨ kind.Typ ∈ x.2.Aliases))
      ∧ (d.1.ID = kind.Typ ∨ d.2.Typ = kind.Typ ∨ kind.Typ ∈ d.2.Aliases)
      ∧ (resolveResourceKind s kind).1 = .ok (.ResourceDefinition d.1 d.2)
      ∧ (resolveResourceKind s kind).2.Typ = d.1.ID := by
  rcases resolveLoop_defs s kind defs with ⟨pre, d, post, hsplit, hpre, hd, hres⟩ | ⟨hall, _⟩
  · refine ⟨pre, d, post, hsplit, ?_, (kindMatches_iff _ _ _).mp hd, ?_, ?_⟩
    · intro x hx
      exact (kindMatches_false_iff _ _ _).mp (hpre x hx)
    · simp [resolveResourceKind, hlist, hres, definitionResource]
    · simp [resolveResourceKind, hlist, hres, resolvedKind]
  · obtain ⟨d, hd, hm⟩ := hmatch
    exact absurd hm ((kindMatches_false_iff _ _ _).mp (hall d hd))

theorem resolveResourceKind_first_match_witness :
    ∃ pre d post, sampleDefinitions = pre ++ d :: post
      ∧ (∀ x ∈ pre, ¬ (x.1.ID = "controlPlane" ∨ x.2.Typ = "controlPlane"
          ∨ "controlPlane" ∈ x.2.Aliases))
      ∧ (d.1.ID = "controlPlane" ∨ d.2.Typ = "controlPlane" ∨ "controlPlane" ∈ d.2.Aliases)
      ∧ (resolveResourceKind sampleServer { Namespace := "", Typ := "controlPlane" }).1
          = .ok (.ResourceDefinition d.1 d.2)
      ∧ (resolveResourceKind sampleServer { Namespace := "", Typ := "controlPlane" }).2.Typ
          = d.1.ID :=
  resolveResourceKind_first_match sampleServer { Namespace := "", Typ := "controlPlane" }
    sampleDefinitions (by rfl)
    ⟨(sampleDefinitionMetadata "config/k8sControlPlane",
        config.K8sControlPlane.ResourceDefinition),
      by simp [sampleDefinitions],
      Or.inr (Or.inr (by simp [config.K8sControlPlane.ResourceDefinition]))⟩

/-- C2: whenever `resolveResourceKind` succeeds, an empty requested namespace is replaced by
the default namespace of the matched definition, and a non-empty requested namespace is
left unchanged. -/
theorem resolveResourceKind_namespace (s : Server) (kind kind2 : resourceKind) (r : Resource)
    (h : resolveResourceKind s kind = (.ok r, kind2)) :
    ∃ md spec, r = .ResourceDefinition md spec
      ∧ (kind.Namespace = "" → kind2.Namespace = spec.DefaultNamespace)
      ∧ (kind.Namespace ≠ "" → kind2.Namespace = kind.Namespace) := by
  unfold resolveResourceKind at h
  cases hl : s.List s.coreNamespaceName s.coreResourceDefinitionType with
  | error err => simp [hl] at h
  | ok items =>
    simp only [hl] at h
    obtain ⟨md, spec, hr, _, _, hk⟩ := resolveLoop_ok s kind items r kind2 h
    refine ⟨md, spec, hr, ?_, ?_⟩
    · intro hns
      simp [hk, resolvedKind, hns]
    · intro hns
      simp [hk, resolvedKind, hns]

theorem resolveResourceKind_namespace_witness :
    ∃ md spec, definitionResource (sampleDefinitionMetadata "config/k8sControlPlane",
          config.K8sControlPlane.ResourceDefinition) = .ResourceDefinition md spec
      ∧ (("" : String) = "" → ("config" : String) = spec.DefaultNamespace)
      ∧ (("" : String) ≠ "" → ("config" : String) = "") :=
  resolveResourceKind_namespace sampleServer { Namespace := "", Typ := "controlPlane" }
    { Namespace := "config", Typ := "config/k8sControlPlane" }
    (definitionResource (sampleDefinitionMetadata "config/k8sControlPlane",
      config.K8sControlPlane.ResourceDefinition)) (by rfl)

/-- C3: when listing the definitions succeeds and every listed item is a resource definition,
`resolveResourceKind` fails with gRPC code `NotFound` if and only if none of the listed
items matches the requested type by metadata ID, spec type or alias; and on a failure
`kind.Type` and `kind.Namespace` are left unchanged. -/
theorem resolveResourceKind_notFound_iff (s : Server) (kind : resourceKind)
    (defs : List (Metadata × ResourceDefinitionSpec))
    (hlist : s.List s.coreNamespaceName s.coreResourceDefinitionType
      = .ok (defs.map definitionResource)) :
    ((∃ e, (resolveResourceKind s kind).1 = .error e ∧ e.statusCode = Code.NotFound)
        ↔ ∀ d ∈ defs, ¬ (d.1.ID = kind.Typ ∨ d.2.Typ = kind.Typ ∨ kind.Typ ∈ d.2.Aliases))
      ∧ (∀ e, (resolveResourceKind s kind).1 = .error e
          → (resolveResourceKind s kind).2 = kind) := by
  have hrw : resolveResourceKind s kind = resolveLoop s kind (defs.map definitionResource) := by
    simp [resolveResourceKind, hlist]
  rw [hrw]
  rcases resolveLoop_defs s kind defs with ⟨pre, d, post, hsplit, _, hd, hres⟩ | ⟨hall, hres⟩
  · rw [hres]
    refine ⟨⟨?_, ?_⟩, ?_⟩
    · rintro ⟨e, he, _⟩
      simp at he
    · intro hno
      have hmem : d ∈ defs := by simp [hsplit]
      exact absurd ((kindMatches_iff _ _ _).mp hd) (hno d hmem)
    · intro e he
      simp at he
  · rw [hres]
    refine ⟨⟨?_, ?_⟩, ?_⟩
    · intro _ d hd
      exact (kindMatches_false_iff _ _ _).mp (hall d hd)
    · intro _
      exact ⟨_, rfl, rfl⟩
    · intro e _
      rfl

theorem resolveResourceKind_notFound_iff_witness :
    ((∃ e, (resolveResourceKind sampleServer { Namespace := "", Typ := "nodes" }).1 = .error e
          ∧ e.statusCode = Code.NotFound)
        ↔ ∀ d ∈ sampleDefinitions,
            ¬ (d.1.ID = "nodes" ∨ d.2.Typ = "nodes" ∨ "nodes" ∈ d.2.Aliases))
      ∧ (∀ e, (resolveResourceKind sampleServer { Namespace := "", Typ := "nodes" }).1 = .error e
          → (resolveResourceKind sampleServer { Namespace := "", Typ := "nodes" }).2
              = { Namespace := "", Typ := "nodes" }) :=
  resolveResourceKind_notFound_iff sampleServer { Namespace := "", Typ := "nodes" }
    sampleDefinitions (by rfl)

theorem namespaceLoop_iff (s : Server) (kind : resourceKind) (items : List Resource) :
    (namespaceLoop s kind items = none ↔ ∃ ns ∈ items, ns.Metadata.ID = kind.Namespace)
      ∧ (∀ e, namespaceLoop s kind items = some e → e.statusCode = Code.NotFound) := by
  induction items with
  | nil => simp [namespaceLoop, Error.statusCode]
  | cons ns rest ih =>
    by_cases h : ns.Metadata.ID = kind.Namespace
    · simp [namespaceLoop, h]
    · simp [namespaceLoop, h, ih.1]
      exact ih.2

/-- C4: when listing the namespaces succeeds, `checkReadAccess` returns nil if and only if
`kind.Namespace` is the ID of one of the listed namespace resources; every error it returns
in that case has gRPC code `NotFound`. -/
theorem checkReadAccess_iff (s : Server) (kind : resourceKind) (namespaces : List Resource)
    (hlist : s.List s.coreNamespaceName s.coreNamespaceType = .ok namespaces) :
    (checkReadAccess s kind = none ↔ ∃ ns ∈ namespaces, ns.Metadata.ID = kind.Namespace)
      ∧ (∀ e, checkReadAccess s kind = some e → e.statusCode = Code.NotFound) := by
  have hrw : checkReadAccess s kind = namespaceLoop s kind namespaces := by
    simp [checkReadAccess, hlist]
  rw [hrw]
  exact namespaceLoop_iff s kind namespaces

theorem checkReadAccess_iff_witness :
    (checkReadAccess sampleServer { Namespace := "config", Typ := "config/k8sControlPlane" } = none
        ↔ ∃ ns ∈ [sampleNamespace "meta", sampleNamespace "config", sampleNamespace "controlplane"],
            ns.Metadata.ID = "config")
      ∧ (∀ e, checkReadAccess sampleServer
            { Namespace := "config", Typ := "config/k8sControlPlane" } = some e
          → e.statusCode = Code.NotFound) :=
  checkReadAccess_iff sampleServer { Namespace := "config", Typ := "config/k8sControlPlane" }
    [sampleNamespace "meta", sampleNamespace "config", sampleNamespace "controlplane"] (by rfl)

/-! ## Get -/

/-- C5: whenever type resolution, the namespace check, the store lookup and both
serializations succeed, `Get` returns a response with exactly one message whose
`definition` is the marshalled matched definition and whose `resource` is the marshalled
resource that the store returned for the resolved namespace, the canonical type (the
metadata ID of the matched definition) and the requested id. -/
theorem Get_success (s : Server) (inNamespace : Namespace) (inType : ResType) (inId : ID)
    (d r : Resource) (kind : resourceKind) (protoD protoR : ProtoResource)
    (hres : resolveResourceKind s { Namespace := inNamespace, Typ := inType } = (.ok d, kind))
    (hchk : checkReadAccess s kind = none)
    (hget : s.Get kind.Namespace kind.Typ inId = .ok r)
    (hD : marshalResource s d = .ok protoD)
    (hR : marshalResource s r = .ok protoR) :
    ResourceServer.Get s inNamespace inType inId
        = .ok { Messages := [{ Definition := some protoD, Resource := some protoR }] }
      ∧ ∃ md spec, d = .ResourceDefinition md spec ∧ kind.Typ = md.ID := by
  refine ⟨?_, ?_⟩
  · simp [ResourceServer.Get, hres, hchk, hget, hD, hR]
  · unfold resolveResourceKind at hres
    cases hl : s.List s.coreNamespaceName s.coreResourceDefinitionType with
    | error err => simp [hl] at hres
    | ok items =>
      simp only [hl] at hres
      obtain ⟨md, spec, hr, _, _, hk⟩ := resolveLoop_ok s _ items d kind hres
      exact ⟨md, spec, hr, by simp [hk, resolvedKind]⟩

theorem Get_success_witness :
    ResourceServer.Get sampleServer "" "controlPlane" "kube-apiserver"
        = .ok { Messages :=
            [{ Definition := some
                 { Metadata :=
                     { Namespace := "meta", Typ := "ResourceDefinition",
                       Id := "config/k8sControlPlane", Version := "1", Phase := "running",
                       Finalizers := [] },
                   Yaml := "type: config/k8sControlPlane" },
               Resource := some
                 { Metadata :=
                     { Namespace := "config", Typ := "config/k8sControlPlane",
                       Id := "kube-apiserver", Version := "1", Phase := "running",
                       Finalizers := [] },
                   Yaml := "spec" } }] }
      ∧ ∃ md spec, definitionResource (sampleDefinitionMetadata "config/k8sControlPlane",
            config.K8sControlPlane.ResourceDefinition) = .ResourceDefinition md spec
          ∧ ("config/k8sControlPlane" : String) = md.ID :=
  Get_success sampleServer "" "controlPlane" "kube-apiserver"
    (definitionResource (sampleDefinitionMetadata "config/k8sControlPlane",
      config.K8sControlPlane.ResourceDefinition))
    sampleAPIServerResource
    { Namespace := "config", Typ := "config/k8sControlPlane" } _ _
    (by rfl) (by rfl) (by rfl) (by rfl) (by rfl)

/-- C8: in `Get`, after type resolution and the namespace check have succeeded, a store
lookup that reports not-found makes `Get` return no response and a status error with code
`NotFound` whose message is the text of the store error; a store error that is not
not-found is returned unchanged. -/
theorem Get_store_error (s : Server) (inNamespace : Namespace) (inType : ResType) (inId : ID)
    (d : Resource) (kind : resourceKind) (e : Error)
    (hres : resolveResourceKind s { Namespace := inNamespace, Typ := inType } = (.ok d, kind))
    (hchk : checkReadAccess s kind = none)
    (hget : s.Get kind.Namespace kind.Typ inId = .error e) :
    (IsNotFoundError e = true →
        ResourceServer.Get s inNamespace inType inId = .error (.status .NotFound e.errorText)
          ∧ (Error.status Code.NotFound e.errorText).statusCode = Code.NotFound)
      ∧ (IsNotFoundError e = false → ResourceServer.Get s inNamespace inType inId = .error e) := by
  refine ⟨?_, ?_⟩
  · intro hnf
    exact ⟨by simp [ResourceServer.Get, hres, hchk, hget, hnf], rfl⟩
  · intro hnf
    simp [ResourceServer.Get, hres, hchk, hget, hnf]

theorem Get_store_error_witness :
    (IsNotFoundError (.stateNotFound "resource doesn't exist") = true →
        ResourceServer.Get sampleServer "" "controlPlane" "kube-scheduler"
            = .error (.status .NotFound (Error.stateNotFound "resource doesn't exist").errorText)
          ∧ (Error.status Code.NotFound
              (Error.stateNotFound "resource doesn't exist").errorText).statusCode
              = Code.NotFound)
      ∧ (IsNotFoundError (.stateNotFound "resource doesn't exist") = false →
          ResourceServer.Get sampleServer "" "controlPlane" "kube-scheduler"
            = .error (.stateNotFound "resource doesn't exist")) :=
  Get_store_error sampleServer "" "controlPlane" "kube-scheduler"
    (definitionResource (sampleDefinitionMetadata "config/k8sControlPlane",
      config.K8sControlPlane.ResourceDefinition))
    { Namespace := "config", Typ := "config/k8sControlPlane" }
    (.stateNotFound "resource doesn't exist") (by rfl) (by rfl) (by rfl)

/-! ## List -/

theorem listLoop_ok (s : Server) (srv : ListServer) (items : List Resource) :
    ∀ (sent sent2 : List ListResponse), listLoop s srv sent items = (sent2, none) →
      ∃ ps, List.Forall₂ (fun r p => marshalResource s r = .ok p) items ps
        ∧ sent2 = sent ++ ps.map (fun p => (⟨none, some p⟩ : ListResponse)) := by
  induction items with
  | nil =>
    intro sent sent2 h
    simp [listLoop] at h
    exact ⟨[], List.Forall₂.nil, by simp [h]⟩
  | cons r rest ih =>
    intro sent sent2 h
    cases hm : marshalResource s r with
    | error err => simp [listLoop, hm] at h
    | ok protoR =>
      cases hs : srv.Send sent ⟨none, some protoR⟩ with
      | some err => simp [listLoop, hm, hs] at h
      | none =>
        simp only [listLoop, hm, hs] at h
        obtain ⟨ps, hps, hsent⟩ := ih _ _ h
        exact ⟨protoR :: ps, List.Forall₂.cons hm hps, by simp [hsent]⟩

theorem listLoop_fail (s : Server) (srv : ListServer) (r : Resource) (post : List Resource)
    (e : Error) (pre : List Resource) (ps : List ProtoResource)
    (hpre : List.Forall₂ (fun r p => marshalResource s r = .ok p) pre ps) :
    ∀ (sent : List ListResponse),
      (∀ i (h : i < ps.length),
        srv.Send (sent ++ (ps.take i).map (fun p => (⟨none, some p⟩ : ListResponse)))
          ⟨none, some ps[i]⟩ = none) →
      (marshalResource s r = .error e
        ∨ ∃ p, marshalResource s r = .ok p
            ∧ srv.Send (sent ++ ps.map (fun p => (⟨none, some p⟩ : ListResponse)))
                ⟨none, some p⟩ = some e) →
      listLoop s srv sent (pre ++ r :: post)
        = (sent ++ ps.map (fun p => (⟨none, some p⟩ : ListResponse)), some e) := by
  induction hpre with
  | nil =>
    intro sent _ hfail
    rcases hfail with hm | ⟨p, hm, hs⟩
    · simp [listLoop, hm]
    · simp at hs
      simp [listLoop, hm, hs]
  | @cons a p pre2 ps2 ha _ ih =>
    intro sent hsend hfail
    have h0 := hsend 0 (by simp)
    simp at h0
    have hrec := ih (sent ++ [⟨none, some p⟩])
      (by
        intro i h
        have := hsend (i + 1) (by simpa using h)
        simpa using this)
      (by
        rcases hfail with hm | ⟨q, hm, hs⟩
        · exact Or.inl hm
        · exact Or.inr ⟨q, hm, by simpa using hs⟩)
    have hstep : listLoop s srv sent ((a :: pre2) ++ r :: post)
        = listLoop s srv (sent ++ [⟨none, some p⟩]) (pre2 ++ r :: post) := by
      show listLoop s srv sent (a :: (pre2 ++ r :: post)) = _
      simp only [listLoop, ha, h0]
    rw [hstep, hrec]
    simp

/-- C6: once type resolution, the namespace check and the store listing have succeeded, a
`List` call that returns nil has sent exactly `n + 1` frames for a listing of `n` resources:
the first carries the marshalled definition and no resource, and the following ones carry
the marshalled resources, one per frame and without a definition, in the order of the store
listing. If marshalling or sending fails at a frame, the frames sent are exactly the ones
before it and the error of that step is returned. -/
theorem List_frames (s : Server) (srv : ListServer) (inNamespace : Namespace) (inType : ResType)
    (d : Resource) (kind : resourceKind) (items : List Resource)
    (hres : resolveResourceKind s { Namespace := inNamespace, Typ := inType } = (.ok d, kind))
    (hchk : checkReadAccess s kind = none)
    (hlist : s.List kind.Namespace kind.Typ = .ok items) :
    (∀ sent, ResourceServer.List s srv inNamespace inType = (sent, none) →
        ∃ protoD ps, marshalResource s d = .ok protoD
          ∧ List.Forall₂ (fun r p => marshalResource s r = .ok p) items ps
          ∧ sent = (⟨some protoD, none⟩ : ListResponse)
              :: ps.map (fun p => (⟨none, some p⟩ : ListResponse))
          ∧ sent.length = items.length + 1)
      ∧ (∀ e, (marshalResource s d = .error e
            ∨ ∃ protoD, marshalResource s d = .ok protoD
                ∧ srv.Send [] ⟨some protoD, none⟩ = some e) →
          ResourceServer.List s srv inNamespace inType = ([], some e))
      ∧ (∀ e protoD pre r post ps, items = pre ++ r :: post →
          marshalResource s d = .ok protoD →
          List.Forall₂ (fun r p => marshalResource s r = .ok p) pre ps →
          srv.Send [] ⟨some protoD, none⟩ = none →
          (∀ i (h : i < ps.length),
            srv.Send ((⟨some protoD, none⟩ : ListResponse)
                :: (ps.take i).map (fun p => (⟨none, some p⟩ : ListResponse)))
              ⟨none, some ps[i]⟩ = none) →
          (marshalResource s r = .error e
            ∨ ∃ p, marshalResource s r = .ok p
                ∧ srv.Send ((⟨some protoD, none⟩ : ListResponse)
                    :: ps.map (fun p => (⟨none, some p⟩ : ListResponse)))
                  ⟨none, some p⟩ = some e) →
          ResourceServer.List s srv inNamespace inType
            = ((⟨some protoD, none⟩ : ListResponse)
                :: ps.map (fun p => (⟨none, some p⟩ : ListResponse)), some e)) := by
  refine ⟨?_, ?_, ?_⟩
  · intro sent h
    cases hD : marshalResource s d with
    | error err => simp [ResourceServer.List, hres, hchk, hlist, hD] at h
    | ok protoD =>
      cases hs : srv.Send [] ⟨some protoD, none⟩ with
      | some err => simp [ResourceServer.List, hres, hchk, hlist, hD, hs] at h
      | none =>
        simp only [ResourceServer.List, hres, hchk, hlist, hD, hs] at h
        obtain ⟨ps, hps, hsent⟩ := listLoop_ok s srv items _ _ h
        refine ⟨protoD, ps, rfl, hps, by simpa using hsent, ?_⟩
        rw [hsent]
        simp [hps.length_eq]
  · intro e hfail
    rcases hfail with hD | ⟨protoD, hD, hs⟩
    · simp [ResourceServer.List, hres, hchk, hlist, hD]
    · simp [ResourceServer.List, hres, hchk, hlist, hD, hs]
  · intro e protoD pre r post ps hsplit hD hpre hs0 hsend hfail
    simp only [ResourceServer.List, hres, hchk, hlist, hD, hs0, hsplit]
    have := listLoop_fail s srv r post e pre ps hpre [⟨some protoD, none⟩]
      (by simpa using hsend) (by simpa using hfail)
    simpa using this

theorem List_frames_witness :
    ∃ protoD ps,
      marshalResource sampleServer
          (definitionResource (sampleDefinitionMetadata "config/k8sControlPlane",
            config.K8sControlPlane.ResourceDefinition)) = .ok protoD
        ∧ List.Forall₂ (fun r p => marshalResource sampleServer r = .ok p)
            [sampleAPIServerResource] ps
        ∧ (ResourceServer.List sampleServer sampleStream "" "controlPlane").1
            = (⟨some protoD, none⟩ : ListResponse)
                :: ps.map (fun p => (⟨none, some p⟩ : ListResponse))
        ∧ (ResourceServer.List sampleServer sampleStream "" "controlPlane").1.length
            = [sampleAPIServerResource].length + 1 :=
  (List_frames sampleServer sampleStream "" "controlPlane"
    (definitionResource (sampleDefinitionMetadata "config/k8sControlPlane",
      config.K8sControlPlane.ResourceDefinition))
    { Namespace := "config", Typ := "config/k8sControlPlane" }
    [sampleAPIServerResource] (by rfl) (by rfl) (by rfl)).1
    (ResourceServer.List sampleServer sampleStream "" "controlPlane").1 (by rfl)

/-! ## Serialization errors -/

theorem marshalResource_error_iff (s : Server) (r : Resource) (e : Error) :
    marshalResource s r = .error e ↔ ∃ v, r.Spec = some v ∧ s.yamlMarshal v = .error e := by
  unfold marshalResource
  cases hsp : r.Spec with
  | none => simp
  | some v =>
    cases hy : s.yamlMarshal v with
    | error err => simp [hy]
    | ok yaml => simp [hy]

/-- C7, as stated, fails: on a server whose YAML encoder fails, `Get` returns the error of
the encoder as it is, and the gRPC code of that error is `Unknown`, not `Internal`. -/
theorem Get_marshal_error_code_not_Internal :
    sampleAPIServerResource.Spec = some (.apiServer sampleAPIServerSpec)
      ∧ failingMarshalServer.yamlMarshal (.apiServer sampleAPIServerSpec)
          = .error (.other "yaml: cannot marshal")
      ∧ ResourceServer.Get failingMarshalServer "" "controlPlane" "kube-apiserver"
          = .error (.other "yaml: cannot marshal")
      ∧ (ResourceServer.List failingMarshalServer sampleStream "" "controlPlane").2
          = some (.other "yaml: cannot marshal")
      ∧ (Error.other "yaml: cannot marshal").statusCode = Code.Unknown
      ∧ (Error.other "yaml: cannot marshal").statusCode ≠ Code.Internal := by
  refine ⟨rfl, rfl, rfl, rfl, rfl, ?_⟩
  decide

/-- C7, amended: in `Get` and `List`, whenever serializing the definition or a resource
(that is, `yaml.Marshal` on its spec) fails with an error, the error returned to the client
is that same error, unchanged; the server attaches no gRPC status code to it. -/
theorem marshal_error_returned_unchanged (s : Server) (srv : ListServer)
    (inNamespace : Namespace) (inType : ResType) (inId : ID)
    (d : Resource) (kind : resourceKind) (e : Error)
    (hres : resolveResourceKind s { Namespace := inNamespace, Typ := inType } = (.ok d, kind))
    (hchk : checkReadAccess s kind = none) :
    (∀ r, marshalResource s r = .error e ↔ ∃ v, r.Spec = some v ∧ s.yamlMarshal v = .error e)
      ∧ (∀ r, s.Get kind.Namespace kind.Typ inId = .ok r →
          (marshalResource s d = .error e
            ∨ ∃ protoD, marshalResource s d = .ok protoD ∧ marshalResource s r = .error e) →
          ResourceServer.Get s inNamespace inType inId = .error e)
      ∧ (∀ items, s.List kind.Namespace kind.Typ = .ok items →
          (marshalResource s d = .error e →
            (ResourceServer.List s srv inNamespace inType).2 = some e)
          ∧ (∀ protoD pre r post ps, items = pre ++ r :: post →
              marshalResource s d = .ok protoD →
              List.Forall₂ (fun r p => marshalResource s r = .ok p) pre ps →
              srv.Send [] ⟨some protoD, none⟩ = none →
              (∀ i (h : i < ps.length),
                srv.Send ((⟨some protoD, none⟩ : ListResponse)
                    :: (ps.take i).map (fun p => (⟨none, some p⟩ : ListResponse)))
                  ⟨none, some ps[i]⟩ = none) →
              marshalResource s r = .error e →
              (ResourceServer.List s srv inNamespace inType).2 = some e)) := by
  refine ⟨fun r => marshalResource_error_iff s r e, ?_, ?_⟩
  · intro r hget hfail
    rcases hfail with hD | ⟨protoD, hD, hR⟩
    · simp [ResourceServer.Get, hres, hchk, hget, hD]
    · simp [ResourceServer.Get, hres, hchk, hget, hD, hR]
  · intro items hlist
    refine ⟨?_, ?_⟩
    · intro hD
      simp [ResourceServer.List, hres, hchk, hlist, hD]
    · intro protoD pre r post ps hsplit hD hpre hs0 hsend hR
      simp only [ResourceServer.List, hres, hchk, hlist, hD, hs0, hsplit]
      have := listLoop_fail s srv r post e pre ps hpre [⟨some protoD, none⟩]
        (by simpa using hsend) (Or.inl hR)
      rw [this]

theorem marshal_error_returned_unchanged_witness :
    ResourceServer.Get failingMarshalServer "" "controlPlane" "kube-apiserver"
      = .error (.other "yaml: cannot marshal") :=
  (marshal_error_returned_unchanged failingMarshalServer sampleStream "" "controlPlane"
    "kube-apiserver"
    (definitionResource (sampleDefinitionMetadata "config/k8sControlPlane",
      config.K8sControlPlane.ResourceDefinition))
    { Namespace := "config", Typ := "config/k8sControlPlane" }
    (.other "yaml: cannot marshal") (by rfl) (by rfl)).2.1
    sampleAPIServerResource (by rfl) (Or.inl (by rfl))

/-! ## Streaming patterns -/

theorem matchHere_suffixOps (cs : List Char) :
    ∀ (b : Bool) (input : List Char), matchHere (suffixOps cs) b input = true ↔ input = cs := by
  induction cs with
  | nil =>
    intro b input
    cases input <;> simp [suffixOps, matchHere]
  | cons c cs ih =>
    intro b input
    cases input with
    | nil => simp [suffixOps, matchHere]
    | cons x input =>
      have := ih false input
      simp only [suffixOps] at this
      simp [suffixOps, matchHere, this]

theorem matchFrom_beginText_false (ops : List RegexOp) :
    ∀ (input : List Char), matchFrom (RegexOp.beginText :: ops) false input = false := by
  intro input
  induction input with
  | nil => simp [matchFrom, matchHere]
  | cons x input ih => simp [matchFrom, matchHere, ih]

theorem matchFrom_exactOps (cs input : List Char) :
    matchFrom (exactOps cs) true input = true ↔ input = cs := by
  have h := matchHere_suffixOps cs true input
  simp only [suffixOps] at h
  cases input with
  | nil => simpa [exactOps, matchFrom, matchHere] using h
  | cons x input =>
    simp only [exactOps, matchFrom, matchFrom_beginText_false, Bool.or_false]
    simpa [matchHere] using h

theorem matchFrom_suffixOps (cs : List Char) :
    ∀ (b : Bool) (input : List Char), matchFrom (suffixOps cs) b input = true ↔ cs <:+ input := by
  intro b input
  induction input generalizing b with
  | nil =>
    simp only [matchFrom, matchHere_suffixOps]
    constructor
    · intro h
      rw [← h]
    · intro h
      exact (List.suffix_nil.mp h).symm
  | cons x input ih =>
    simp only [matchFrom, Bool.or_eq_true, matchHere_suffixOps, ih, List.suffix_cons_iff]
    constructor
    · rintro (h | h)
      · exact Or.inl h.symm
      · exact Or.inr h
    · rintro (h | h)
      · exact Or.inl h.symm
      · exact Or.inr h

theorem registeredStreamedRegexes_compiled :
    registeredStreamedRegexes.map regexpCompile
      = streamedMethodNames.map (fun n => some (exactOps n.data))
          ++ [some (suffixOps "Stream".data)] := by
  decide

theorem any_exactOps_iff (name : String) (names : List String) :
    (names.map (fun n => some (exactOps n.data))).any (fun re =>
        match re with
        | some ops => MatchString ops name
        | none => false) = true
      ↔ name ∈ names := by
  induction names with
  | nil => simp
  | cons n rest ih =>
    have hn : MatchString (exactOps n.data) name = true ↔ name = n := by
      rw [MatchString, matchFrom_exactOps]
      exact ⟨fun h => String.ext h, fun h => by rw [h]⟩
    simp only [List.map_cons, List.any_cons, Bool.or_eq_true, ih, hn, List.mem_cons]

/-- C9: with the patterns registered in `main`, a full method name is matched by at least
one registered pattern if and only if it equals one of the twelve listed method names or it
ends with `Stream`; a name that extends a listed name, or that contains a listed name after
a prefix, is not matched. -/
theorem matchedByStreamedRegex_iff :
    (∀ name : String, matchedByStreamedRegex name = true
        ↔ (name ∈ streamedMethodNames ∨ ∃ pre : String, name = pre ++ "Stream"))
      ∧ streamedMethodNames.length = 12
      ∧ matchedByStreamedRegex "/machine.MachineService/ListFoo" = false
      ∧ matchedByStreamedRegex "/v2/machine.MachineService/List" = false := by
  refine ⟨?_, by decide, by decide, by decide⟩
  intro name
  unfold matchedByStreamedRegex
  rw [registeredStreamedRegexes_compiled, List.any_append, Bool.or_eq_true, any_exactOps_iff]
  have hs : ([some (suffixOps "Stream".data)].any (fun re =>
        match re with
        | some ops => MatchString ops name
        | none => false) = true)
      ↔ ∃ pre : String, name = pre ++ "Stream" := by
    simp only [List.any_cons, List.any_nil, Bool.or_false, MatchString, matchFrom_suffixOps]
    constructor
    · rintro ⟨t, ht⟩
      exact ⟨⟨t⟩, String.ext (by simp [← ht])⟩
    · rintro ⟨pre, hpre⟩
      exact ⟨pre.data, by simp [hpre]⟩
  rw [hs]

/-! ## Control plane static pod controller -/

theorem iteration_worker_falls_through {σ : Type} (r : Runtime σ)
    (rangeMap : List (String × String) → List (String × String)) (st st2 : σ) (md : Metadata)
    (hget : r.Get st config.NamespaceName config.MachineTypeType config.MachineTypeID
      = .ok (.MachineType md .TypeJoin))
    (htear : ControlPlaneStaticPodController.teardownAll r st = (st2, none)) :
    ControlPlaneStaticPodController.iteration r rangeMap st
      = ControlPlaneStaticPodController.podLoop r rangeMap st2
          [config.K8sControlPlaneAPIServerID] := by
  simp [ControlPlaneStaticPodController.iteration, hget, htear]

/-- C10 fails on the code: on a store whose machine type is `worker` and which holds a
`kube-apiserver` control plane config resource, one pass of the loop of
`ControlPlaneStaticPodController.Run` tears down the static pods without error, does not
end there, and writes the `kube-apiserver` static pod, so that a `k8s/staticPod` resource
exists in the control plane namespace when the pass finishes. -/
theorem worker_iteration_writes_static_pod :
    sampleRuntime.Get workerStore config.NamespaceName config.MachineTypeType
        config.MachineTypeID = .ok (sampleMachineType .TypeJoin)
      ∧ ControlPlaneStaticPodController.teardownAll sampleRuntime workerStore
          = (workerStore, none)
      ∧ (ControlPlaneStaticPodController.iteration sampleRuntime id workerStore).2
          = Outcome.next
      ∧ sampleRuntime.List
            (ControlPlaneStaticPodController.iteration sampleRuntime id workerStore).1
            k8s.ControlPlaneNamespaceName k8s.StaticPodType
          = .ok [k8s.NewStaticPod k8s.ControlPlaneNamespaceName "kube-apiserver"
              (some (apiServerPod sampleAPIServerSpec (apiServerBaseArgs sampleAPIServerSpec)))] := by
  refine ⟨rfl, rfl, rfl, rfl⟩

/-! ## The kube-apiserver command -/

theorem foldl_append_entries (ranged : List (String × String)) :
    ∀ (args : List String),
      ranged.foldl (fun args kv => args ++ ["--" ++ kv.1 ++ "=" ++ kv.2]) args
        = args ++ ranged.map extraArgEntry := by
  induction ranged with
  | nil => intro args; simp
  | cons kv rest ih =>
    intro args
    simp [List.foldl_cons, ih, extraArgEntry]

theorem apiServerArgs_eq (cfg : K8sControlPlaneAPIServerSpec) (ranged : List (String × String)) :
    apiServerArgs cfg ranged = apiServerBaseArgs cfg ++ ranged.map extraArgEntry := by
  unfold apiServerArgs
  exact foldl_append_entries ranged _

theorem apiServerBaseArgs_length (cfg : K8sControlPlaneAPIServerSpec) :
    (apiServerBaseArgs cfg).length = 41 := by
  simp [apiServerBaseArgs]

theorem apiServerArgs_drop (cfg : K8sControlPlaneAPIServerSpec) (ranged : List (String × String)) :
    (apiServerArgs cfg ranged).drop 41 = ranged.map extraArgEntry := by
  rw [apiServerArgs_eq, ← apiServerBaseArgs_length cfg, List.drop_left]

/-- C11, as stated, fails: for a config whose extra arguments are `v` and
`audit-log-format`, an iteration that yields `v` first renders the entries in descending
order of key, and the two possible iteration orders give different command lists. -/
theorem extraArgs_not_sorted :
    ([("v", "2"), ("audit-log-format", "json")] : List (String × String)).Perm
        sampleExtraArgsSpec.ExtraArgs
      ∧ (apiServerArgs sampleExtraArgsSpec [("v", "2"), ("audit-log-format", "json")]).drop 41
          = ["--v=2", "--audit-log-format=json"]
      ∧ ("audit-log-format" : String) < "v"
      ∧ ([("audit-log-format", "json"), ("v", "2")] : List (String × String)).Perm
          sampleExtraArgsSpec.ExtraArgs
      ∧ apiServerArgs sampleExtraArgsSpec [("v", "2"), ("audit-log-format", "json")]
          ≠ apiServerArgs sampleExtraArgsSpec [("audit-log-format", "json"), ("v", "2")] := by
  refine ⟨List.Perm.refl _, by rfl, by rw [String.lt_iff_toList_lt]; decide,
    List.Perm.swap _ _ _, ?_⟩
  intro h
  have h2 := congrArg (fun l => l.drop 41) h
  simp only [apiServerArgs_drop] at h2
  revert h2
  decide

/-- C11, amended: the entries appended from `extraArgs` follow the 41 fixed entries in the
order in which the iteration over the map yields the pairs, one entry per pair; the command
lists of two renderings of the same config agree whenever the two iterations yield the
pairs in the same order, and in every case when `extraArgs` has at most one pair. -/
theorem extraArgs_in_iteration_order (cfg : K8sControlPlaneAPIServerSpec)
    (ranged ranged2 : List (String × String))
    (h : ranged.Perm cfg.ExtraArgs) (h2 : ranged2.Perm cfg.ExtraArgs) :
    (apiServerArgs cfg ranged).take 41 = apiServerBaseArgs cfg
      ∧ (apiServerArgs cfg ranged).drop 41 = ranged.map extraArgEntry
      ∧ ((apiServerArgs cfg ranged).drop 41).Perm (cfg.ExtraArgs.map extraArgEntry)
      ∧ (ranged2 = ranged → apiServerArgs cfg ranged2 = apiServerArgs cfg ranged)
      ∧ (cfg.ExtraArgs.length ≤ 1 → apiServerArgs cfg ranged2 = apiServerArgs cfg ranged) := by
  refine ⟨?_, apiServerArgs_drop cfg ranged, ?_, ?_, ?_⟩
  · rw [apiServerArgs_eq, ← apiServerBaseArgs_length cfg, List.take_left]
  · rw [apiServerArgs_drop]
    exact h.map _
  · intro e
    rw [e]
  · intro hlen
    have hp : ranged2.Perm ranged := h2.trans h.symm
    have hl : ranged.length ≤ 1 := by rw [h.length_eq]; exact hlen
    have : ranged2 = ranged := by
      cases ranged with
      | nil => exact List.perm_nil.mp hp
      | cons a rest =>
        cases rest with
        | nil => exact List.perm_singleton.mp hp
        | cons b rest2 => simp at hl
    rw [this]

theorem extraArgs_in_iteration_order_witness :
    (apiServerArgs sampleExtraArgsSpec [("audit-log-format", "json"), ("v", "2")]).take 41
        = apiServerBaseArgs sampleExtraArgsSpec
      ∧ (apiServerArgs sampleExtraArgsSpec [("audit-log-format", "json"), ("v", "2")]).drop 41
          = ([("audit-log-format", "json"), ("v", "2")] : List (String × String)).map
              extraArgEntry
      ∧ ((apiServerArgs sampleExtraArgsSpec
            [("audit-log-format", "json"), ("v", "2")]).drop 41).Perm
          (sampleExtraArgsSpec.ExtraArgs.map extraArgEntry)
      ∧ (([("v", "2"), ("audit-log-format", "json")] : List (String × String))
            = [("audit-log-format", "json"), ("v", "2")] →
          apiServerArgs sampleExtraArgsSpec [("v", "2"), ("audit-log-format", "json")]
            = apiServerArgs sampleExtraArgsSpec [("audit-log-format", "json"), ("v", "2")])
      ∧ (sampleExtraArgsSpec.ExtraArgs.length ≤ 1 →
          apiServerArgs sampleExtraArgsSpec [("v", "2"), ("audit-log-format", "json")]
            = apiServerArgs sampleExtraArgsSpec [("audit-log-format", "json"), ("v", "2")]) :=
  extraArgs_in_iteration_order sampleExtraArgsSpec
    [("audit-log-format", "json"), ("v", "2")] [("v", "2"), ("audit-log-format", "json")]
    (List.Perm.swap _ _ _) (List.Perm.refl _)

theorem apiServerBaseArgs_fixed (cfg cfg2 : K8sControlPlaneAPIServerSpec) (i : Nat)
    (hi : i ∉ [5, 29, 33, 34, 37]) :
    (apiServerBaseArgs cfg)[i]? = (apiServerBaseArgs cfg2)[i]? := by
  rcases Nat.lt_or_ge i 41 with hlt | hge
  · interval_cases i <;> first | rfl | (exact absurd (by decide) hi)
  · rw [List.getElem?_eq_none (by rw [apiServerBaseArgs_length]; exact hge),
      List.getElem?_eq_none (by rw [apiServerBaseArgs_length]; exact hge)]

/-- C12: for every API server config, whatever the order in which the iteration yields the
pairs of `extraArgs`, the command built by `manageAPIServer` is made of 41 leading entries,
followed by exactly one entry `--k=v` for each pair `(k, v)` of `extraArgs` and nothing
else. The leading entries are the same for every config except the five at positions 5,
29, 33, 34 and 37 (counted from 0), which are `--api-audiences=<endpoint>`,
`--etcd-servers=<servers joined by a comma>`, `--secure-port=<port in decimal>`,
`--service-account-issuer=<endpoint>` and `--service-cluster-ip-range=<serviceCIDR>`; an
empty field gives a flag with an empty value. -/
theorem apiServerArgs_shape (cfg : K8sControlPlaneAPIServerSpec)
    (ranged : List (String × String)) (h : ranged.Perm cfg.ExtraArgs) :
    (apiServerPod cfg (apiServerArgs cfg ranged)).Containers.map (fun c => c.Command)
        = [apiServerArgs cfg ranged]
      ∧ (apiServerArgs cfg ranged).take 41 = apiServerBaseArgs cfg
      ∧ (apiServerBaseArgs cfg).length = 41
      ∧ (apiServerArgs cfg ranged).drop 41 = ranged.map (fun kv => "--" ++ kv.1 ++ "=" ++ kv.2)
      ∧ ((apiServerArgs cfg ranged).drop 41).Perm
          (cfg.ExtraArgs.map (fun kv => "--" ++ kv.1 ++ "=" ++ kv.2))
      ∧ (∀ (cfg2 : K8sControlPlaneAPIServerSpec) (i : Nat), i ∉ [5, 29, 33, 34, 37] →
          (apiServerBaseArgs cfg)[i]? = (apiServerBaseArgs cfg2)[i]?)
      ∧ (apiServerBaseArgs cfg)[5]? = some ("--api-audiences=" ++ cfg.ControlPlaneEndpoint)
      ∧ (apiServerBaseArgs cfg)[29]?
          = some ("--etcd-servers=" ++ ",".intercalate cfg.EtcdServers)
      ∧ (apiServerBaseArgs cfg)[33]? = some ("--secure-port=" ++ toString cfg.LocalPort)
      ∧ (apiServerBaseArgs cfg)[34]?
          = some ("--service-account-issuer=" ++ cfg.ControlPlaneEndpoint)
      ∧ (apiServerBaseArgs cfg)[37]? = some ("--service-cluster-ip-range=" ++ cfg.ServiceCIDR)
      ∧ (cfg.ControlPlaneEndpoint = "" →
          (apiServerBaseArgs cfg)[5]? = some "--api-audiences="
            ∧ (apiServerBaseArgs cfg)[34]? = some "--service-account-issuer=")
      ∧ (cfg.EtcdServers = [] → (apiServerBaseArgs cfg)[29]? = some "--etcd-servers=")
      ∧ (cfg.ServiceCIDR = "" →
          (apiServerBaseArgs cfg)[37]? = some "--service-cluster-ip-range=") := by
  have hdrop := apiServerArgs_drop cfg ranged
  refine ⟨rfl, ?_, apiServerBaseArgs_length cfg, hdrop, ?_, ?_, rfl, rfl, rfl, rfl, rfl,
    ?_, ?_, ?_⟩
  · rw [apiServerArgs_eq, ← apiServerBaseArgs_length cfg, List.take_left]
  · rw [hdrop]
    exact h.map _
  · intro cfg2 i hi
    exact apiServerBaseArgs_fixed cfg cfg2 i hi
  · intro he
    simp [apiServerBaseArgs, he]
  · intro he
    simp [apiServerBaseArgs, he, String.intercalate]
  · intro he
    simp [apiServerBaseArgs, he]

theorem apiServerArgs_shape_witness :
    apiServerArgs sampleExtraArgsSpec [("audit-log-format", "json"), ("v", "2")]
        = apiServerBaseArgs sampleExtraArgsSpec ++ ["--audit-log-format=json", "--v=2"]
      ∧ (apiServerBaseArgs emptyAPIServerSpec)[5]? = some "--api-audiences="
      ∧ (apiServerBaseArgs emptyAPIServerSpec)[29]? = some "--etcd-servers="
      ∧ (apiServerBaseArgs emptyAPIServerSpec)[37]? = some "--service-cluster-ip-range=" := by
  have h := apiServerArgs_shape sampleExtraArgsSpec [("audit-log-format", "json"), ("v", "2")]
    (List.Perm.swap _ _ _)
  have h0 := apiServerArgs_shape emptyAPIServerSpec [] (List.Perm.refl _)
  refine ⟨?_, (h0.2.2.2.2.2.2.2.2.2.2.2.1 rfl).1, h0.2.2.2.2.2.2.2.2.2.2.2.2.1 rfl,
    h0.2.2.2.2.2.2.2.2.2.2.2.2.2 rfl⟩
  have h1 := h.2.1
  have h2 := h.2.2.2.1
  rw [← List.take_append_drop 41 (apiServerArgs sampleExtraArgsSpec
    [("audit-log-format", "json"), ("v", "2")]), h1, h2]
  rfl

/-! ## From the machine configuration to the static pod -/

theorem mem_apiServerArgs_of_getElem? (cfg : K8sControlPlaneAPIServerSpec)
    (ranged : List (String × String)) (i : Nat) (entry : String)
    (h : (apiServerBaseArgs cfg)[i]? = some entry) : entry ∈ apiServerArgs cfg ranged := by
  rw [apiServerArgs_eq]
  exact List.mem_append_left _ (List.getElem?_mem h)

/-- On the sample store of a control plane node, one pass of `K8sControlPlaneController`
stores the projected spec, and one pass of `ControlPlaneStaticPodController` after it
stores the static pod rendered from that spec. -/
theorem machineConfig_to_static_pod (p : Provider)
    (rangeMap : List (String × String) → List (String × String)) :
    K8sControlPlaneController.iteration sampleRuntime (machineConfigStore p)
        = (machineConfigStore p
            ++ [config.NewK8sControlPlaneAPIServer (projectAPIServerSpec p)], .next)
      ∧ ControlPlaneStaticPodController.iteration sampleRuntime rangeMap
          (machineConfigStore p
            ++ [config.NewK8sControlPlaneAPIServer (projectAPIServerSpec p)])
        = (machineConfigStore p
            ++ [config.NewK8sControlPlaneAPIServer (projectAPIServerSpec p),
                k8s.NewStaticPod k8s.ControlPlaneNamespaceName "kube-apiserver"
                  (some (apiServerPod (projectAPIServerSpec p)
                    (apiServerArgs (projectAPIServerSpec p)
                      (rangeMap (projectAPIServerSpec p).ExtraArgs))))], .next) :=
  ⟨rfl, rfl⟩

theorem map_replace_of_find_none (key : Resource → Bool) (new : Resource)
    (st : List Resource) (h : st.find? key = none) :
    st.map (fun x => if key x then new else x) = st := by
  conv_rhs => rw [← List.map_id st]
  apply List.map_congr_left
  intro x hx
  have := List.find?_eq_none.mp h x hx
  simp [this]

theorem find_map_replace (key : Resource → Bool) (new cur : Resource) (hnew : key new = true)
    (st : List Resource) (h : st.find? key = some cur) :
    (st.map (fun x => if key x then new else x)).find? key = some new := by
  induction st with
  | nil => simp at h
  | cons x rest ih =>
    by_cases hx : key x = true
    · simp [List.find?, hx, hnew]
    · have hx2 : key x = false := by simpa using hx
      rw [List.find?, hx2] at h
      have := ih h
      simp [List.find?, hx2, this]

theorem map_replace_idem (key : Resource → Bool) (new : Resource) (hnew : key new = true)
    (st : List Resource) :
    (st.map (fun x => if key x then new else x)).map (fun x => if key x then new else x)
      = st.map (fun x => if key x then new else x) := by
  rw [List.map_map]
  apply List.map_congr_left
  intro x _
  by_cases hx : key x = true
  · simp [hx, hnew]
  · simp [hx]

/-- On the key/value store, running `manageAPIServerConfig` a second time with the same
configuration changes nothing. -/
theorem manageAPIServerConfig_twice (st : List Resource) (p : Provider) :
    K8sControlPlaneController.manageAPIServerConfig sampleRuntime
        (K8sControlPlaneController.manageAPIServerConfig sampleRuntime st p).1 p
      = K8sControlPlaneController.manageAPIServerConfig sampleRuntime st p := by
  have hkeynew : hasKey config.NamespaceName config.K8sControlPlaneType
      config.K8sControlPlaneAPIServerID
      (config.NewK8sControlPlaneAPIServer (projectAPIServerSpec p)) = true := by rfl
  cases hf : st.find? (hasKey config.NamespaceName config.K8sControlPlaneType
      config.K8sControlPlaneAPIServerID) with
  | none =>
    have h1 : K8sControlPlaneController.manageAPIServerConfig sampleRuntime st p
        = (st ++ [config.NewK8sControlPlaneAPIServer (projectAPIServerSpec p)], none) := by
      simp only [K8sControlPlaneController.manageAPIServerConfig, sampleRuntime,
        config.NewK8sControlPlaneAPIServer, Resource.Metadata, hf, setAPIServerConfig]
    have hf2 : (st ++ [config.NewK8sControlPlaneAPIServer (projectAPIServerSpec p)]).find?
        (hasKey config.NamespaceName config.K8sControlPlaneType
          config.K8sControlPlaneAPIServerID)
        = some (config.NewK8sControlPlaneAPIServer (projectAPIServerSpec p)) := by
      rw [List.find?_append, hf]
      simp [List.find?, hkeynew]
    rw [h1]
    have hm := map_replace_of_find_none _
      (config.NewK8sControlPlaneAPIServer (projectAPIServerSpec p)) st hf
    simp only [K8sControlPlaneController.manageAPIServerConfig, sampleRuntime,
      config.NewK8sControlPlaneAPIServer, Resource.Metadata, setAPIServerConfig] at hf2 hm ⊢
    simp only [hf2, List.map_append, hm]
    simp [hasKey]
  | some cur =>
    have hkey := List.find?_some hf
    cases cur with
    | K8sControlPlane md prev =>
      have hk2 : hasKey config.NamespaceName config.K8sControlPlaneType
          config.K8sControlPlaneAPIServerID (.K8sControlPlane md (projectAPIServerSpec p))
          = true := hkey
      have h1 : K8sControlPlaneController.manageAPIServerConfig sampleRuntime st p
          = (st.map (fun x =>
              if hasKey config.NamespaceName config.K8sControlPlaneType
                  config.K8sControlPlaneAPIServerID x
              then .K8sControlPlane md (projectAPIServerSpec p) else x), none) := by
        simp only [K8sControlPlaneController.manageAPIServerConfig, sampleRuntime,
          config.NewK8sControlPlaneAPIServer, Resource.Metadata, hf, setAPIServerConfig]
      have hf2 := find_map_replace _ (.K8sControlPlane md (projectAPIServerSpec p)) _ hk2 st hf
      have hm := map_replace_idem _ (.K8sControlPlane md (projectAPIServerSpec p)) hk2 st
      rw [h1]
      simp only [K8sControlPlaneController.manageAPIServerConfig, sampleRuntime,
        config.NewK8sControlPlaneAPIServer, Resource.Metadata, setAPIServerConfig] at hf2 hm ⊢
      simp only [hf2, hm]
    | _ =>
      simp only [K8sControlPlaneController.manageAPIServerConfig, sampleRuntime,
        config.NewK8sControlPlaneAPIServer, Resource.Metadata, hf, setAPIServerConfig]

/-- On the key/value store, after a `manageAPIServerConfig` that returns no error the
resource `kube-apiserver` of type `config/k8sControlPlane` holds the projected spec. -/
theorem manageAPIServerConfig_stored (st : List Resource) (p : Provider)
    (hok : (K8sControlPlaneController.manageAPIServerConfig sampleRuntime st p).2 = none) :
    ∃ md, sampleRuntime.Get
        (K8sControlPlaneController.manageAPIServerConfig sampleRuntime st p).1
        config.NamespaceName config.K8sControlPlaneType config.K8sControlPlaneAPIServerID
      = .ok (.K8sControlPlane md (projectAPIServerSpec p)) := by
  have hkeynew : hasKey config.NamespaceName config.K8sControlPlaneType
      config.K8sControlPlaneAPIServerID
      (config.NewK8sControlPlaneAPIServer (projectAPIServerSpec p)) = true := by rfl
  cases hf : st.find? (hasKey config.NamespaceName config.K8sControlPlaneType
      config.K8sControlPlaneAPIServerID) with
  | none =>
    have h1 : K8sControlPlaneController.manageAPIServerConfig sampleRuntime st p
        = (st ++ [config.NewK8sControlPlaneAPIServer (projectAPIServerSpec p)], none) := by
      simp only [K8sControlPlaneController.manageAPIServerConfig, sampleRuntime,
        config.NewK8sControlPlaneAPIServer, Resource.Metadata, hf, setAPIServerConfig]
    have hf2 : (st ++ [config.NewK8sControlPlaneAPIServer (projectAPIServerSpec p)]).find?
        (hasKey config.NamespaceName config.K8sControlPlaneType
          config.K8sControlPlaneAPIServerID)
        = some (config.NewK8sControlPlaneAPIServer (projectAPIServerSpec p)) := by
      rw [List.find?_append, hf]
      simp [List.find?, hkeynew]
    rw [h1]
    refine ⟨(config.NewK8sControlPlaneAPIServer (projectAPIServerSpec p)).Metadata, ?_⟩
    simp only [sampleRuntime, hf2]
    rfl
  | some cur =>
    have hkey := List.find?_some hf
    cases cur with
    | K8sControlPlane md prev =>
      have hk2 : hasKey config.NamespaceName config.K8sControlPlaneType
          config.K8sControlPlaneAPIServerID (.K8sControlPlane md (projectAPIServerSpec p))
          = true := hkey
      have h1 : K8sControlPlaneController.manageAPIServerConfig sampleRuntime st p
          = (st.map (fun x =>
              if hasKey config.NamespaceName config.K8sControlPlaneType
                  config.K8sControlPlaneAPIServerID x
              then .K8sControlPlane md (projectAPIServerSpec p) else x), none) := by
        simp only [K8sControlPlaneController.manageAPIServerConfig, sampleRuntime,
          config.NewK8sControlPlaneAPIServer, Resource.Metadata, hf, setAPIServerConfig]
      have hf2 := find_map_replace _ (.K8sControlPlane md (projectAPIServerSpec p)) _ hk2 st hf
      rw [h1]
      refine ⟨md, ?_⟩
      simp only [sampleRuntime, hf2]
    | _ =>
      simp [K8sControlPlaneController.manageAPIServerConfig, sampleRuntime,
        config.NewK8sControlPlaneAPIServer, Resource.Metadata, hf, setAPIServerConfig] at hok

/-- C13: `K8sControlPlaneController.manageAPIServerConfig` writes, through `r.Update`, the
spec whose local port is the result of `LocalAPIServerPort()` of the machine configuration,
and `ControlPlaneStaticPodController.manageAPIServer` writes, through `r.Update`, a pod
whose command contains the entry `--secure-port=N` for the local port `N` of the spec it is
given (entry 33 of the command; it applies no default of its own). Hence the command
rendered from the projected spec contains `--secure-port=N` for the configured local port
when one is supplied, and `--secure-port=6443` when none is supplied; and on the store of a
control plane node, one pass of each controller leaves a static pod `kube-apiserver` whose
command contains that entry. -/
theorem secure_port_rendered {σ : Type} (r : Runtime σ)
    (rangeMap : List (String × String) → List (String × String)) (st : σ) (p : Provider)
    (ranged : List (String × String)) (md : Metadata) (prev : K8sControlPlaneAPIServerSpec) :
    K8sControlPlaneController.manageAPIServerConfig r st p
        = r.Update st (config.NewK8sControlPlaneAPIServer emptyAPIServerSpec)
            (setAPIServerConfig p)
      ∧ setAPIServerConfig p (.K8sControlPlane md prev)
          = some (.K8sControlPlane md (projectAPIServerSpec p))
      ∧ (projectAPIServerSpec p).LocalPort = p.LocalAPIServerPort
      ∧ (∀ cfg : K8sControlPlaneAPIServerSpec,
          ControlPlaneStaticPodController.manageAPIServer r rangeMap st cfg
              = r.Update st (k8s.NewStaticPod k8s.ControlPlaneNamespaceName "kube-apiserver" none)
                  (setAPIServerPod
                    (apiServerPod cfg (apiServerArgs cfg (rangeMap cfg.ExtraArgs))))
            ∧ (apiServerPod cfg (apiServerArgs cfg (rangeMap cfg.ExtraArgs))).Containers.map
                  (fun c => c.Command)
                = [apiServerArgs cfg (rangeMap cfg.ExtraArgs)]
            ∧ (apiServerBaseArgs cfg)[33]? = some ("--secure-port=" ++ toString cfg.LocalPort)
            ∧ ("--secure-port=" ++ toString cfg.LocalPort)
                ∈ apiServerArgs cfg (rangeMap cfg.ExtraArgs))
      ∧ (apiServerBaseArgs (projectAPIServerSpec p))[33]?
          = some ("--secure-port=" ++ toString (projectAPIServerSpec p).LocalPort)
      ∧ ("--secure-port=" ++ toString (projectAPIServerSpec p).LocalPort)
          ∈ apiServerArgs (projectAPIServerSpec p) ranged
      ∧ (p.ConfiguredLocalAPIServerPort ≠ 0 →
          ("--secure-port=" ++ toString p.ConfiguredLocalAPIServerPort)
            ∈ apiServerArgs (projectAPIServerSpec p) ranged)
      ∧ (p.ConfiguredLocalAPIServerPort = 0 →
          "--secure-port=6443" ∈ apiServerArgs (projectAPIServerSpec p) ranged)
      ∧ constants.DefaultControlPlanePort = 6443
      ∧ sampleRuntime.Get
            (ControlPlaneStaticPodController.iteration sampleRuntime rangeMap
              (K8sControlPlaneController.iteration sampleRuntime (machineConfigStore p)).1).1
            k8s.ControlPlaneNamespaceName k8s.StaticPodType "kube-apiserver"
          = .ok (k8s.NewStaticPod k8s.ControlPlaneNamespaceName "kube-apiserver"
              (some (apiServerPod (projectAPIServerSpec p)
                (apiServerArgs (projectAPIServerSpec p)
                  (rangeMap (projectAPIServerSpec p).ExtraArgs)))))
      ∧ ("--secure-port=" ++ toString p.LocalAPIServerPort)
          ∈ apiServerArgs (projectAPIServerSpec p)
              (rangeMap (projectAPIServerSpec p).ExtraArgs) := by
  have h33 : ∀ cfg : K8sControlPlaneAPIServerSpec, (apiServerBaseArgs cfg)[33]?
      = some ("--secure-port=" ++ toString cfg.LocalPort) := fun _ => rfl
  have hmem := mem_apiServerArgs_of_getElem? _ ranged 33 _ (h33 (projectAPIServerSpec p))
  refine ⟨rfl, rfl, rfl, ?_, h33 _, hmem, ?_, ?_, rfl, ?_, ?_⟩
  · intro cfg
    exact ⟨rfl, rfl, h33 cfg, mem_apiServerArgs_of_getElem? _ _ 33 _ (h33 cfg)⟩
  · intro hne
    have : (projectAPIServerSpec p).LocalPort = p.ConfiguredLocalAPIServerPort := by
      simp [projectAPIServerSpec, Provider.LocalAPIServerPort, hne]
    rw [this] at hmem
    exact hmem
  · intro h0
    have : (projectAPIServerSpec p).LocalPort = 6443 := by
      simp [projectAPIServerSpec, Provider.LocalAPIServerPort, h0,
        constants.DefaultControlPlanePort]
    rw [this] at hmem
    exact hmem
  · rw [(machineConfig_to_static_pod p rangeMap).1, (machineConfig_to_static_pod p rangeMap).2]
    rfl
  · exact mem_apiServerArgs_of_getElem? _ _ 33 _ (h33 (projectAPIServerSpec p))

/-- Witness of C13: the sample machine configuration supplies no local port, and the
command rendered from its projected spec contains `--secure-port=6443`. -/
theorem secure_port_rendered_witness :
    sampleProvider.ConfiguredLocalAPIServerPort = 0
      ∧ "--secure-port=6443" ∈ apiServerArgs (projectAPIServerSpec sampleProvider) [] :=
  ⟨rfl, (secure_port_rendered sampleRuntime (fun l => l) [] sampleProvider []
    sampleAPIServerResource.Metadata emptyAPIServerSpec).2.2.2.2.2.2.2.1 rfl⟩

/-- The rendering itself applies no default: for a spec whose local port is zero the
entry is `--secure-port=0`. -/
theorem secure_port_of_zero_spec (ranged : List (String × String)) :
    (apiServerBaseArgs emptyAPIServerSpec)[33]? = some "--secure-port=0"
      ∧ "--secure-port=0" ∈ apiServerArgs emptyAPIServerSpec ranged :=
  ⟨by rfl, mem_apiServerArgs_of_getElem? _ ranged 33 _ (by rfl)⟩

/-- C14: for every machine configuration, `K8sControlPlaneController.manageAPIServerConfig`
writes, through `r.Update`, a spec whose `EtcdServers` is the one-element list made of
`https://127.0.0.1:2379` (on the key/value store the stored resource holds that spec), and
`manageAPIServer`, given that spec, writes through `r.Update` a static pod whose command
contains the entry `--etcd-servers=https://127.0.0.1:2379`; on the store of a control plane
node, one pass of each controller leaves a static pod with that command. -/
theorem etcd_servers_fixed {σ : Type} (r : Runtime σ)
    (rangeMap : List (String × String) → List (String × String)) (st : σ) (p : Provider)
    (ranged : List (String × String)) (md : Metadata) (prev : K8sControlPlaneAPIServerSpec)
    (store : List Resource) :
    K8sControlPlaneController.manageAPIServerConfig r st p
        = r.Update st (config.NewK8sControlPlaneAPIServer emptyAPIServerSpec)
            (setAPIServerConfig p)
      ∧ setAPIServerConfig p (config.NewK8sControlPlaneAPIServer emptyAPIServerSpec)
          = some (config.NewK8sControlPlaneAPIServer (projectAPIServerSpec p))
      ∧ (projectAPIServerSpec p).EtcdServers = ["https://127.0.0.1:2379"]
      ∧ setAPIServerConfig p (.K8sControlPlane md prev)
          = some (.K8sControlPlane md (projectAPIServerSpec p))
      ∧ ((K8sControlPlaneController.manageAPIServerConfig sampleRuntime store p).2 = none →
          ∃ md2 spec, sampleRuntime.Get
                (K8sControlPlaneController.manageAPIServerConfig sampleRuntime store p).1
                config.NamespaceName config.K8sControlPlaneType
                config.K8sControlPlaneAPIServerID
              = .ok (.K8sControlPlane md2 spec)
            ∧ spec = projectAPIServerSpec p
            ∧ spec.EtcdServers = ["https://127.0.0.1:2379"])
      ∧ ControlPlaneStaticPodController.manageAPIServer r rangeMap st (projectAPIServerSpec p)
          = r.Update st (k8s.NewStaticPod k8s.ControlPlaneNamespaceName "kube-apiserver" none)
              (setAPIServerPod (apiServerPod (projectAPIServerSpec p)
                (apiServerArgs (projectAPIServerSpec p)
                  (rangeMap (projectAPIServerSpec p).ExtraArgs))))
      ∧ "--etcd-servers=https://127.0.0.1:2379"
          ∈ apiServerArgs (projectAPIServerSpec p) (rangeMap (projectAPIServerSpec p).ExtraArgs)
      ∧ "--etcd-servers=https://127.0.0.1:2379"
          ∈ apiServerArgs (projectAPIServerSpec p) ranged
      ∧ (apiServerPod (projectAPIServerSpec p)
            (apiServerArgs (projectAPIServerSpec p) ranged)).Containers.map (fun c => c.Command)
          = [apiServerArgs (projectAPIServerSpec p) ranged]
      ∧ sampleRuntime.Get
            (ControlPlaneStaticPodController.iteration sampleRuntime rangeMap
              (K8sControlPlaneController.iteration sampleRuntime (machineConfigStore p)).1).1
            k8s.ControlPlaneNamespaceName k8s.StaticPodType "kube-apiserver"
          = .ok (k8s.NewStaticPod k8s.ControlPlaneNamespaceName "kube-apiserver"
              (some (apiServerPod (projectAPIServerSpec p)
                (apiServerArgs (projectAPIServerSpec p)
                  (rangeMap (projectAPIServerSpec p).ExtraArgs))))) := by
  refine ⟨rfl, rfl, rfl, rfl, ?_, rfl, ?_, ?_, rfl, ?_⟩
  · intro hok
    obtain ⟨md2, h⟩ := manageAPIServerConfig_stored store p hok
    exact ⟨md2, _, h, rfl, rfl⟩
  · exact mem_apiServerArgs_of_getElem? _ _ 29 _ (by rfl)
  · exact mem_apiServerArgs_of_getElem? _ ranged 29 _ (by rfl)
  · rw [(machineConfig_to_static_pod p rangeMap).1, (machineConfig_to_static_pod p rangeMap).2]
    rfl

/-- Witness of C14: on the sample store of a control plane node `manageAPIServerConfig`
returns no error and the stored spec has the fixed etcd servers. -/
theorem etcd_servers_fixed_witness :
    (K8sControlPlaneController.manageAPIServerConfig sampleRuntime
        (machineConfigStore sampleProvider) sampleProvider).2 = none
      ∧ ∃ md2 spec, sampleRuntime.Get
            (K8sControlPlaneController.manageAPIServerConfig sampleRuntime
              (machineConfigStore sampleProvider) sampleProvider).1
            config.NamespaceName config.K8sControlPlaneType config.K8sControlPlaneAPIServerID
          = .ok (.K8sControlPlane md2 spec)
        ∧ spec = projectAPIServerSpec sampleProvider
        ∧ spec.EtcdServers = ["https://127.0.0.1:2379"] :=
  ⟨rfl, (etcd_servers_fixed sampleRuntime (fun l => l) [] sampleProvider []
    sampleAPIServerResource.Metadata emptyAPIServerSpec
    (machineConfigStore sampleProvider)).2.2.2.2.1 rfl⟩

/-- C15: the function that `manageAPIServerConfig` passes to `r.Update` is
`setAPIServerConfig`, which replaces the spec by one that is determined by the config
provider alone (image, endpoint, local port, service CIDR, extra args, and the fixed etcd
servers): the result is the same for every previous spec of the resource, and applying the
function twice gives the same resource as applying it once; on the key/value store, a
second `manageAPIServerConfig` with the same configuration changes nothing. -/
theorem setAPIServerConfig_idempotent {σ : Type} (r : Runtime σ) (st : σ) (p : Provider)
    (md : Metadata) (prev prev2 : K8sControlPlaneAPIServerSpec) (res : Resource)
    (store : List Resource) :
    K8sControlPlaneController.manageAPIServerConfig r st p
        = r.Update st (config.NewK8sControlPlaneAPIServer emptyAPIServerSpec)
            (setAPIServerConfig p)
      ∧ (K8sControlPlaneController.manageAPIServerConfig (recordingRuntime r) (st, []) p).1.2
          = [.Update (config.NewK8sControlPlaneAPIServer emptyAPIServerSpec)
              (some (config.NewK8sControlPlaneAPIServer (projectAPIServerSpec p)))]
      ∧ setAPIServerConfig p (.K8sControlPlane md prev)
          = some (.K8sControlPlane md (projectAPIServerSpec p))
      ∧ setAPIServerConfig p (.K8sControlPlane md prev)
          = setAPIServerConfig p (.K8sControlPlane md prev2)
      ∧ (projectAPIServerSpec p).Image = p.APIServerImage
      ∧ (projectAPIServerSpec p).ControlPlaneEndpoint = p.Endpoint
      ∧ (projectAPIServerSpec p).LocalPort = p.LocalAPIServerPort
      ∧ (projectAPIServerSpec p).ServiceCIDR = p.ServiceCIDR
      ∧ (projectAPIServerSpec p).ExtraArgs = p.APIServerExtraArgs
      ∧ (projectAPIServerSpec p).EtcdServers = ["https://127.0.0.1:2379"]
      ∧ (setAPIServerConfig p res).bind (setAPIServerConfig p) = setAPIServerConfig p res
      ∧ K8sControlPlaneController.manageAPIServerConfig sampleRuntime
            (K8sControlPlaneController.manageAPIServerConfig sampleRuntime store p).1 p
          = K8sControlPlaneController.manageAPIServerConfig sampleRuntime store p := by
  refine ⟨rfl, rfl, rfl, rfl, rfl, rfl, rfl, rfl, rfl, rfl, ?_,
    manageAPIServerConfig_twice store p⟩
  cases res <;> rfl

/-- C16: for every API server config, the pod document that `manageAPIServer` writes has
host networking enabled, a security context with run-as-non-root true and user id 65534,
exactly one container, whose image is the configured image and whose only environment
variable is `POD_IP` taken from the field `status.podIP`, and exactly two host-path volumes,
`/etc/ssl/certs` and `/etc/kubernetes/secrets`, each mounted read-only in the container at
the same path under the same volume name. -/
theorem apiServerPod_shape {σ : Type} (r : Runtime σ)
    (rangeMap : List (String × String) → List (String × String)) (st : σ)
    (cfg : K8sControlPlaneAPIServerSpec) (md : Metadata) (prev : Option Pod) :
    ControlPlaneStaticPodController.manageAPIServer r rangeMap st cfg
        = r.Update st (k8s.NewStaticPod k8s.ControlPlaneNamespaceName "kube-apiserver" none)
            (setAPIServerPod (apiServerPod cfg (apiServerArgs cfg (rangeMap cfg.ExtraArgs))))
      ∧ setAPIServerPod (apiServerPod cfg (apiServerArgs cfg (rangeMap cfg.ExtraArgs)))
            (.StaticPod md prev)
          = some (.StaticPod md
              (some (apiServerPod cfg (apiServerArgs cfg (rangeMap cfg.ExtraArgs)))))
      ∧ ∀ args : List String,
          (apiServerPod cfg args).HostNetwork = true
            ∧ (apiServerPod cfg args).RunAsNonRoot = some true
            ∧ (apiServerPod cfg args).RunAsUser = some 65534
            ∧ (∃ c : Container, (apiServerPod cfg args).Containers = [c]
                ∧ c.Image = cfg.Image
                ∧ c.Command = args
                ∧ c.Env = [{ Name := "POD_IP", FieldPath := "status.podIP" }]
                ∧ c.VolumeMounts
                    = (apiServerPod cfg args).Volumes.map
                        (fun v => { Name := v.Name, MountPath := v.HostPath, ReadOnly := true }))
            ∧ (apiServerPod cfg args).Volumes
                = [ { Name := "ssl-certs", HostPath := "/etc/ssl/certs" },
                    { Name := "secrets", HostPath := "/etc/kubernetes/secrets" } ] := by
  refine ⟨rfl, rfl, ?_⟩
  intro args
  exact ⟨rfl, rfl, rfl, ⟨_, rfl, rfl, rfl, rfl, rfl⟩, rfl⟩

/-! ## Kubelet static pod controller -/

theorem runPod_eq {σ : Type} (r : Runtime σ) (lib : Library) (st : σ) (disk : Disk)
    (pod : Resource) :
    KubeletStaticPodController.runPod r lib st disk pod
      = match r.AddFinalizer st pod.Metadata (k8s.StaticPodStatus.String lib pod.Metadata.ID) with
        | (st2, some err) => (st2, disk, some err)
        | (st2, none) =>
          (st2, (manifestStep lib disk pod.Metadata.ID pod.Spec).1,
            (manifestStep lib disk pod.Metadata.ID pod.Spec).2) := by
  unfold KubeletStaticPodController.runPod manifestStep
  rcases hfin : r.AddFinalizer st pod.Metadata (k8s.StaticPodStatus.String lib pod.Metadata.ID)
    with ⟨st2, _ | err⟩
  · cases hm : lib.yamlMarshal pod.Spec with
    | error e => simp
    | ok rendered =>
      cases hr : readExistingPod disk (podPath lib pod.Metadata.ID) with
      | error e => simp
      | ok existing =>
        by_cases heq : rendered = existing
        · simp [heq]
        · simp [heq]
  · simp

theorem readExistingPod_ok (disk : Disk) (path existing : String)
    (h : readExistingPod disk path = .ok existing) :
    (disk.nodes path = none ∧ existing = "") ∨ ∃ perm, disk.nodes path = some (.regular existing perm) := by
  unfold readExistingPod ioutil.ReadFile at h
  cases hn : disk.nodes path with
  | none =>
    simp [hn, os.IsNotExist] at h
    exact Or.inl ⟨rfl, h.symm⟩
  | some node =>
    cases node with
    | regular data perm =>
      simp [hn] at h
      exact Or.inr ⟨perm, by rw [h]⟩
    | directory => simp [hn, os.IsNotExist] at h

theorem WriteFile_of_readable (disk : Disk) (path existing data : String) (perm : Nat)
    (h : readExistingPod disk path = .ok existing) :
    (ioutil.WriteFile disk path data perm).2 = none
      ∧ (∃ p, (ioutil.WriteFile disk path data perm).1.nodes path = some (.regular data p))
      ∧ (∀ q, q ≠ path → (ioutil.WriteFile disk path data perm).1.nodes q = disk.nodes q)
      ∧ (ioutil.WriteFile disk path data perm).1.writes
          = disk.writes ++ [{ path := path, data := data, perm := perm }] := by
  rcases readExistingPod_ok disk path existing h with ⟨hn, _⟩ | ⟨p, hn⟩
  · have hw : ioutil.WriteFile disk path data perm
        = ({ nodes := fun q => if q = path then some (.regular data perm) else disk.nodes q,
             writes := disk.writes ++ [{ path := path, data := data, perm := perm }] }, none) := by
      simp [ioutil.WriteFile, hn]
    rw [hw]
    refine ⟨rfl, ⟨perm, by simp⟩, ?_, rfl⟩
    intro q hq
    simp [hq]
  · have hw : ioutil.WriteFile disk path data perm
        = ({ nodes := fun q => if q = path then some (.regular data p) else disk.nodes q,
             writes := disk.writes ++ [{ path := path, data := data, perm := perm }] }, none) := by
      simp [ioutil.WriteFile, hn]
    rw [hw]
    refine ⟨rfl, ⟨p, by simp⟩, ?_, rfl⟩
    intro q hq
    simp [hq]

theorem readExistingPod_of_regular (disk : Disk) (path data : String) (perm : Nat)
    (h : disk.nodes path = some (.regular data perm)) :
    readExistingPod disk path = .ok data ∧ ioutil.ReadFile disk path = .ok data := by
  simp [readExistingPod, ioutil.ReadFile, h]

/-- What `manifestStep` does, by cases. -/
theorem manifestStep_cases (lib : Library) (disk : Disk) (id : ID) (spec : Option SpecValue) :
    ((∃ e, lib.yamlMarshal spec = .error e) ∧ manifestStep lib disk id spec = (disk, none))
      ∨ (∃ rendered e, lib.yamlMarshal spec = .ok rendered
          ∧ readExistingPod disk (podPath lib id) = .error e
          ∧ manifestStep lib disk id spec = (disk, some e))
      ∨ (∃ rendered, lib.yamlMarshal spec = .ok rendered
          ∧ readExistingPod disk (podPath lib id) = .ok rendered
          ∧ manifestStep lib disk id spec = (disk, none))
      ∨ (∃ rendered existing, lib.yamlMarshal spec = .ok rendered
          ∧ readExistingPod disk (podPath lib id) = .ok existing
          ∧ rendered ≠ existing
          ∧ manifestStep lib disk id spec
              = ioutil.WriteFile disk (podPath lib id) rendered 0o600) := by
  unfold manifestStep
  cases hm : lib.yamlMarshal spec with
  | error e => exact Or.inl ⟨⟨e, rfl⟩, rfl⟩
  | ok rendered =>
    cases hr : readExistingPod disk (podPath lib id) with
    | error e => exact Or.inr (Or.inl ⟨rendered, e, rfl, rfl, rfl⟩)
    | ok existing =>
      by_cases heq : rendered = existing
      · subst heq
        exact Or.inr (Or.inr (Or.inl ⟨rendered, rfl, rfl, by simp⟩))
      · exact Or.inr (Or.inr (Or.inr ⟨rendered, existing, rfl, rfl, heq, by simp [heq]⟩))

theorem manifestStep_writes (lib : Library) (disk : Disk) (id : ID) (spec : Option SpecValue) :
    ∃ new, (manifestStep lib disk id spec).1.writes = disk.writes ++ new
      ∧ ∀ w ∈ new, w.path = podPath lib id ∧ w.perm = 0o600
          ∧ lib.yamlMarshal spec = .ok w.data := by
  rcases manifestStep_cases lib disk id spec with ⟨_, h⟩ | ⟨_, _, _, _, h⟩ | ⟨_, _, _, h⟩
    | ⟨rendered, existing, hm, hr, _, h⟩
  · exact ⟨[], by simp [h], by simp⟩
  · exact ⟨[], by simp [h], by simp⟩
  · exact ⟨[], by simp [h], by simp⟩
  · refine ⟨[{ path := podPath lib id, data := rendered, perm := 0o600 }], ?_, ?_⟩
    · rw [h]
      exact (WriteFile_of_readable disk _ existing rendered 0o600 hr).2.2.2
    · intro w hw
      simp at hw
      subst hw
      exact ⟨rfl, rfl, hm⟩

theorem manifestStep_success (lib : Library) (disk : Disk) (id : ID) (spec : Option SpecValue)
    (rendered : String) (hm : lib.yamlMarshal spec = .ok rendered)
    (hrun : (manifestStep lib disk id spec).2 = none) :
    readExistingPod (manifestStep lib disk id spec).1 (podPath lib id) = .ok rendered := by
  rcases manifestStep_cases lib disk id spec with ⟨⟨e, he⟩, _⟩ | ⟨_, e, _, _, h⟩ | ⟨r2, hm2, hr, h⟩
    | ⟨r2, existing, hm2, hr, _, h⟩
  · rw [hm] at he
    cases he
  · rw [h] at hrun
    cases hrun
  · rw [hm] at hm2
    cases hm2
    rw [h]
    exact hr
  · rw [hm] at hm2
    cases hm2
    rw [h]
    obtain ⟨_, ⟨p, hp⟩, _, _⟩ := WriteFile_of_readable disk (podPath lib id) existing rendered 0o600 hr
    exact (readExistingPod_of_regular _ _ _ p hp).1

theorem manifestStep_unchanged (lib : Library) (disk : Disk) (id : ID) (spec : Option SpecValue)
    (h : ∀ rendered, lib.yamlMarshal spec = .ok rendered →
      readExistingPod disk (podPath lib id) = .ok rendered) :
    manifestStep lib disk id spec = (disk, none) := by
  rcases manifestStep_cases lib disk id spec with ⟨_, hs⟩ | ⟨r, e, hm, hr, _⟩ | ⟨_, _, _, hs⟩
    | ⟨r, existing, hm, hr, hne, _⟩
  · exact hs
  · rw [h r hm] at hr
    cases hr
  · exact hs
  · rw [h r hm] at hr
    cases hr
    exact absurd rfl hne

theorem runPod_fin_some {σ : Type} (r : Runtime σ) (lib : Library) (st st2 : σ) (disk : Disk)
    (pod : Resource) (e : Error)
    (h : r.AddFinalizer st pod.Metadata (k8s.StaticPodStatus.String lib pod.Metadata.ID)
      = (st2, some e)) :
    KubeletStaticPodController.runPod r lib st disk pod = (st2, disk, some e) := by
  rw [runPod_eq, h]

theorem runPod_fin_none {σ : Type} (r : Runtime σ) (lib : Library) (st st2 : σ) (disk : Disk)
    (pod : Resource)
    (h : r.AddFinalizer st pod.Metadata (k8s.StaticPodStatus.String lib pod.Metadata.ID)
      = (st2, none)) :
    KubeletStaticPodController.runPod r lib st disk pod
      = (st2, (manifestStep lib disk pod.Metadata.ID pod.Spec).1,
          (manifestStep lib disk pod.Metadata.ID pod.Spec).2) := by
  rw [runPod_eq, h]

theorem runPod_success {σ : Type} (r : Runtime σ) (lib : Library) (st : σ) (disk : Disk)
    (pod : Resource) (h : (KubeletStaticPodController.runPod r lib st disk pod).2.2 = none) :
    (KubeletStaticPodController.runPod r lib st disk pod).2.1
        = (manifestStep lib disk pod.Metadata.ID pod.Spec).1
      ∧ (manifestStep lib disk pod.Metadata.ID pod.Spec).2 = none := by
  rcases hfin : r.AddFinalizer st pod.Metadata (k8s.StaticPodStatus.String lib pod.Metadata.ID)
    with ⟨st2, _ | err⟩
  · rw [runPod_fin_none r lib st st2 disk pod hfin] at h ⊢
    exact ⟨rfl, h⟩
  · rw [runPod_fin_some r lib st st2 disk pod err hfin] at h
    cases h

theorem runPod_disk_unchanged {σ : Type} (r : Runtime σ) (lib : Library) (st : σ) (disk : Disk)
    (pod : Resource)
    (h : manifestStep lib disk pod.Metadata.ID pod.Spec = (disk, none)) :
    (KubeletStaticPodController.runPod r lib st disk pod).2.1 = disk := by
  rcases hfin : r.AddFinalizer st pod.Metadata (k8s.StaticPodStatus.String lib pod.Metadata.ID)
    with ⟨st2, _ | err⟩
  · rw [runPod_fin_none r lib st st2 disk pod hfin, h]
  · rw [runPod_fin_some r lib st st2 disk pod err hfin]

theorem runPod_writes {σ : Type} (r : Runtime σ) (lib : Library) (st : σ) (disk : Disk)
    (pod : Resource) :
    ∃ new, (KubeletStaticPodController.runPod r lib st disk pod).2.1.writes = disk.writes ++ new
      ∧ ∀ w ∈ new, w.path = podPath lib pod.Metadata.ID ∧ w.perm = 0o600
          ∧ lib.yamlMarshal pod.Spec = .ok w.data := by
  rcases hfin : r.AddFinalizer st pod.Metadata (k8s.StaticPodStatus.String lib pod.Metadata.ID)
    with ⟨st2, _ | err⟩
  · rw [runPod_fin_none r lib st st2 disk pod hfin]
    exact manifestStep_writes lib disk pod.Metadata.ID pod.Spec
  · rw [runPod_fin_some r lib st st2 disk pod err hfin]
    exact ⟨[], by simp, by simp⟩

theorem runPod_success_read {σ : Type} (r : Runtime σ) (lib : Library) (st : σ) (disk : Disk)
    (pod : Resource) (rendered : String)
    (hm : lib.yamlMarshal pod.Spec = .ok rendered) (hne : rendered ≠ "")
    (h : (KubeletStaticPodController.runPod r lib st disk pod).2.2 = none) :
    ioutil.ReadFile (KubeletStaticPodController.runPod r lib st disk pod).2.1
      (podPath lib pod.Metadata.ID) = .ok rendered := by
  have hs := runPod_success r lib st disk pod h
  have hread := manifestStep_success lib disk pod.Metadata.ID pod.Spec rendered hm hs.2
  rw [← hs.1] at hread
  rcases readExistingPod_ok _ _ _ hread with ⟨_, he⟩ | ⟨p, hp⟩
  · exact absurd he hne
  · exact (readExistingPod_of_regular _ _ _ p hp).2

/-- C17, as stated, fails: for the sample static pod in phase running and a YAML encoder
that fails, `runPod` returns nil on an empty file system, and the manifest file does not
exist afterwards. -/
theorem runPod_success_without_manifest :
    sampleStaticPod.Metadata.Phase = Phase.PhaseRunning
      ∧ sampleStaticPod.Metadata.ID = "kube-apiserver"
      ∧ podPath failingLibrary "kube-apiserver" = "/etc/kubernetes/manifests/kube-apiserver.yaml"
      ∧ (KubeletStaticPodController.runPod sampleRuntime failingLibrary [sampleStaticPod]
            emptyDisk sampleStaticPod).2.2 = none
      ∧ (KubeletStaticPodController.runPod sampleRuntime failingLibrary [sampleStaticPod]
            emptyDisk sampleStaticPod).2.1.nodes "/etc/kubernetes/manifests/kube-apiserver.yaml"
          = none
      ∧ os.IsNotExist (Error.notExist
          "open /etc/kubernetes/manifests/kube-apiserver.yaml: no such file or directory") = true
      ∧ ioutil.ReadFile
            (KubeletStaticPodController.runPod sampleRuntime failingLibrary [sampleStaticPod]
              emptyDisk sampleStaticPod).2.1 "/etc/kubernetes/manifests/kube-apiserver.yaml"
          = .error (.notExist
              "open /etc/kubernetes/manifests/kube-apiserver.yaml: no such file or directory") := by
  exact ⟨rfl, rfl, by decide, rfl, rfl, rfl, rfl⟩

/-- C17, amended: for every static pod with id `i` whose spec the YAML encoder serializes
to a document that is not empty, when `runPod` returns nil the file
`/etc/kubernetes/manifests/<i>.yaml` (the result of `filepath.Join` on the manifests
directory and `<i>.yaml`) exists and its bytes equal that serialization; every write that
`runPod` performs, whatever it returns, targets that path with file mode 0600 and carries
the serialization. -/
theorem runPod_success_manifest {σ : Type} (r : Runtime σ) (lib : Library) (st : σ)
    (disk : Disk) (pod : Resource) (rendered : String)
    (hm : lib.yamlMarshal pod.Spec = .ok rendered) (hne : rendered ≠ "") :
    (∀ st2 disk2, KubeletStaticPodController.runPod r lib st disk pod = (st2, disk2, none) →
        ioutil.ReadFile disk2 (podPath lib pod.Metadata.ID) = .ok rendered)
      ∧ podPath lib pod.Metadata.ID
          = lib.filepathJoin "/etc/kubernetes/manifests" (pod.Metadata.ID ++ ".yaml")
      ∧ ∃ new, (KubeletStaticPodController.runPod r lib st disk pod).2.1.writes
            = disk.writes ++ new
          ∧ ∀ w ∈ new, w.path = podPath lib pod.Metadata.ID ∧ w.perm = 0o600
              ∧ w.data = rendered := by
  refine ⟨?_, rfl, ?_⟩
  · intro st2 disk2 hrun
    have h := runPod_success_read r lib st disk pod rendered hm hne (by rw [hrun])
    rw [hrun] at h
    exact h
  · obtain ⟨new, hw, hall⟩ := runPod_writes r lib st disk pod
    refine ⟨new, hw, ?_⟩
    intro w hwmem
    obtain ⟨h1, h2, h3⟩ := hall w hwmem
    rw [hm] at h3
    exact ⟨h1, h2, (Except.ok.inj h3).symm⟩

theorem runPod_success_manifest_witness :
    ioutil.ReadFile
        (KubeletStaticPodController.runPod sampleRuntime sampleLibrary [sampleStaticPod]
          emptyDisk sampleStaticPod).2.1
        (podPath sampleLibrary sampleStaticPod.Metadata.ID)
      = .ok "kind: Pod\nname: kube-apiserver-static\n" :=
  (runPod_success_manifest sampleRuntime sampleLibrary [sampleStaticPod] emptyDisk
    sampleStaticPod "kind: Pod\nname: kube-apiserver-static\n" (by rfl) (by decide)).1
    _ _ (by rfl)

theorem manifestStep_idem (lib : Library) (disk : Disk) (id : ID) (spec : Option SpecValue) :
    (manifestStep lib (manifestStep lib disk id spec).1 id spec).1
      = (manifestStep lib disk id spec).1 := by
  rcases manifestStep_cases lib disk id spec with ⟨_, h⟩ | ⟨_, e, _, _, h⟩ | ⟨_, _, _, h⟩
    | ⟨rendered, existing, hm, hr, _, h⟩
  · rw [h]
    show (manifestStep lib disk id spec).1 = disk
    rw [h]
  · rw [h]
    show (manifestStep lib disk id spec).1 = disk
    rw [h]
  · rw [h]
    show (manifestStep lib disk id spec).1 = disk
    rw [h]
  · have hstep : manifestStep lib (manifestStep lib disk id spec).1 id spec
        = ((manifestStep lib disk id spec).1, none) := by
      apply manifestStep_unchanged
      intro rendered2 hm2
      rw [hm] at hm2
      cases hm2
      rw [h]
      obtain ⟨_, ⟨p, hp⟩, _, _⟩ :=
        WriteFile_of_readable disk (podPath lib id) existing rendered 0o600 hr
      exact (readExistingPod_of_regular _ _ _ p hp).1
    rw [hstep]

theorem readExistingPod_of_ReadFile (disk : Disk) (path data : String)
    (h : ioutil.ReadFile disk path = .ok data) : readExistingPod disk path = .ok data := by
  simp [readExistingPod, h]

/-- C18: if the manifest file already holds the bytes that the YAML encoder renders for the
spec of the static pod, `runPod` performs no write and leaves the file system as it is. A
second `runPod` on the same static pod, after a first one that returned nil or at least
added its finalizer, leaves the file system as the first one left it. Two static pods with the same id and equal specs, for
which `runPod` returns nil on the same file system, leave the same files; and when the
spec is serialized to a document that is not empty, the manifest holds that document after
either of them, whatever the file system was before. -/
theorem runPod_skips_identical {σ : Type} (r : Runtime σ) (lib : Library) (st : σ)
    (disk : Disk) (pod : Resource) :
    (∀ rendered, lib.yamlMarshal pod.Spec = .ok rendered →
        ioutil.ReadFile disk (podPath lib pod.Metadata.ID) = .ok rendered →
        (KubeletStaticPodController.runPod r lib st disk pod).2.1.writes = disk.writes
          ∧ (KubeletStaticPodController.runPod r lib st disk pod).2.1.nodes = disk.nodes)
      ∧ (∀ st1 disk1 e1, KubeletStaticPodController.runPod r lib st disk pod = (st1, disk1, e1) →
          (e1 = none ∨ (r.AddFinalizer st pod.Metadata
              (k8s.StaticPodStatus.String lib pod.Metadata.ID)).2 = none) →
          (KubeletStaticPodController.runPod r lib st1 disk1 pod).2.1.writes = disk1.writes
            ∧ (KubeletStaticPodController.runPod r lib st1 disk1 pod).2.1.nodes = disk1.nodes)
      ∧ (∀ (pod2 : Resource) (st' : σ), pod2.Metadata.ID = pod.Metadata.ID →
          pod2.Spec = pod.Spec →
          (KubeletStaticPodController.runPod r lib st disk pod).2.2 = none →
          (KubeletStaticPodController.runPod r lib st' disk pod2).2.2 = none →
          (KubeletStaticPodController.runPod r lib st' disk pod2).2.1.nodes
              = (KubeletStaticPodController.runPod r lib st disk pod).2.1.nodes
            ∧ (KubeletStaticPodController.runPod r lib st' disk pod2).2.1.writes
              = (KubeletStaticPodController.runPod r lib st disk pod).2.1.writes)
      ∧ (∀ (pod2 : Resource) (st' : σ) (disk' : Disk) (rendered : String),
          pod2.Metadata.ID = pod.Metadata.ID → pod2.Spec = pod.Spec →
          lib.yamlMarshal pod.Spec = .ok rendered → rendered ≠ "" →
          (KubeletStaticPodController.runPod r lib st disk pod).2.2 = none →
          (KubeletStaticPodController.runPod r lib st' disk' pod2).2.2 = none →
          ioutil.ReadFile (KubeletStaticPodController.runPod r lib st disk pod).2.1
              (podPath lib pod.Metadata.ID) = .ok rendered
            ∧ ioutil.ReadFile (KubeletStaticPodController.runPod r lib st' disk' pod2).2.1
              (podPath lib pod.Metadata.ID) = .ok rendered) := by
  refine ⟨?_, ?_, ?_, ?_⟩
  · intro rendered hm hread
    have hstep : manifestStep lib disk pod.Metadata.ID pod.Spec = (disk, none) := by
      apply manifestStep_unchanged
      intro rendered2 hm2
      rw [hm] at hm2
      cases hm2
      exact readExistingPod_of_ReadFile _ _ _ hread
    rw [runPod_disk_unchanged r lib st disk pod hstep]
    exact ⟨rfl, rfl⟩
  · intro st1 disk1 e1 hrun hok
    have hd1 : disk1 = (manifestStep lib disk pod.Metadata.ID pod.Spec).1 := by
      rcases hfin : r.AddFinalizer st pod.Metadata
        (k8s.StaticPodStatus.String lib pod.Metadata.ID) with ⟨st2, _ | err⟩
      · rw [runPod_fin_none r lib st st2 disk pod hfin] at hrun
        exact (congrArg (fun x => x.2.1) hrun).symm
      · rw [runPod_fin_some r lib st st2 disk pod err hfin] at hrun
        rcases hok with he | hf
        · rw [he] at hrun
          cases hrun
        · rw [hfin] at hf
          cases hf
    have hsecond : (KubeletStaticPodController.runPod r lib st1 disk1 pod).2.1 = disk1 := by
      rcases hfin : r.AddFinalizer st1 pod.Metadata
        (k8s.StaticPodStatus.String lib pod.Metadata.ID) with ⟨st2, _ | err⟩
      · rw [runPod_fin_none r lib st1 st2 disk1 pod hfin]
        show (manifestStep lib disk1 pod.Metadata.ID pod.Spec).1 = disk1
        rw [hd1]
        exact manifestStep_idem lib disk pod.Metadata.ID pod.Spec
      · rw [runPod_fin_some r lib st1 st2 disk1 pod err hfin]
    rw [hsecond]
    exact ⟨rfl, rfl⟩
  · intro pod2 st' hid hspec h1 h2
    have hs1 := runPod_success r lib st disk pod h1
    have hs2 := runPod_success r lib st' disk pod2 h2
    rw [hs1.1, hs2.1, hid, hspec]
    exact ⟨rfl, rfl⟩
  · intro pod2 st' disk' rendered hid hspec hm hne h1 h2
    have hm2 : lib.yamlMarshal pod2.Spec = .ok rendered := by rw [hspec]; exact hm
    have a1 := runPod_success_read r lib st disk pod rendered hm hne h1
    have a2 := runPod_success_read r lib st' disk' pod2 rendered hm2 hne h2
    rw [hid] at a2
    exact ⟨a1, a2⟩

theorem runPod_skips_identical_witness :
    (KubeletStaticPodController.runPod sampleRuntime sampleLibrary (renderedStore true)
        renderedDisk sampleStaticPod).2.1.writes = renderedDisk.writes
      ∧ (KubeletStaticPodController.runPod sampleRuntime sampleLibrary (renderedStore true)
          renderedDisk sampleStaticPod).2.1.nodes = renderedDisk.nodes :=
  (runPod_skips_identical sampleRuntime sampleLibrary (renderedStore true) renderedDisk
    sampleStaticPod).1 sampleManifest (by rfl) (by rfl)

/-- C19, as stated, fails: the finalizer that `runPod` adds to the sample static pod, whose
namespace is `controlplane` and whose id is `kube-apiserver`, is the text
`k8s.StaticPodStatus("kube-apiserver")`, not `controlplane/k8s.StaticPodStatus/kube-apiserver`. -/
theorem runPod_finalizer_not_namespaced :
    sampleStaticPod.Metadata.Namespace = "controlplane"
      ∧ sampleStaticPod.Metadata.ID = "kube-apiserver"
      ∧ sampleStaticPod.Metadata.Finalizers = []
      ∧ (KubeletStaticPodController.runPod sampleRuntime sampleLibrary [sampleStaticPod]
            emptyDisk sampleStaticPod).1.map (fun res => res.Metadata.Finalizers)
          = [["k8s.StaticPodStatus(\"kube-apiserver\")"]]
      ∧ ("k8s.StaticPodStatus(\"kube-apiserver\")" : String)
          ≠ "controlplane/k8s.StaticPodStatus/kube-apiserver" := by
  refine ⟨rfl, rfl, rfl, by decide, by decide⟩

/-- C19, amended: the finalizer that `runPod` adds to a static pod with id `i` is the text
that `StaticPodStatus.String` gives, `k8s.StaticPodStatus(<i quoted>)`, where the id is
quoted as the verb `%q` does; the namespace is not part of it. The store after `runPod` is
the store after the call of `AddFinalizer` with that text. -/
theorem runPod_finalizer {σ : Type} (r : Runtime σ) (lib : Library) (st : σ) (disk : Disk)
    (pod : Resource) :
    (KubeletStaticPodController.runPod r lib st disk pod).1
        = (r.AddFinalizer st pod.Metadata
            ("k8s.StaticPodStatus(" ++ lib.quote pod.Metadata.ID ++ ")")).1
      ∧ k8s.StaticPodStatus.String lib pod.Metadata.ID
          = "k8s.StaticPodStatus(" ++ lib.quote pod.Metadata.ID ++ ")"
      ∧ (KubeletStaticPodController.runPod sampleRuntime sampleLibrary [sampleStaticPod]
            emptyDisk sampleStaticPod).1
          = [sampleStaticPod.addFinalizer "k8s.StaticPodStatus(\"kube-apiserver\")"] := by
  refine ⟨?_, rfl, rfl⟩
  rcases hfin : r.AddFinalizer st pod.Metadata (k8s.StaticPodStatus.String lib pod.Metadata.ID)
    with ⟨st2, _ | err⟩
  · rw [runPod_fin_none r lib st st2 disk pod hfin]
    have : r.AddFinalizer st pod.Metadata
        ("k8s.StaticPodStatus(" ++ lib.quote pod.Metadata.ID ++ ")") = (st2, none) := hfin
    rw [this]
  · rw [runPod_fin_some r lib st st2 disk pod err hfin]
    have : r.AddFinalizer st pod.Metadata
        ("k8s.StaticPodStatus(" ++ lib.quote pod.Metadata.ID ++ ")") = (st2, some err) := hfin
    rw [this]

/-- C20 fails on the code. After the controller has rendered the sample static pod (the
manifest is on disk and the pod carries the finalizer), a pass of the loop of
`KubeletStaticPodController.Run` with the kubelet service resource missing, or with its
running flag false, ends without error and leaves the manifest file and the finalizer in
place; and with the kubelet running and the static pod in phase tearing down, the pass also
leaves the manifest file and the finalizer in place. -/
theorem kubelet_teardown_keeps_manifest_and_finalizer :
    KubeletStaticPodController.iteration sampleRuntime sampleLibrary
        [sampleKubeletService true, sampleStaticPod] emptyDisk
      = (renderedStore true,
          (KubeletStaticPodController.iteration sampleRuntime sampleLibrary
            [sampleKubeletService true, sampleStaticPod] emptyDisk).2.1, Outcome.next)
      ∧ (KubeletStaticPodController.iteration sampleRuntime sampleLibrary
            [sampleKubeletService true, sampleStaticPod] emptyDisk).2.1.writes
          = renderedDisk.writes
      ∧ (KubeletStaticPodController.iteration sampleRuntime sampleLibrary
            [sampleKubeletService true, sampleStaticPod] emptyDisk).2.1.nodes sampleManifestPath
          = renderedDisk.nodes sampleManifestPath
      ∧ renderedDisk.nodes sampleManifestPath = some (.regular sampleManifest 0o600)
      ∧ (renderedStore false).map (fun res => res.Metadata.Finalizers) = [[], [sampleFinalizer]]
      ∧ (KubeletStaticPodController.iteration sampleRuntime sampleLibrary
            [sampleStaticPod.addFinalizer sampleFinalizer] renderedDisk).1
          = [sampleStaticPod.addFinalizer sampleFinalizer]
      ∧ (KubeletStaticPodController.iteration sampleRuntime sampleLibrary
            [sampleStaticPod.addFinalizer sampleFinalizer] renderedDisk).2.2 = Outcome.next
      ∧ (KubeletStaticPodController.iteration sampleRuntime sampleLibrary
            [sampleStaticPod.addFinalizer sampleFinalizer] renderedDisk).2.1.nodes
            sampleManifestPath
          = some (.regular sampleManifest 0o600)
      ∧ (KubeletStaticPodController.iteration sampleRuntime sampleLibrary
            (renderedStore false) renderedDisk).1 = renderedStore false
      ∧ (KubeletStaticPodController.iteration sampleRuntime sampleLibrary
            (renderedStore false) renderedDisk).2.2 = Outcome.next
      ∧ (KubeletStaticPodController.iteration sampleRuntime sampleLibrary
            (renderedStore false) renderedDisk).2.1.nodes sampleManifestPath
          = some (.regular sampleManifest 0o600)
      ∧ tearingDownStaticPod.Metadata.Phase = Phase.PhaseTearingDown
      ∧ (KubeletStaticPodController.iteration sampleRuntime sampleLibrary
            [sampleKubeletService true, tearingDownStaticPod] renderedDisk).1
          = [sampleKubeletService true, tearingDownStaticPod]
      ∧ (KubeletStaticPodController.iteration sampleRuntime sampleLibrary
            [sampleKubeletService true, tearingDownStaticPod] renderedDisk).2.2 = Outcome.next
      ∧ (KubeletStaticPodController.iteration sampleRuntime sampleLibrary
            [sampleKubeletService true, tearingDownStaticPod] renderedDisk).2.1.nodes
            sampleManifestPath
          = some (.regular sampleManifest 0o600)
      ∧ tearingDownStaticPod.Metadata.Finalizers = [sampleFinalizer] := by
  exact ⟨rfl, rfl, rfl, rfl, by decide, rfl, rfl, rfl, rfl, rfl, rfl, rfl, rfl, rfl, rfl,
    by decide⟩

/-! ## Error handling of the controllers -/

/-- C23: in `K8sControlPlaneController` and `ControlPlaneStaticPodController`, a not-found
result of the read of an input resource (the machine config, the machine type, the control
plane config of a component) ends the handling of that input without error and with the
store as it was, and the loop goes on; any other error of such a read makes `Run` return an
error, which wraps the read error. -/
theorem read_errors_of_controllers {σ : Type} (r : Runtime σ)
    (rangeMap : List (String × String) → List (String × String)) (st : σ) (err : Error) :
    (r.Get st config.NamespaceName config.V1Alpha1Type config.V1Alpha1ID = .error err →
        (IsNotFoundError err = true → K8sControlPlaneController.iteration r st = (st, .next))
          ∧ (IsNotFoundError err = false →
              K8sControlPlaneController.iteration r st
                = (st, .returned (.wrapped "error getting config" err))))
      ∧ (r.Get st config.NamespaceName config.MachineTypeType config.MachineTypeID
            = .error err →
          (IsNotFoundError err = true →
              ControlPlaneStaticPodController.iteration r rangeMap st = (st, .next))
            ∧ (IsNotFoundError err = false →
                ControlPlaneStaticPodController.iteration r rangeMap st
                  = (st, .returned (.wrapped "error getting machine type" err))))
      ∧ (r.Get st config.NamespaceName config.K8sControlPlaneType
            config.K8sControlPlaneAPIServerID = .error err →
          (IsNotFoundError err = true →
              ControlPlaneStaticPodController.podLoop r rangeMap st
                [config.K8sControlPlaneAPIServerID] = (st, .next))
            ∧ (IsNotFoundError err = false →
                ControlPlaneStaticPodController.podLoop r rangeMap st
                    [config.K8sControlPlaneAPIServerID]
                  = (st, .returned (.wrapped "error getting control plane config" err)))) := by
  refine ⟨?_, ?_, ?_⟩
  · intro hget
    exact ⟨fun h => by simp [K8sControlPlaneController.iteration, hget, h],
      fun h => by simp [K8sControlPlaneController.iteration, hget, h]⟩
  · intro hget
    exact ⟨fun h => by simp [ControlPlaneStaticPodController.iteration, hget, h],
      fun h => by simp [ControlPlaneStaticPodController.iteration, hget, h]⟩
  · intro hget
    exact ⟨fun h => by simp [ControlPlaneStaticPodController.podLoop, hget, h],
      fun h => by simp [ControlPlaneStaticPodController.podLoop, hget, h]⟩

/-- C27: if the serialization of the spec of a static pod fails, `runPod` returns nil
and not the error, leaves the file system as it is, without any write, and leaves the
store as the call of `AddFinalizer` left it: the only store-changing call it makes is that
`AddFinalizer`. -/
theorem runPod_marshal_failure {σ : Type} (r : Runtime σ) (lib : Library) (st st2 : σ)
    (disk : Disk) (pod : Resource) (e : Error)
    (hfin : r.AddFinalizer st pod.Metadata (k8s.StaticPodStatus.String lib pod.Metadata.ID)
      = (st2, none))
    (hm : lib.yamlMarshal pod.Spec = .error e) :
    KubeletStaticPodController.runPod r lib st disk pod = (st2, disk, none)
      ∧ KubeletStaticPodController.runPod (recordingRuntime r) lib (st, []) disk pod
          = ((st2, [.AddFinalizer pod.Metadata
              (k8s.StaticPodStatus.String lib pod.Metadata.ID)]), disk, none) := by
  have hstep : manifestStep lib disk pod.Metadata.ID pod.Spec = (disk, none) := by
    simp [manifestStep, hm]
  refine ⟨?_, ?_⟩
  · rw [runPod_fin_none r lib st st2 disk pod hfin, hstep]
  · have hrec : (recordingRuntime r).AddFinalizer (st, []) pod.Metadata
        (k8s.StaticPodStatus.String lib pod.Metadata.ID)
        = ((st2, [.AddFinalizer pod.Metadata
            (k8s.StaticPodStatus.String lib pod.Metadata.ID)]), none) := by
      simp [recordingRuntime, hfin]
    rw [runPod_fin_none (recordingRuntime r) lib (st, []) _ disk pod hrec, hstep]

theorem runPod_marshal_failure_witness :
    KubeletStaticPodController.runPod sampleRuntime failingLibrary [sampleStaticPod] emptyDisk
        sampleStaticPod
        = ([sampleStaticPod.addFinalizer sampleFinalizer], emptyDisk, none)
      ∧ KubeletStaticPodController.runPod (recordingRuntime sampleRuntime) failingLibrary
          ([sampleStaticPod], []) emptyDisk sampleStaticPod
          = (([sampleStaticPod.addFinalizer sampleFinalizer],
              [.AddFinalizer sampleStaticPod.Metadata
                (k8s.StaticPodStatus.String failingLibrary sampleStaticPod.Metadata.ID)]),
              emptyDisk, none) :=
  runPod_marshal_failure sampleRuntime failingLibrary [sampleStaticPod]
    [sampleStaticPod.addFinalizer sampleFinalizer] emptyDisk sampleStaticPod
    (.other "yaml: cannot marshal") (by rfl) (by rfl)

/-! ## Tear down of the control plane static pods -/

theorem teardownLoop_recorded {σ : Type} (r : Runtime σ) (list : List Resource) :
    ∀ (st : σ) (log : List RuntimeCall),
      ∃ calls, ControlPlaneStaticPodController.teardownLoop (recordingRuntime r) (st, log) list
          = (((ControlPlaneStaticPodController.teardownLoop r st list).1, log ++ calls),
              (ControlPlaneStaticPodController.teardownLoop r st list).2)
        ∧ ((ControlPlaneStaticPodController.teardownLoop r st list).2 = none →
            calls = list.map (fun res => RuntimeCall.Destroy res.Metadata))
        ∧ (∀ err, (ControlPlaneStaticPodController.teardownLoop r st list).2 = some err →
            ∃ pre res post st1, list = pre ++ res :: post
              ∧ calls = (pre ++ [res]).map (fun res => RuntimeCall.Destroy res.Metadata)
              ∧ ControlPlaneStaticPodController.teardownLoop r st pre = (st1, none)
              ∧ r.Destroy st1 res.Metadata
                  = ((ControlPlaneStaticPodController.teardownLoop r st list).1, some err)) := by
  induction list with
  | nil =>
    intro st log
    exact ⟨[], by simp [ControlPlaneStaticPodController.teardownLoop],
      by simp, by simp [ControlPlaneStaticPodController.teardownLoop]⟩
  | cons res rest ih =>
    intro st log
    rcases hd : r.Destroy st res.Metadata with ⟨st2, _ | err⟩
    · obtain ⟨calls, h1, h2, h3⟩ := ih st2 (log ++ [.Destroy res.Metadata])
      have hloop : ControlPlaneStaticPodController.teardownLoop r st (res :: rest)
          = ControlPlaneStaticPodController.teardownLoop r st2 rest := by
        simp [ControlPlaneStaticPodController.teardownLoop, hd]
      refine ⟨RuntimeCall.Destroy res.Metadata :: calls, ?_, ?_, ?_⟩
      · rw [hloop]
        simp only [ControlPlaneStaticPodController.teardownLoop, recordingRuntime, hd]
        simpa [recordingRuntime] using h1
      · intro hnone
        rw [hloop] at hnone
        simp [h2 hnone]
      · intro e he
        rw [hloop] at he ⊢
        obtain ⟨pre, res2, post, st1, hsplit, hcalls, hpre, hfail⟩ := h3 e he
        refine ⟨res :: pre, res2, post, st1, by simp [hsplit], by simp [hcalls], ?_, hfail⟩
        simp [ControlPlaneStaticPodController.teardownLoop, hd, hpre]
    · have hloop : ControlPlaneStaticPodController.teardownLoop r st (res :: rest)
          = (st2, some err) := by
        simp [ControlPlaneStaticPodController.teardownLoop, hd]
      refine ⟨[RuntimeCall.Destroy res.Metadata], ?_, ?_, ?_⟩
      · rw [hloop]
        simp [ControlPlaneStaticPodController.teardownLoop, recordingRuntime, hd]
      · intro hnone
        rw [hloop] at hnone
        cases hnone
      · intro e he
        rw [hloop] at he ⊢
        cases he
        exact ⟨[], res, rest, st, rfl, rfl,
          by simp [ControlPlaneStaticPodController.teardownLoop], hd⟩

theorem sample_teardownLoop_removes (list : List Resource) :
    ∀ (st st2 : List Resource),
      ControlPlaneStaticPodController.teardownLoop sampleRuntime st list = (st2, none) →
      ∀ x ∈ st2, x ∈ st
        ∧ ∀ res ∈ list,
            hasKey res.Metadata.Namespace res.Metadata.Typ res.Metadata.ID x = false := by
  induction list with
  | nil =>
    intro st st2 h x hx
    simp [ControlPlaneStaticPodController.teardownLoop] at h
    rw [← h] at hx
    exact ⟨hx, by simp⟩
  | cons res rest ih =>
    intro st st2 h x hx
    rcases hd : sampleRuntime.Destroy st res.Metadata with ⟨st1, _ | err⟩
    · simp only [ControlPlaneStaticPodController.teardownLoop, hd] at h
      obtain ⟨hx1, hrest⟩ := ih st1 st2 h x hx
      have hst1 : st1 = st.filter
          (fun y => !hasKey res.Metadata.Namespace res.Metadata.Typ res.Metadata.ID y) := by
        simp only [sampleRuntime] at hd
        split at hd
        · simp at hd
        · split at hd
          · simp at hd
            exact hd.symm
          · simp at hd
      rw [hst1] at hx1
      have hx2 := List.mem_filter.mp hx1
      refine ⟨hx2.1, ?_⟩
      intro res2 hres2
      rcases List.mem_cons.mp hres2 with rfl | hmem
      · simpa using hx2.2
      · exact hrest res2 hmem
    · simp [ControlPlaneStaticPodController.teardownLoop, hd] at h

/-- C28: once the listing has succeeded, `ControlPlaneStaticPodController.teardownAll`
makes no store-changing call other than `Destroy`, on the metadata of the listed static
pods in list order. When it returns nil it has called `Destroy` on every listed pod, and
on the sample store no listed pod remains. When it returns an error, that error is the one
of the first `Destroy` that failed, the calls stop with that `Destroy`, and the pods that
follow in the list are not destroyed. -/
theorem teardownAll_destroys_in_order {σ : Type} (r : Runtime σ) (st : σ)
    (list : List Resource)
    (hlist : r.List st k8s.ControlPlaneNamespaceName k8s.StaticPodType = .ok list) :
    (∀ st2 calls, ControlPlaneStaticPodController.teardownAll (recordingRuntime r) (st, [])
          = ((st2, calls), none) →
        calls = list.map (fun res => RuntimeCall.Destroy res.Metadata)
          ∧ ControlPlaneStaticPodController.teardownAll r st = (st2, none))
      ∧ (∀ st2 calls err, ControlPlaneStaticPodController.teardownAll (recordingRuntime r) (st, [])
            = ((st2, calls), some err) →
          ControlPlaneStaticPodController.teardownAll r st = (st2, some err)
            ∧ ∃ pre res post st1, list = pre ++ res :: post
                ∧ calls = (pre ++ [res]).map (fun res => RuntimeCall.Destroy res.Metadata)
                ∧ ControlPlaneStaticPodController.teardownLoop r st pre = (st1, none)
                ∧ r.Destroy st1 res.Metadata = (st2, some err))
      ∧ (∀ (store store2 : List Resource),
          ControlPlaneStaticPodController.teardownAll sampleRuntime store = (store2, none) →
          sampleRuntime.List store2 k8s.ControlPlaneNamespaceName k8s.StaticPodType = .ok []) := by
  have hrec : ControlPlaneStaticPodController.teardownAll (recordingRuntime r) (st, [])
      = ControlPlaneStaticPodController.teardownLoop (recordingRuntime r) (st, []) list := by
    simp [ControlPlaneStaticPodController.teardownAll, recordingRuntime, hlist]
  have hplain : ControlPlaneStaticPodController.teardownAll r st
      = ControlPlaneStaticPodController.teardownLoop r st list := by
    simp [ControlPlaneStaticPodController.teardownAll, hlist]
  obtain ⟨calls0, h1, h2, h3⟩ := teardownLoop_recorded r list st []
  rw [hrec, h1, hplain]
  refine ⟨?_, ?_, ?_⟩
  · intro st2 calls h
    simp only [List.nil_append, Prod.mk.injEq] at h
    obtain ⟨⟨hst, hcalls⟩, he⟩ := h
    refine ⟨?_, ?_⟩
    · rw [← hcalls]
      exact h2 he
    · exact Prod.ext hst he
  · intro st2 calls err h
    simp only [List.nil_append, Prod.mk.injEq] at h
    obtain ⟨⟨hst, hcalls⟩, he⟩ := h
    refine ⟨Prod.ext hst he, ?_⟩
    obtain ⟨pre, res, post, st1, hsplit, hc, hpre, hfail⟩ := h3 err he
    refine ⟨pre, res, post, st1, hsplit, ?_, hpre, ?_⟩
    · rw [← hcalls]
      exact hc
    · rw [hfail, hst]
  · intro store store2 h
    have hl : ControlPlaneStaticPodController.teardownAll sampleRuntime store
        = ControlPlaneStaticPodController.teardownLoop sampleRuntime store
            (store.filter (fun res => res.Metadata.Namespace == k8s.ControlPlaneNamespaceName
              && res.Metadata.Typ == k8s.StaticPodType)) := by
      simp [ControlPlaneStaticPodController.teardownAll, sampleRuntime]
    rw [hl] at h
    have hrem := sample_teardownLoop_removes _ store store2 h
    have : store2.filter (fun res => res.Metadata.Namespace == k8s.ControlPlaneNamespaceName
        && res.Metadata.Typ == k8s.StaticPodType) = [] := by
      rw [List.filter_eq_nil_iff]
      intro x hx hmatch
      obtain ⟨hxs, hall⟩ := hrem x hx
      have hxl : x ∈ store.filter (fun res =>
          res.Metadata.Namespace == k8s.ControlPlaneNamespaceName
            && res.Metadata.Typ == k8s.StaticPodType) := List.mem_filter.mpr ⟨hxs, hmatch⟩
      have := hall x hxl
      simp [hasKey] at this
    simp [sampleRuntime, this]

theorem teardownAll_destroys_in_order_witness :
    [RuntimeCall.Destroy sampleStaticPod.Metadata]
        = [sampleStaticPod].map (fun res => RuntimeCall.Destroy res.Metadata)
      ∧ ControlPlaneStaticPodController.teardownAll sampleRuntime [sampleStaticPod]
          = ([], none) :=
  (teardownAll_destroys_in_order sampleRuntime [sampleStaticPod] [sampleStaticPod]
    (by rfl)).1 [] [RuntimeCall.Destroy sampleStaticPod.Metadata] (by rfl)

/-! ## The comparator of the link merge controller -/

theorem linkLess_iff (a b : LinkSpecSpec) :
    linkLess a b = true
      ↔ (b.Name < a.Name ∨ (a.Name = b.Name ∧ a.ConfigLayer < b.ConfigLayer)) := by
  unfold linkLess
  rcases lt_trichotomy a.Name b.Name with h | h | h
  · have h1 : ¬ b.Name < a.Name := lt_asymm h
    have h2 : ¬ a.Name = b.Name := ne_of_lt h
    simp [h, h1, h2]
  · have h1 : ¬ a.Name < b.Name := by rw [h]; exact lt_irrefl _
    have h2 : ¬ b.Name < a.Name := by rw [h]; exact lt_irrefl _
    simp [h1, h2, h]
  · have h1 : ¬ a.Name < b.Name := lt_asymm h
    have h2 : ¬ a.Name = b.Name := fun e => (ne_of_lt h) e.symm
    simp [h, h1, h2]

theorem linkLess_false_iff (a b : LinkSpecSpec) :
    linkLess a b = false
      ↔ (a.Name < b.Name ∨ (a.Name = b.Name ∧ b.ConfigLayer ≤ a.ConfigLayer)) := by
  rw [← Bool.not_eq_true, linkLess_iff]
  rcases lt_trichotomy a.Name b.Name with h | h | h
  · have h1 : ¬ b.Name < a.Name := lt_asymm h
    have h2 : ¬ a.Name = b.Name := ne_of_lt h
    simp [h, h1, h2]
  · have h2 : ¬ b.Name < a.Name := by rw [h]; exact lt_irrefl _
    have h1 : ¬ a.Name < b.Name := by rw [h]; exact lt_irrefl _
    simp [h1, h2, h]
  · have h1 : ¬ a.Name < b.Name := lt_asymm h
    have h2 : ¬ a.Name = b.Name := fun e => (ne_of_lt h) e.symm
    simp [h, h1, h2]

/-- C29: the comparator passed to `sort.Slice` in `LinkMergeController` is a strict weak
ordering on the pairs of link name and config layer: it is irreflexive, asymmetric and
transitive, being incomparable is transitive, and it puts a spec before another exactly
when its link name is greater, or the names are equal and its config layer is smaller. -/
theorem linkLess_strict_weak_order :
    (∀ a : LinkSpecSpec, linkLess a a = false)
      ∧ (∀ a b : LinkSpecSpec, linkLess a b = true → linkLess b a = false)
      ∧ (∀ a b c : LinkSpecSpec, linkLess a b = true → linkLess b c = true →
          linkLess a c = true)
      ∧ (∀ a b c : LinkSpecSpec, linkLess a b = false → linkLess b a = false →
          linkLess b c = false → linkLess c b = false →
          linkLess a c = false ∧ linkLess c a = false)
      ∧ (∀ a b : LinkSpecSpec, linkLess a b = true
          ↔ (b.Name < a.Name ∨ (a.Name = b.Name ∧ a.ConfigLayer < b.ConfigLayer))) := by
  refine ⟨?_, ?_, ?_, ?_, linkLess_iff⟩
  · intro a
    rw [linkLess_false_iff]
    exact Or.inr ⟨rfl, le_refl _⟩
  · intro a b hab
    rw [linkLess_iff] at hab
    rw [linkLess_false_iff]
    rcases hab with h | ⟨h1, h2⟩
    · exact Or.inl h
    · exact Or.inr ⟨h1.symm, le_of_lt h2⟩
  · intro a b c hab hbc
    rw [linkLess_iff] at hab hbc ⊢
    rcases hab with h | ⟨h1, h2⟩
    · rcases hbc with k | ⟨k1, k2⟩
      · exact Or.inl (lt_trans k h)
      · exact Or.inl (by rw [← k1]; exact h)
    · rcases hbc with k | ⟨k1, k2⟩
      · exact Or.inl (by rw [h1]; exact k)
      · exact Or.inr ⟨h1.trans k1, lt_trans h2 k2⟩
  · intro a b c hab hba hbc hcb
    rw [linkLess_false_iff] at hab hba hbc hcb ⊢
    rw [linkLess_false_iff]
    have eab : a.Name = b.Name ∧ a.ConfigLayer = b.ConfigLayer := by
      rcases hab with h | ⟨h1, h2⟩
      · rcases hba with k | ⟨k1, _⟩
        · exact absurd k (lt_asymm h)
        · exact absurd k1.symm (ne_of_lt h)
      · rcases hba with k | ⟨_, k2⟩
        · exact absurd h1.symm (ne_of_lt k)
        · exact ⟨h1, le_antisymm k2 h2⟩
    have ebc : b.Name = c.Name ∧ b.ConfigLayer = c.ConfigLayer := by
      rcases hbc with h | ⟨h1, h2⟩
      · rcases hcb with k | ⟨k1, _⟩
        · exact absurd k (lt_asymm h)
        · exact absurd k1.symm (ne_of_lt h)
      · rcases hcb with k | ⟨_, k2⟩
        · exact absurd h1.symm (ne_of_lt k)
        · exact ⟨h1, le_antisymm k2 h2⟩
    exact ⟨Or.inr ⟨eab.1.trans ebc.1, le_of_eq (eab.2.trans ebc.2).symm⟩,
      Or.inr ⟨(eab.1.trans ebc.1).symm, le_of_eq (eab.2.trans ebc.2)⟩⟩

/-! ## The declared resource definitions -/

theorem declaredDefinitions_names_disjoint :
    ∀ spec ∈ declaredDefinitions, ∀ spec2 ∈ declaredDefinitions,
      ∀ n ∈ definitionNames spec, n ∈ definitionNames spec2 → spec = spec2 := by
  decide

theorem kindMatches_iff_definitionNames (d : Metadata × ResourceDefinitionSpec) (t : ResType)
    (hid : d.1.ID = d.2.Typ) :
    kindMatches d.1 d.2 t = true ↔ t ∈ definitionNames d.2 := by
  rw [kindMatches_iff, hid, definitionNames, List.mem_cons]
  constructor
  · rintro (h | h | h)
    · exact Or.inl h.symm
    · exact Or.inl h.symm
    · exact Or.inr h
  · rintro (h | h)
    · exact Or.inl h.symm
    · exact Or.inr (Or.inr h)

theorem resolveLoop_unique_match (s : Server) (kind : resourceKind)
    (defs : List (Metadata × ResourceDefinitionSpec)) (d : Metadata × ResourceDefinitionSpec)
    (hd : d ∈ defs) (hm : kindMatches d.1 d.2 kind.Typ = true)
    (huniq : ∀ x ∈ defs, kindMatches x.1 x.2 kind.Typ = true → x = d) :
    resolveLoop s kind (defs.map definitionResource)
      = (.ok (definitionResource d), resolvedKind kind d) := by
  rcases resolveLoop_defs s kind defs with ⟨pre, d2, post, hsplit, _, hd2, hres⟩ | ⟨hall, _⟩
  · have hmem : d2 ∈ defs := by simp [hsplit]
    rw [hres, huniq d2 hmem hd2]
  · rw [hall d hd] at hm
    cases hm

/-- C30: the names of the three resource definitions declared in the sources, the types
`config/k8sControlPlane`, `config/machineType`, `k8s/staticPodStatus` and the aliases
`controlPlane`, `machineType`, `podStatus`, are pairwise distinct, so that for each of
these names `resolveResourceKind` gives the same result, the one definition that carries
the name, for every order in which a registry lists these definitions under the ids that
are their types. -/
theorem declared_definitions_resolve_uniquely (s1 s2 : Server) (kind : resourceKind)
    (defs1 defs2 : List (Metadata × ResourceDefinitionSpec))
    (h1 : s1.List s1.coreNamespaceName s1.coreResourceDefinitionType
      = .ok (defs1.map definitionResource))
    (h2 : s2.List s2.coreNamespaceName s2.coreResourceDefinitionType
      = .ok (defs2.map definitionResource))
    (hperm : defs1.Perm defs2)
    (hspecs : (defs1.map (fun d => d.2)).Perm declaredDefinitions)
    (hid : ∀ d ∈ defs1, d.1.ID = d.2.Typ)
    (hname : kind.Typ ∈ ["config/k8sControlPlane", "controlPlane", "config/machineType",
      "machineType", "k8s/staticPodStatus", "podStatus"]) :
    (declaredDefinitions.flatMap definitionNames
        = ["config/k8sControlPlane", "controlPlane", "config/machineType", "machineType",
            "k8s/staticPodStatus", "podStatus"]
        ∧ (declaredDefinitions.flatMap definitionNames).Nodup)
      ∧ resolveResourceKind s1 kind = resolveResourceKind s2 kind
      ∧ ∃ d ∈ defs1, kind.Typ ∈ definitionNames d.2
          ∧ (∀ x ∈ defs1, kind.Typ ∈ definitionNames x.2 → x = d)
          ∧ resolveResourceKind s1 kind
              = (.ok (.ResourceDefinition d.1 d.2),
                  { Namespace := if kind.Namespace = "" then d.2.DefaultNamespace
                                 else kind.Namespace,
                    Typ := d.1.ID }) := by
  have hnodup : (defs1.map (fun d => d.2)).Nodup := by
    rw [hspecs.nodup_iff]
    decide
  have hspecmem : ∀ x ∈ defs1, x.2 ∈ declaredDefinitions := by
    intro x hx
    exact hspecs.subset (List.mem_map_of_mem _ hx)
  -- a definition that carries the name exists
  have hex : ∃ d ∈ defs1, kind.Typ ∈ definitionNames d.2 := by
    have : ∃ spec ∈ declaredDefinitions, kind.Typ ∈ definitionNames spec := by
      revert hname
      generalize kind.Typ = t
      intro hname
      simp only [List.mem_cons, List.mem_singleton, List.not_mem_nil, or_false] at hname
      rcases hname with h | h | h | h | h | h <;> subst h <;> decide
    obtain ⟨spec, hspec, hn⟩ := this
    have hmem : spec ∈ defs1.map (fun d => d.2) := hspecs.symm.subset hspec
    obtain ⟨d, hd, hds⟩ := List.mem_map.mp hmem
    exact ⟨d, hd, by rw [hds]; exact hn⟩
  obtain ⟨d, hd, hdn⟩ := hex
  have huniq : ∀ x ∈ defs1, kind.Typ ∈ definitionNames x.2 → x = d := by
    intro x hx hxn
    have hs : x.2 = d.2 :=
      declaredDefinitions_names_disjoint x.2 (hspecmem x hx) d.2 (hspecmem d hd) kind.Typ hxn hdn
    exact List.inj_on_of_nodup_map hnodup hx hd hs
  have hm : kindMatches d.1 d.2 kind.Typ = true :=
    (kindMatches_iff_definitionNames d kind.Typ (hid d hd)).mpr hdn
  have hu1 : ∀ x ∈ defs1, kindMatches x.1 x.2 kind.Typ = true → x = d := by
    intro x hx hxm
    exact huniq x hx ((kindMatches_iff_definitionNames x kind.Typ (hid x hx)).mp hxm)
  have hu2 : ∀ x ∈ defs2, kindMatches x.1 x.2 kind.Typ = true → x = d := by
    intro x hx hxm
    exact hu1 x (hperm.symm.subset hx) hxm
  have r1 : resolveResourceKind s1 kind = (.ok (definitionResource d), resolvedKind kind d) := by
    simp only [resolveResourceKind, h1]
    exact resolveLoop_unique_match s1 kind defs1 d hd hm hu1
  have r2 : resolveResourceKind s2 kind = (.ok (definitionResource d), resolvedKind kind d) := by
    simp only [resolveResourceKind, h2]
    exact resolveLoop_unique_match s2 kind defs2 d (hperm.subset hd) hm hu2
  refine ⟨⟨by decide, by decide⟩, by rw [r1, r2], d, hd, hdn, huniq, ?_⟩
  rw [r1]
  rfl

theorem declared_definitions_resolve_uniquely_witness :
    resolveResourceKind sampleServer { Namespace := "", Typ := "podStatus" }
      = resolveResourceKind
          { sampleServer with
            List := fun _ _ => .ok (sampleDefinitions.reverse.map definitionResource) }
          { Namespace := "", Typ := "podStatus" } :=
  (declared_definitions_resolve_uniquely sampleServer
    { sampleServer with
      List := fun _ _ => .ok (sampleDefinitions.reverse.map definitionResource) }
    { Namespace := "", Typ := "podStatus" } sampleDefinitions sampleDefinitions.reverse
    (by rfl) (by rfl) (List.reverse_perm _).symm (by decide) (by decide) (by decide)).2.1

/-! ## The write of the manifest is not atomic -/

/-- C21, as stated, fails: on a file system that holds an older manifest, `runPod` makes
one `WriteFile` call, on the manifest path itself and not on a temporary file, and the file
system goes through a state in which the manifest path holds an empty file, which is
neither the old manifest nor the new rendering. -/
theorem runPod_write_not_atomic :
    podPath sampleLibrary sampleStaticPod.Metadata.ID = sampleManifestPath
      ∧ (KubeletStaticPodController.runPod sampleRuntime sampleLibrary [sampleStaticPod]
            staleDisk sampleStaticPod).2.1.writes
          = [{ path := sampleManifestPath, data := sampleManifest, perm := 0o600 }]
      ∧ (KubeletStaticPodController.runPodStates sampleRuntime sampleLibrary [sampleStaticPod]
            staleDisk sampleStaticPod).map (fun d => d.nodes sampleManifestPath)
          = [some (.regular "" 0o600), some (.regular sampleManifest 0o600)]
      ∧ staleDisk.nodes sampleManifestPath = some (.regular "kind: Pod\nname: old\n" 0o600)
      ∧ sampleManifest ≠ "" := by
  refine ⟨rfl, rfl, rfl, rfl, by decide⟩

theorem WriteFileSteps_of_readable (disk : Disk) (path existing data : String) (perm : Nat)
    (h : readExistingPod disk path = .ok existing) :
    ∃ p, (ioutil.WriteFileSteps disk path data perm).map (fun d => d.nodes path)
        = [some (.regular "" p), some (.regular data p)]
      ∧ (ioutil.WriteFile disk path data perm).1.nodes path = some (.regular data p)
      ∧ (ioutil.WriteFileSteps disk path data perm).getLast?.map (fun d => d.nodes)
          = some (ioutil.WriteFile disk path data perm).1.nodes := by
  rcases readExistingPod_ok disk path existing h with ⟨hn, _⟩ | ⟨p, hn⟩
  · exact ⟨perm, by simp [ioutil.WriteFileSteps, hn], by simp [ioutil.WriteFile, hn],
      by simp [ioutil.WriteFileSteps, ioutil.WriteFile, hn]⟩
  · exact ⟨p, by simp [ioutil.WriteFileSteps, hn], by simp [ioutil.WriteFile, hn],
      by simp [ioutil.WriteFileSteps, ioutil.WriteFile, hn]⟩

/-- C21, amended: `runPod` replaces the manifest in place. When it has added its finalizer
and the rendering differs from the bytes on disk, it makes exactly one `ioutil.WriteFile`
call, on `<manifests>/<id>.yaml` itself with mode 0600: no temporary file is written and
nothing is renamed. That call first creates or truncates the file and then writes the
rendering, so that between the two steps the manifest path holds an empty file. -/
theorem runPod_writes_in_place {σ : Type} (r : Runtime σ) (lib : Library) (st st2 : σ)
    (disk : Disk) (pod : Resource) (rendered existing : String)
    (hfin : r.AddFinalizer st pod.Metadata (k8s.StaticPodStatus.String lib pod.Metadata.ID)
      = (st2, none))
    (hm : lib.yamlMarshal pod.Spec = .ok rendered)
    (hr : readExistingPod disk (podPath lib pod.Metadata.ID) = .ok existing)
    (hne : rendered ≠ existing) :
    (KubeletStaticPodController.runPod r lib st disk pod).2.1.writes
        = disk.writes ++ [{ path := podPath lib pod.Metadata.ID, data := rendered, perm := 0o600 }]
      ∧ ∃ p, (KubeletStaticPodController.runPodStates r lib st disk pod).map
            (fun d => d.nodes (podPath lib pod.Metadata.ID))
          = [some (.regular "" p), some (.regular rendered p)]
        ∧ (KubeletStaticPodController.runPod r lib st disk pod).2.1.nodes
            (podPath lib pod.Metadata.ID) = some (.regular rendered p) := by
  have hstep : manifestStep lib disk pod.Metadata.ID pod.Spec
      = ioutil.WriteFile disk (podPath lib pod.Metadata.ID) rendered 0o600 := by
    simp [manifestStep, hm, hr, hne]
  have hstates : KubeletStaticPodController.runPodStates r lib st disk pod
      = ioutil.WriteFileSteps disk (podPath lib pod.Metadata.ID) rendered 0o600 := by
    simp [KubeletStaticPodController.runPodStates, hfin, manifestStepStates, hm, hr, hne]
  rw [runPod_fin_none r lib st st2 disk pod hfin, hstep, hstates]
  obtain ⟨p, h1, h2, _⟩ :=
    WriteFileSteps_of_readable disk (podPath lib pod.Metadata.ID) existing rendered 0o600 hr
  exact ⟨(WriteFile_of_readable disk _ existing rendered 0o600 hr).2.2.2, p, h1, h2⟩

theorem runPod_writes_in_place_witness :
    (KubeletStaticPodController.runPod sampleRuntime sampleLibrary [sampleStaticPod]
          staleDisk sampleStaticPod).2.1.writes
        = staleDisk.writes
          ++ [{ path := podPath sampleLibrary sampleStaticPod.Metadata.ID,
                data := sampleManifest, perm := 0o600 }]
      ∧ ∃ p, (KubeletStaticPodController.runPodStates sampleRuntime sampleLibrary
              [sampleStaticPod] staleDisk sampleStaticPod).map
            (fun d => d.nodes (podPath sampleLibrary sampleStaticPod.Metadata.ID))
          = [some (.regular "" p), some (.regular sampleManifest p)]
        ∧ (KubeletStaticPodController.runPod sampleRuntime sampleLibrary [sampleStaticPod]
              staleDisk sampleStaticPod).2.1.nodes
            (podPath sampleLibrary sampleStaticPod.Metadata.ID)
          = some (.regular sampleManifest p) :=
  runPod_writes_in_place sampleRuntime sampleLibrary [sampleStaticPod]
    [sampleStaticPod.addFinalizer sampleFinalizer] staleDisk sampleStaticPod sampleManifest
    "kind: Pod\nname: old\n" (by rfl) (by rfl) (by rfl) (by decide)

/-! ## Service controller -/

/-- The stores that the service controller produces: every resource is the resource of a
running service. -/
theorem hasKey_runningService (n m : ID) :
    hasKey legacy.NamespaceName legacy.ServiceType n (runningService m) = (m == n) := by
  simp [hasKey, runningService, Resource.Metadata]

theorem find_runningService (st : List Resource) (n : ID)
    (hinv : ∀ res ∈ st, ∃ id, res = runningService id) :
    (st.find? (hasKey legacy.NamespaceName legacy.ServiceType n) = none
        ∧ runningService n ∉ st)
      ∨ (st.find? (hasKey legacy.NamespaceName legacy.ServiceType n) = some (runningService n)
        ∧ runningService n ∈ st) := by
  cases hf : st.find? (hasKey legacy.NamespaceName legacy.ServiceType n) with
  | none =>
    left
    refine ⟨rfl, ?_⟩
    intro hmem
    have := List.find?_eq_none.mp hf _ hmem
    simp [hasKey_runningService] at this
  | some res =>
    right
    have hmem := List.mem_of_find?_eq_some hf
    have hkey := List.find?_some hf
    obtain ⟨id, hid⟩ := hinv res hmem
    subst hid
    rw [hasKey_runningService] at hkey
    have : id = n := by simpa using hkey
    subst this
    exact ⟨rfl, hmem⟩

theorem handleEvent_running (st : List Resource) (log : List ServiceLog) (n : ID)
    (hinv : ∀ res ∈ st, ∃ id, res = runningService id) :
    ∃ st2, ServiceController.handleEvent sampleRuntime (st, log)
          (.ServiceStateEvent n .RUNNING) = (st2, log)
      ∧ (∀ res ∈ st2, ∃ id, res = runningService id)
      ∧ ∀ m, runningService m ∈ st2 ↔ (m = n ∨ runningService m ∈ st) := by
  rcases find_runningService st n hinv with ⟨hf, hnot⟩ | ⟨hf, hmem⟩
  · refine ⟨st ++ [runningService n], ?_, ?_, ?_⟩
    · simp [ServiceController.handleEvent, sampleRuntime, legacy.NewService, Resource.Metadata,
        hf, setRunning, runningService]
    · intro res hres
      rcases List.mem_append.mp hres with h | h
      · exact hinv res h
      · exact ⟨n, by simpa using h⟩
    · intro m
      constructor
      · intro h
        rcases List.mem_append.mp h with h | h
        · exact Or.inr h
        · left
          have : runningService m = runningService n := by simpa using h
          simpa [runningService] using this
      · rintro (h | h)
        · subst h
          simp
        · exact List.mem_append_left _ h
  · have hmap : st.map (fun x =>
        if hasKey legacy.NamespaceName legacy.ServiceType n x then runningService n else x)
        = st := by
      conv_rhs => rw [← List.map_id st]
      apply List.map_congr_left
      intro x hx
      obtain ⟨id, hid⟩ := hinv x hx
      subst hid
      by_cases h : id = n
      · subst h
        simp [hasKey_runningService]
      · simp [hasKey_runningService, h]
    refine ⟨st, ?_, hinv, ?_⟩
    · have hupd : sampleRuntime.Update st (legacy.NewService n) setRunning = (st, none) := by
        simp only [sampleRuntime, legacy.NewService, Resource.Metadata, hf]
        simp only [runningService, setRunning]
        have := hmap
        simp only [runningService] at this
        rw [this]
      simp [ServiceController.handleEvent, hupd]
    · intro m
      constructor
      · exact fun h => Or.inr h
      · rintro (h | h)
        · subst h
          exact hmem
        · exact h

theorem handleEvent_not_running (st : List Resource) (log : List ServiceLog) (n : ID)
    (a : ServiceAction) (ha : a ≠ .RUNNING)
    (hinv : ∀ res ∈ st, ∃ id, res = runningService id) :
    ∃ st2, ServiceController.handleEvent sampleRuntime (st, log)
          (.ServiceStateEvent n a) = (st2, log)
      ∧ (∀ res ∈ st2, ∃ id, res = runningService id)
      ∧ ∀ m, runningService m ∈ st2 ↔ (m ≠ n ∧ runningService m ∈ st) := by
  rcases find_runningService st n hinv with ⟨hf, hnot⟩ | ⟨hf, hmem⟩
  · have hd : sampleRuntime.Destroy st (legacy.NewService n).Metadata
        = (st, some (.stateNotFound "resource doesn't exist")) := by
      simp [sampleRuntime, legacy.NewService, Resource.Metadata, hf]
    refine ⟨st, ?_, hinv, ?_⟩
    · cases a <;> first
        | exact absurd rfl ha
        | simp [ServiceController.handleEvent, hd, IsNotFoundError]
    · intro m
      constructor
      · intro h
        refine ⟨?_, h⟩
        intro e
        subst e
        exact hnot h
      · exact fun h => h.2
  · have hd : sampleRuntime.Destroy st (legacy.NewService n).Metadata
        = (st.filter (fun x => !hasKey legacy.NamespaceName legacy.ServiceType n x), none) := by
      simp [sampleRuntime, legacy.NewService, Resource.Metadata, hf, runningService]
    refine ⟨st.filter (fun x => !hasKey legacy.NamespaceName legacy.ServiceType n x), ?_, ?_, ?_⟩
    · cases a <;> first
        | exact absurd rfl ha
        | simp [ServiceController.handleEvent, hd]
    · intro res hres
      exact hinv res (List.mem_filter.mp hres).1
    · intro m
      rw [List.mem_filter, hasKey_runningService]
      constructor
      · rintro ⟨h1, h2⟩
        exact ⟨by simpa using h2, h1⟩
      · rintro ⟨h1, h2⟩
        exact ⟨h2, by simpa using h1⟩

theorem lastEventRunning_append (n : String) (e : Payload) (events : List Payload) :
    lastEventRunning n (events ++ [e])
      = if isEventOf n e then (e == .ServiceStateEvent n .RUNNING) else lastEventRunning n events := by
  induction events with
  | nil =>
    by_cases h : isEventOf n e = true
    · simp [lastEventRunning, h]
    · have hne : (e == Payload.ServiceStateEvent n .RUNNING) = false := by
        cases e with
        | ServiceStateEvent name a =>
          simp [isEventOf] at h
          simp [h]
        | other d => simp
      simp [lastEventRunning, h, hne]
  | cons x xs ih =>
    by_cases h : isEventOf n e = true
    · simp [lastEventRunning, h, ih]
    · have h2 : isEventOf n e = false := by simpa using h
      have hany : (xs ++ [e]).any (isEventOf n) = xs.any (isEventOf n) := by simp [h2]
      have ih2 : lastEventRunning n (xs ++ [e]) = lastEventRunning n xs := by
        rw [ih]
        simp [h2]
      rw [if_neg h]
      show lastEventRunning n (x :: (xs ++ [e])) = lastEventRunning n (x :: xs)
      simp only [lastEventRunning, hany, ih2]

theorem processEvents_sample (events : List Payload) :
    (ServiceController.processEvents sampleRuntime [] events).2 = []
      ∧ (∀ res ∈ (ServiceController.processEvents sampleRuntime [] events).1,
          ∃ id, res = runningService id)
      ∧ ∀ m, runningService m ∈ (ServiceController.processEvents sampleRuntime [] events).1
          ↔ lastEventRunning m events = true := by
  induction events using List.reverseRecOn with
  | nil => simp [ServiceController.processEvents, lastEventRunning]
  | append_singleton events e ih =>
    obtain ⟨hlog, hinv, hmem⟩ := ih
    have hstep : ServiceController.processEvents sampleRuntime [] (events ++ [e])
        = ServiceController.handleEvent sampleRuntime
            ((ServiceController.processEvents sampleRuntime [] events).1, []) e := by
      simp only [ServiceController.processEvents, List.foldl_append, List.foldl_cons,
        List.foldl_nil]
      congr 1
      exact Prod.ext rfl hlog
    rw [hstep]
    cases e with
    | other d =>
      refine ⟨rfl, hinv, ?_⟩
      intro m
      rw [lastEventRunning_append]
      simpa [isEventOf, ServiceController.handleEvent] using hmem m
    | ServiceStateEvent n a =>
      by_cases ha : a = .RUNNING
      · subst ha
        obtain ⟨st2, h1, h2, h3⟩ := handleEvent_running _ [] n hinv
        rw [h1]
        refine ⟨rfl, h2, ?_⟩
        intro m
        rw [lastEventRunning_append]
        show runningService m ∈ st2 ↔ _
        rw [h3 m, hmem m]
        by_cases hmn : m = n
        · subst hmn
          simp [isEventOf]
        · have : ¬ n = m := fun e => hmn e.symm
          simp [isEventOf, hmn, this]
      · obtain ⟨st2, h1, h2, h3⟩ := handleEvent_not_running _ [] n a ha hinv
        rw [h1]
        refine ⟨rfl, h2, ?_⟩
        intro m
        rw [lastEventRunning_append]
        show runningService m ∈ st2 ↔ _
        rw [h3 m, hmem m]
        by_cases hmn : m = n
        · subst hmn
          simp [isEventOf, ha]
        · have : ¬ n = m := fun e => hmn e.symm
          simp [isEventOf, hmn, this]


/-- C22: for every finite sequence of events processed by `ServiceController` from the empty
store, a `legacy/service` resource with id `n` is in the store afterwards exactly when the
last event of service `n` had action `RUNNING`; every resource of the store is a
`legacy/service` resource with `running = true`; nothing is logged (the not-found of a
destroy is ignored); for every runtime a not-found error of `Destroy` leaves the log as it
was, and an event whose payload is not a service state event leaves store and log
unchanged. -/
theorem service_resources_follow_last_event (events : List Payload) :
    (∀ n : ID,
        (∃ res ∈ (ServiceController.processEvents sampleRuntime [] events).1,
            hasKey legacy.NamespaceName legacy.ServiceType n res = true)
          ↔ lastEventRunning n events = true)
      ∧ (∀ res ∈ (ServiceController.processEvents sampleRuntime [] events).1,
          res.Metadata.Namespace = legacy.NamespaceName
            ∧ res.Metadata.Typ = legacy.ServiceType
            ∧ ∃ md, res = Resource.Service md true)
      ∧ (ServiceController.processEvents sampleRuntime [] events).2 = []
      ∧ (∀ (σ : Type) (r : Runtime σ) (st st2 : σ) (log : List ServiceLog) (n : ID)
          (a : ServiceAction) (err : Error), a ≠ .RUNNING →
          r.Destroy st (legacy.NewService n).Metadata = (st2, some err) →
          IsNotFoundError err = true →
          ServiceController.handleEvent r (st, log) (.ServiceStateEvent n a) = (st2, log))
      ∧ (∀ (σ : Type) (r : Runtime σ) (st : σ × List ServiceLog) (description : String),
          ServiceController.handleEvent r st (.other description) = st) := by
  obtain ⟨hlog, hinv, hmem⟩ := processEvents_sample events
  refine ⟨?_, ?_, hlog, ?_, ?_⟩
  · intro n
    rw [← hmem n]
    constructor
    · rintro ⟨res, hres, hkey⟩
      obtain ⟨id, hid⟩ := hinv res hres
      subst hid
      rw [hasKey_runningService] at hkey
      have : id = n := by simpa using hkey
      subst this
      exact hres
    · intro h
      exact ⟨runningService n, h, by simp [hasKey_runningService]⟩
  · intro res hres
    obtain ⟨id, hid⟩ := hinv res hres
    subst hid
    exact ⟨rfl, rfl, _, rfl⟩
  · intro σ r st st2 log n a err ha hd hnf
    cases a <;> first
      | exact absurd rfl ha
      | simp [ServiceController.handleEvent, hd, hnf]
  · intro σ r st description
    rfl

/-- Witness of C22: after the events kubelet RUNNING, etcd RUNNING, kubelet FINISHED, etcd
RUNNING, the last event of etcd is RUNNING and the store holds its resource. -/
theorem service_resources_follow_last_event_witness :
    lastEventRunning "etcd"
        [.ServiceStateEvent "kubelet" .RUNNING, .ServiceStateEvent "etcd" .RUNNING,
          .ServiceStateEvent "kubelet" .FINISHED, .ServiceStateEvent "etcd" .RUNNING] = true
      ∧ ∃ res ∈ (ServiceController.processEvents sampleRuntime []
            [.ServiceStateEvent "kubelet" .RUNNING, .ServiceStateEvent "etcd" .RUNNING,
              .ServiceStateEvent "kubelet" .FINISHED,
              .ServiceStateEvent "etcd" .RUNNING]).1,
          hasKey legacy.NamespaceName legacy.ServiceType "etcd" res = true :=
  ⟨by decide,
    ((service_resources_follow_last_event
        [.ServiceStateEvent "kubelet" .RUNNING, .ServiceStateEvent "etcd" .RUNNING,
          .ServiceStateEvent "kubelet" .FINISHED, .ServiceStateEvent "etcd" .RUNNING]).1
      "etcd").2 (by decide)⟩


/-! ## talosctl get, list mode -/

theorem resourceCalls_append (xs ys : List WriterCall) :
    resourceCalls (xs ++ ys) = resourceCalls xs ++ resourceCalls ys := by
  simp [resourceCalls, List.filterMap_append]

theorem writeHeaderStep_ok (out : Writer) (hH : ∀ calls d, out.WriteHeader calls d = none)
    (st : GetState) (msg : ResourceResponse) :
    (writeHeaderStep out st msg).2 = none
      ∧ resourceCalls (writeHeaderStep out st msg).1.out = resourceCalls st.out
      ∧ (writeHeaderStep out st msg).1.stderr = st.stderr := by
  unfold writeHeaderStep
  cases msg.Definition with
  | none => exact ⟨rfl, rfl, rfl⟩
  | some d =>
    by_cases h : st.headerWritten = true
    · simp [h]
    · simp [h, hH, resourceCalls_append, resourceCalls]

theorem writeHeaderStep_calls (out : Writer) (st : GetState) (msg : ResourceResponse) :
    resourceCalls (writeHeaderStep out st msg).1.out = resourceCalls st.out
      ∧ (writeHeaderStep out st msg).1.stderr = st.stderr := by
  unfold writeHeaderStep
  cases msg.Definition with
  | none => exact ⟨rfl, rfl⟩
  | some d =>
    by_cases h : st.headerWritten = true
    · simp [h]
    · cases hw : out.WriteHeader st.out d <;>
        simp [h, hw, resourceCalls_append, resourceCalls]

theorem listMode_error_frame (out : Writer) (st : GetState) (msg : ResourceResponse)
    (rest : List ResourceResponse) (final : Error) (h : msg.GetError ≠ "") :
    listMode out st (msg :: rest) final
      = listMode out
          { st with stderr := st.stderr ++ [msg.GetHostname ++ ": " ++ msg.GetError ++ "\n"] }
          rest final := by
  rw [listMode, if_pos h]

theorem resourceCalls_WriteResource (node : String) (r : Resource) :
    resourceCalls [.WriteResource node r] = [(node, r)] := rfl

theorem resourceFrames_cons_error (msg : ResourceResponse) (rest : List ResourceResponse)
    (h : msg.GetError ≠ "") : resourceFrames (msg :: rest) = resourceFrames rest := by
  simp [resourceFrames, h]

theorem resourceFrames_cons_none (msg : ResourceResponse) (rest : List ResourceResponse)
    (h : msg.GetError = "") (hr : msg.Resource = none) :
    resourceFrames (msg :: rest) = resourceFrames rest := by
  simp [resourceFrames, h, hr]

theorem resourceFrames_cons_some (msg : ResourceResponse) (rest : List ResourceResponse)
    (r : Resource) (h : msg.GetError = "") (hr : msg.Resource = some r) :
    resourceFrames (msg :: rest) = (msg.GetHostname, r) :: resourceFrames rest := by
  simp [resourceFrames, h, hr]

theorem errorReports_cons_error (msg : ResourceResponse) (rest : List ResourceResponse)
    (h : msg.GetError ≠ "") :
    errorReports (msg :: rest)
      = (msg.GetHostname ++ ": " ++ msg.GetError ++ "\n") :: errorReports rest := by
  simp [errorReports, h]

theorem errorReports_cons_ok (msg : ResourceResponse) (rest : List ResourceResponse)
    (h : msg.GetError = "") : errorReports (msg :: rest) = errorReports rest := by
  simp [errorReports, h]

theorem listMode_ok (out : Writer) (hH : ∀ calls d, out.WriteHeader calls d = none)
    (hR : ∀ calls node r, out.WriteResource calls node r = none) (final : Error) :
    ∀ (frames : List ResourceResponse) (st : GetState),
      resourceCalls (listMode out st frames final).1.out
          = resourceCalls st.out ++ resourceFrames frames
        ∧ (listMode out st frames final).1.stderr = st.stderr ++ errorReports frames
        ∧ (listMode out st frames final).2
          = if final = Error.EOF ∨ final.statusCode = Code.Canceled then none
            else some final := by
  intro frames
  induction frames with
  | nil =>
    intro st
    by_cases h : final = Error.EOF ∨ final.statusCode = Code.Canceled
    · simp [listMode, h, resourceFrames, errorReports]
    · simp [listMode, h, resourceFrames, errorReports]
  | cons msg rest ih =>
    intro st
    by_cases h : msg.GetError ≠ ""
    · rw [listMode_error_frame out st msg rest final h, resourceFrames_cons_error msg rest h,
        errorReports_cons_error msg rest h]
      obtain ⟨h1, h2, h3⟩ := ih
        { st with stderr := st.stderr ++ [msg.GetHostname ++ ": " ++ msg.GetError ++ "\n"] }
      refine ⟨h1, ?_, h3⟩
      rw [h2]
      simp
    · have h0 : msg.GetError = "" := by simpa using h
      obtain ⟨g1, g2, g3⟩ := writeHeaderStep_ok out hH st msg
      rw [listMode, if_neg h, errorReports_cons_ok msg rest h0]
      generalize writeHeaderStep out st msg = hs at g1 g2 g3
      obtain ⟨st2, e⟩ := hs
      simp only at g1 g2 g3
      subst g1
      rw [← g2, ← g3]
      simp only
      cases hr : msg.Resource with
      | none =>
        rw [resourceFrames_cons_none msg rest h0 hr]
        exact ih st2
      | some r =>
        rw [resourceFrames_cons_some msg rest r h0 hr]
        simp only [hR]
        obtain ⟨h1, h2, h3⟩ := ih
          { st2 with out := st2.out ++ [.WriteResource msg.GetHostname r] }
        refine ⟨?_, h2, h3⟩
        rw [h1]
        show resourceCalls (st2.out ++ [.WriteResource msg.GetHostname r]) ++ _ = _
        rw [resourceCalls_append, resourceCalls_WriteResource]
        simp

theorem listMode_calls_bounded (out : Writer) (final : Error) :
    ∀ (frames : List ResourceResponse) (st : GetState),
      resourceCalls (listMode out st frames final).1.out
          <+: resourceCalls st.out ++ resourceFrames frames
        ∧ (listMode out st frames final).1.stderr <+: st.stderr ++ errorReports frames := by
  intro frames
  induction frames with
  | nil =>
    intro st
    by_cases h : final = Error.EOF ∨ final.statusCode = Code.Canceled
    · simp [listMode, h, resourceFrames, errorReports]
    · simp [listMode, h, resourceFrames, errorReports]
  | cons msg rest ih =>
    intro st
    by_cases h : msg.GetError ≠ ""
    · rw [listMode_error_frame out st msg rest final h, resourceFrames_cons_error msg rest h,
        errorReports_cons_error msg rest h]
      obtain ⟨h1, h2⟩ := ih
        { st with stderr := st.stderr ++ [msg.GetHostname ++ ": " ++ msg.GetError ++ "\n"] }
      refine ⟨h1, ?_⟩
      simpa using h2
    · have h0 : msg.GetError = "" := by simpa using h
      obtain ⟨g2, g3⟩ := writeHeaderStep_calls out st msg
      rw [listMode, if_neg h, errorReports_cons_ok msg rest h0]
      generalize writeHeaderStep out st msg = hs at g2 g3
      obtain ⟨st2, e⟩ := hs
      simp only at g2 g3
      rw [← g2, ← g3]
      cases e with
      | some e =>
        exact ⟨List.prefix_append _ _, List.prefix_append _ _⟩
      | none =>
        simp only
        cases hr : msg.Resource with
        | none =>
          rw [resourceFrames_cons_none msg rest h0 hr]
          exact ih st2
        | some r =>
          rw [resourceFrames_cons_some msg rest r h0 hr]
          cases hw : out.WriteResource st2.out msg.GetHostname r with
          | some e =>
            simp only [hw]
            refine ⟨?_, List.prefix_append _ _⟩
            rw [resourceCalls_append, resourceCalls_WriteResource]
            exact (List.prefix_append_right_inj _).mpr (by simp)
          | none =>
            simp only [hw]
            obtain ⟨h1, h2⟩ := ih
              { st2 with out := st2.out ++ [.WriteResource msg.GetHostname r] }
            refine ⟨?_, h2⟩
            have h1b : resourceCalls (listMode out
                { st2 with out := st2.out ++ [.WriteResource msg.GetHostname r] } rest final).1.out
                <+: resourceCalls (st2.out ++ [.WriteResource msg.GetHostname r])
                  ++ resourceFrames rest := h1
            rw [resourceCalls_append, resourceCalls_WriteResource] at h1b
            simpa using h1b


/-- C24: in the list mode of `talosctl get`, a frame whose metadata carries a non-empty
error appends the line `hostname: error` to standard error and the loop goes on with the
frames after it; when no call of the writer fails, the `WriteResource` calls added are
exactly the frames without an error that carry a resource, each once and in arrival order,
the reported lines are exactly those of the error frames, and the command returns nil when
`Recv` ends with `io.EOF` or with status `Canceled` (and the error of `Recv` otherwise);
for every writer the `WriteResource` calls are a prefix of those frames. -/
theorem get_list_mode_reports_and_continues (out : Writer) (st : GetState)
    (frames : List ResourceResponse) (final : Error) :
    (∀ msg : ResourceResponse, msg.GetError ≠ "" →
        listMode out st (msg :: frames) final
          = listMode out
              { st with
                stderr := st.stderr ++ [msg.GetHostname ++ ": " ++ msg.GetError ++ "\n"] }
              frames final)
      ∧ ((∀ calls d, out.WriteHeader calls d = none) →
          (∀ calls node r, out.WriteResource calls node r = none) →
          resourceCalls (listMode out st frames final).1.out
              = resourceCalls st.out ++ resourceFrames frames
            ∧ (listMode out st frames final).1.stderr = st.stderr ++ errorReports frames
            ∧ ((final = Error.EOF ∨ final.statusCode = Code.Canceled) →
                (listMode out st frames final).2 = none)
            ∧ (¬ (final = Error.EOF ∨ final.statusCode = Code.Canceled) →
                (listMode out st frames final).2 = some final))
      ∧ resourceCalls (listMode out st frames final).1.out
          <+: resourceCalls st.out ++ resourceFrames frames
      ∧ ((final = Error.EOF ∨ final.statusCode = Code.Canceled) →
          listMode out st [] final = (st, none)) := by
  refine ⟨?_, ?_, (listMode_calls_bounded out final frames st).1, ?_⟩
  · intro msg h
    exact listMode_error_frame out st msg frames final h
  · intro hH hR
    obtain ⟨h1, h2, h3⟩ := listMode_ok out hH hR final frames st
    refine ⟨h1, h2, ?_, ?_⟩
    · intro h
      rw [h3, if_pos h]
    · intro h
      rw [h3, if_neg h]
  · intro h
    rw [listMode, if_pos h]

/-- Witness of C24: with a writer that never fails, the three sample frames (node `a`
with a resource, node `b` with an error, node `c` with a resource) end with both resources
written, one line reported, and nil returned at `io.EOF`. -/
theorem get_list_mode_reports_and_continues_witness :
    (∀ calls d, sampleWriter.WriteHeader calls d = none)
      ∧ (∀ calls node r, sampleWriter.WriteResource calls node r = none)
      ∧ (Error.EOF = Error.EOF ∨ Error.EOF.statusCode = Code.Canceled)
      ∧ resourceCalls (listMode sampleWriter GetState.initial sampleFrames Error.EOF).1.out
          = resourceCalls GetState.initial.out ++ resourceFrames sampleFrames
      ∧ (listMode sampleWriter GetState.initial sampleFrames Error.EOF).1.stderr
          = GetState.initial.stderr ++ errorReports sampleFrames
      ∧ (listMode sampleWriter GetState.initial sampleFrames Error.EOF).2 = none :=
  ⟨fun _ _ => rfl, fun _ _ _ => rfl, Or.inl rfl,
    ((get_list_mode_reports_and_continues sampleWriter GetState.initial sampleFrames
        Error.EOF).2.1 (fun _ _ => rfl) (fun _ _ _ => rfl)).1,
    ((get_list_mode_reports_and_continues sampleWriter GetState.initial sampleFrames
        Error.EOF).2.1 (fun _ _ => rfl) (fun _ _ _ => rfl)).2.1,
    ((get_list_mode_reports_and_continues sampleWriter GetState.initial sampleFrames
        Error.EOF).2.1 (fun _ _ => rfl) (fun _ _ _ => rfl)).2.2.1 (Or.inl rfl)⟩

/-- The sample frames evaluated: the resources of nodes `a` and `c` are written in this
order and the failure of node `b` is reported. -/
theorem sampleFrames_listMode :
    resourceCalls (listMode sampleWriter GetState.initial sampleFrames Error.EOF).1.out
        = [("a", runningService "etcd"), ("c", runningService "kubelet")]
      ∧ (listMode sampleWriter GetState.initial sampleFrames Error.EOF).1.stderr
        = ["b: connection refused\n"] := by
  constructor
  · rfl
  · decide


/-! ## Link merge controller: the merge of the layers -/

theorem lookup_mapSet_self (links : List (ID × LinkSpecSpec)) (id : ID) (v : LinkSpecSpec) :
    (mapSet links id v).lookup id = some v := by
  induction links with
  | nil => simp [mapSet, List.lookup]
  | cons kw rest ih =>
    obtain ⟨k, w⟩ := kw
    by_cases h : k = id
    · subst h
      simp [mapSet, List.lookup]
    · have h2 : (id == k) = false := by
        simp only [beq_eq_false_iff_ne, ne_eq]
        exact fun e => h e.symm
      simp [mapSet, h, List.lookup, h2, ih]

theorem lookup_mapSet_ne (links : List (ID × LinkSpecSpec)) (id other : ID) (v : LinkSpecSpec)
    (hne : other ≠ id) : (mapSet links id v).lookup other = links.lookup other := by
  induction links with
  | nil =>
    have h2 : (other == id) = false := by simpa using hne
    simp [mapSet, List.lookup, h2]
  | cons kw rest ih =>
    obtain ⟨k, w⟩ := kw
    by_cases h : k = id
    · subst h
      have h2 : (other == k) = false := by simpa using hne
      simp [mapSet, List.lookup, h2]
    · by_cases h3 : other = k
      · subst h3
        simp [mapSet, h, List.lookup]
      · have h2 : (other == k) = false := by simpa using h3
        simp [mapSet, h, List.lookup, h2, ih]

theorem mergeStep_lookup_self (lib : LinkLibrary) (acc : List (ID × LinkSpecSpec) × List Error)
    (link : LinkSpecSpec) :
    (mergeStep lib acc link).1.lookup (lib.LinkID link.Name)
      = layerStep lib (acc.1.lookup (lib.LinkID link.Name)) link := by
  unfold mergeStep layerStep
  cases h : acc.1.lookup (lib.LinkID link.Name) with
  | none => simp [lookup_mapSet_self]
  | some existing =>
    rcases hm : lib.Merge existing link with ⟨merged, _ | err⟩ <;>
      simp [hm, lookup_mapSet_self]

theorem mergeStep_lookup_ne (lib : LinkLibrary) (acc : List (ID × LinkSpecSpec) × List Error)
    (link : LinkSpecSpec) (id : ID) (hne : id ≠ lib.LinkID link.Name) :
    (mergeStep lib acc link).1.lookup id = acc.1.lookup id := by
  unfold mergeStep
  cases h : acc.1.lookup (lib.LinkID link.Name) with
  | none => simp [lookup_mapSet_ne _ _ _ _ hne]
  | some existing =>
    rcases hm : lib.Merge existing link with ⟨merged, _ | err⟩ <;>
      simp [hm, lookup_mapSet_ne _ _ _ _ hne]

theorem foldl_mergeStep_lookup (lib : LinkLibrary) (id : ID) (specs : List LinkSpecSpec) :
    ∀ acc : List (ID × LinkSpecSpec) × List Error,
      (specs.foldl (mergeStep lib) acc).1.lookup id
        = (layersOf lib id specs).foldl (layerStep lib) (acc.1.lookup id) := by
  induction specs with
  | nil =>
    intro acc
    rfl
  | cons s rest ih =>
    intro acc
    rw [List.foldl_cons, ih]
    by_cases h : lib.LinkID s.Name = id
    · have hl : layersOf lib id (s :: rest) = s :: layersOf lib id rest := by
        simp [layersOf, h]
      rw [hl, List.foldl_cons, ← h, mergeStep_lookup_self]
    · have hl : layersOf lib id (s :: rest) = layersOf lib id rest := by
        simp [layersOf, h]
      rw [hl, mergeStep_lookup_ne lib acc s id (fun e => h e.symm)]

theorem foldl_layerStep_some (lib : LinkLibrary) (higher : List LinkSpecSpec) :
    ∀ first : LinkSpecSpec,
      higher.foldl (layerStep lib) (some first) = some (mergeOnto lib first higher) := by
  induction higher with
  | nil =>
    intro first
    rfl
  | cons s rest ih =>
    intro first
    rw [List.foldl_cons]
    show List.foldl (layerStep lib) (some (lib.Merge first s).1) rest = _
    rw [ih]
    rfl

theorem mergeLinks_lookup (lib : LinkLibrary) (id : ID) (sorted : List LinkSpecSpec) :
    (mergeLinks lib sorted).1.lookup id
      = (layersOf lib id sorted).head?.map
          (fun first => mergeOnto lib first (layersOf lib id sorted).tail) := by
  unfold mergeLinks
  rw [foldl_mergeStep_lookup]
  cases layersOf lib id sorted with
  | nil => rfl
  | cons first higher =>
    show List.foldl (layerStep lib) (layerStep lib none first) higher = _
    exact foldl_layerStep_some lib higher first

theorem mergeOnto_eq_skipping (lib : LinkLibrary)
    (hfail : ∀ a b a2 e, lib.Merge a b = (a2, some e) → a2 = a) (higher : List LinkSpecSpec) :
    ∀ first : LinkSpecSpec, mergeOnto lib first higher = mergeOntoSkipping lib first higher := by
  induction higher with
  | nil =>
    intro first
    rfl
  | cons s rest ih =>
    intro first
    show mergeOnto lib (lib.Merge first s).1 rest
      = mergeOntoSkipping lib
          (if (lib.Merge first s).2 = none then (lib.Merge first s).1 else first) rest
    rw [ih]
    rcases hm : lib.Merge first s with ⟨a2, _ | e⟩
    · simp
    · have := hfail first s a2 e hm
      subst this
      simp

theorem sorted_same_name_ascending (sorted : List LinkSpecSpec)
    (hsorted : sorted.Pairwise (fun a b => linkLess b a = false)) :
    sorted.Pairwise (fun a b => a.Name = b.Name → a.ConfigLayer ≤ b.ConfigLayer) := by
  refine hsorted.imp ?_
  intro a b h hn
  rw [linkLess_false_iff] at h
  rcases h with h | h
  · rw [hn] at h
    exact absurd h (lt_irrefl _)
  · exact h.2

theorem layersOf_ascending (lib : LinkLibrary) (hinj : Function.Injective lib.LinkID)
    (n : String) (sorted : List LinkSpecSpec)
    (hsorted : sorted.Pairwise (fun a b => linkLess b a = false)) :
    (layersOf lib (lib.LinkID n) sorted).Pairwise
      (fun a b => a.ConfigLayer ≤ b.ConfigLayer) := by
  have h1 := (sorted_same_name_ascending sorted hsorted).sublist
    (List.filter_sublist (p := fun s => decide (lib.LinkID s.Name = lib.LinkID n)) sorted)
  refine List.Pairwise.imp_of_mem ?_ h1
  intro a b ha hb hab
  have hna : lib.LinkID a.Name = lib.LinkID n := by
    simpa using (List.mem_filter.mp ha).2
  have hnb : lib.LinkID b.Name = lib.LinkID n := by
    simpa using (List.mem_filter.mp hb).2
  exact hab ((hinj hna).trans (hinj hnb).symm)

theorem layersOf_eq_filter_name (lib : LinkLibrary) (hinj : Function.Injective lib.LinkID)
    (n : String) (sorted : List LinkSpecSpec) :
    layersOf lib (lib.LinkID n) sorted = sorted.filter (fun s => s.Name = n) := by
  unfold layersOf
  apply List.filter_congr
  intro s _
  simp [hinj.eq_iff]

theorem mergeStep_silent (lib : LinkLibrary) (acc acc2 : List (ID × LinkSpecSpec) × List Error)
    (link : LinkSpecSpec) (h : acc.1 = acc2.1) :
    (mergeStep lib.silent acc link).1 = (mergeStep lib acc2 link).1 := by
  unfold mergeStep
  rw [h]
  show (match acc2.1.lookup (lib.LinkID link.Name) with
    | none => (mapSet acc2.1 (lib.LinkID link.Name) link, acc.2)
    | some existing =>
      match ((lib.Merge existing link).1, (none : Option Error)) with
      | (merged, some err) => (mapSet acc2.1 (lib.LinkID link.Name) merged, acc.2 ++ [err])
      | (merged, none) => (mapSet acc2.1 (lib.LinkID link.Name) merged, acc.2)).1 = _
  cases acc2.1.lookup (lib.LinkID link.Name) with
  | none => rfl
  | some existing =>
    rcases hm : lib.Merge existing link with ⟨merged, _ | err⟩ <;> simp [hm]

theorem mergeLinks_silent (lib : LinkLibrary) (sorted : List LinkSpecSpec) :
    (mergeLinks lib.silent sorted).1 = (mergeLinks lib sorted).1 := by
  unfold mergeLinks
  have : ∀ (l : List LinkSpecSpec) (acc acc2 : List (ID × LinkSpecSpec) × List Error),
      acc.1 = acc2.1 →
      (l.foldl (mergeStep lib.silent) acc).1 = (l.foldl (mergeStep lib) acc2).1 := by
    intro l
    induction l with
    | nil =>
      intro acc acc2 h
      exact h
    | cons s rest ih =>
      intro acc acc2 h
      rw [List.foldl_cons, List.foldl_cons]
      exact ih _ _ (mergeStep_silent lib acc acc2 s h)
  exact this sorted _ _ rfl


theorem modifyLoop_silent {σ : Type} (lib : LinkLibrary) (r : Runtime σ)
    (entries : List (ID × LinkSpecSpec)) :
    ∀ st : σ, LinkMergeController.modifyLoop lib.silent r st entries
      = LinkMergeController.modifyLoop lib r st entries := by
  induction entries with
  | nil =>
    intro st
    rfl
  | cons e rest ih =>
    intro st
    obtain ⟨id, link⟩ := e
    simp only [LinkMergeController.modifyLoop]
    show (match r.Update st (lib.NewLinkSpec lib.NamespaceName id) (setLinkStatus link) with
      | (st2, some err) => (st2, some (Error.wrapped "error updating resource" err))
      | (st2, none) => LinkMergeController.modifyLoop lib.silent r st2 rest) = _
    rcases hu : r.Update st (lib.NewLinkSpec lib.NamespaceName id) (setLinkStatus link)
      with ⟨st2, _ | err⟩
    · simp only [ih]
    · rfl

theorem iteration_silent {σ : Type} (lib : LinkLibrary) (r : Runtime σ) (st : σ) :
    (LinkMergeController.iteration lib.silent r st).1
        = (LinkMergeController.iteration lib r st).1
      ∧ (LinkMergeController.iteration lib.silent r st).2.2
        = (LinkMergeController.iteration lib r st).2.2 := by
  have e1 : lib.silent.ConfigNamespaceName = lib.ConfigNamespaceName := rfl
  have e2 : lib.silent.NamespaceName = lib.NamespaceName := rfl
  have e3 : lib.silent.LinkSpecType = lib.LinkSpecType := rfl
  have e4 : lib.silent.sortSlice = lib.sortSlice := rfl
  have e5 : lib.silent.rangeLinks = lib.rangeLinks := rfl
  simp only [LinkMergeController.iteration, e1, e2, e3, e4, e5, mergeLinks_silent,
    modifyLoop_silent]
  rcases h1 : r.List st lib.ConfigNamespaceName lib.LinkSpecType with err | items
  · exact ⟨rfl, rfl⟩
  · simp only
    rcases h2 : linkSpecs items with _ | specs
    · exact ⟨rfl, rfl⟩
    · simp only
      rcases h3 : LinkMergeController.modifyLoop lib r st
          (lib.rangeLinks (mergeLinks lib (lib.sortSlice linkLess specs)).1)
        with ⟨st2, _ | err⟩
      · simp only
        rcases h4 : r.List st2 lib.NamespaceName lib.LinkSpecType with err | list
        · exact ⟨rfl, rfl⟩
        · simp only
          rcases h5 : LinkMergeController.cleanupLoop r
              (mergeLinks lib (lib.sortSlice linkLess specs)).1 st2 list
            with ⟨st3, _ | err⟩
          · exact ⟨rfl, rfl⟩
          · exact ⟨rfl, rfl⟩
      · exact ⟨rfl, rfl⟩


theorem sampleLinkSpecs_sorted :
    sampleLinkLibrary.sortSlice linkLess sampleLinkSpecs
      = [ { Name := "lo", ConfigLayer := 0, Settings := "loopback" },
          { Name := "eth0", ConfigLayer := 0, Settings := "default" },
          { Name := "eth0", ConfigLayer := 1, Settings := "" },
          { Name := "eth0", ConfigLayer := 2, Settings := "operator" } ] := by
  have h1 : ("eth0" : String) < "lo" := by
    rw [String.lt_iff_toList_lt]
    decide
  have h2 : ¬ ("lo" : String) < "eth0" := lt_asymm h1
  have h3 : ¬ ("eth0" : String) < "eth0" := lt_irrefl _
  simp [sampleLinkLibrary, sampleLinkSpecs, insertBy, linkLess, h1, h2, h3]

theorem sampleLinkSpecs_pairwise :
    (sampleLinkLibrary.sortSlice linkLess sampleLinkSpecs).Pairwise
      (fun a b => linkLess b a = false) := by
  have h1 : ("eth0" : String) < "lo" := by
    rw [String.lt_iff_toList_lt]
    decide
  have h4 : (['e', 't', 'h', '0'] : List Char) < ['l', 'o'] := by decide
  rw [sampleLinkSpecs_sorted]
  simp [linkLess_false_iff, h1, h4]

/-- C25: when `sort.Slice` has put the config specs in an order that agrees with the
comparator (a permutation of the items in which no later spec precedes an earlier one)
and `LinkID` maps different link names to different ids, then specs that share a link
name stand in ascending order of their config layer; for every link name the map `links`
built by the controller holds, under the id of the name, the first spec of that name,
which is one of lowest layer, with the further specs of that name merged onto it one after
the other in ascending layer order (and no entry when no spec has the name); when a
failing `Merge` leaves its receiver as it was, the layers whose merge fails are skipped;
and an error of `Merge` changes nothing of the iteration but the logged warnings. -/
theorem link_layers_merged_ascending (lib : LinkLibrary) (specs : List LinkSpecSpec)
    (hperm : (lib.sortSlice linkLess specs).Perm specs)
    (hsorted : (lib.sortSlice linkLess specs).Pairwise (fun a b => linkLess b a = false))
    (hinj : Function.Injective lib.LinkID) :
    (lib.sortSlice linkLess specs).Pairwise
        (fun a b => a.Name = b.Name → a.ConfigLayer ≤ b.ConfigLayer)
      ∧ (∀ n : String,
          (layersOf lib (lib.LinkID n) (lib.sortSlice linkLess specs)).Perm
              (specs.filter (fun s => s.Name = n))
            ∧ (layersOf lib (lib.LinkID n) (lib.sortSlice linkLess specs)).Pairwise
                (fun a b => a.ConfigLayer ≤ b.ConfigLayer)
            ∧ (mergeLinks lib (lib.sortSlice linkLess specs)).1.lookup (lib.LinkID n)
                = (layersOf lib (lib.LinkID n) (lib.sortSlice linkLess specs)).head?.map
                    (fun first => mergeOnto lib first
                      (layersOf lib (lib.LinkID n) (lib.sortSlice linkLess specs)).tail))
      ∧ ((∀ a b a2 e, lib.Merge a b = (a2, some e) → a2 = a) →
          ∀ first higher, mergeOnto lib first higher = mergeOntoSkipping lib first higher)
      ∧ (∀ (σ : Type) (r : Runtime σ) (st : σ),
          (LinkMergeController.iteration lib r st).1
              = (LinkMergeController.iteration lib.silent r st).1
            ∧ (LinkMergeController.iteration lib r st).2.2
              = (LinkMergeController.iteration lib.silent r st).2.2) := by
  refine ⟨sorted_same_name_ascending _ hsorted, ?_, ?_, ?_⟩
  · intro n
    refine ⟨?_, layersOf_ascending lib hinj n _ hsorted, mergeLinks_lookup lib _ _⟩
    rw [layersOf_eq_filter_name lib hinj]
    exact hperm.filter _
  · intro hfail first higher
    exact mergeOnto_eq_skipping lib hfail higher first
  · intro σ r st
    exact ⟨(iteration_silent lib r st).1.symm, (iteration_silent lib r st).2.symm⟩

/-- Witness of C25: the sample specs, sorted by insertion with the comparator; the link id
is the link name. -/
theorem link_layers_merged_ascending_witness :
    (sampleLinkLibrary.sortSlice linkLess sampleLinkSpecs).Perm sampleLinkSpecs
      ∧ Function.Injective sampleLinkLibrary.LinkID
      ∧ (sampleLinkLibrary.sortSlice linkLess sampleLinkSpecs).Pairwise
          (fun a b => a.Name = b.Name → a.ConfigLayer ≤ b.ConfigLayer) :=
  ⟨by rw [sampleLinkSpecs_sorted]; decide, fun _ _ h => h,
    (link_layers_merged_ascending sampleLinkLibrary sampleLinkSpecs
      (by rw [sampleLinkSpecs_sorted]; decide) sampleLinkSpecs_pairwise (fun _ _ h => h)).1⟩

/-- The sample specs merged: `eth0` holds the spec of layer 0 with the settings of layer 2
merged onto it, the layer 1, whose merge fails, is skipped with a warning, and `lo` holds
its only spec. -/
theorem sampleLinkSpecs_merged :
    mergeLinks sampleLinkLibrary (sampleLinkLibrary.sortSlice linkLess sampleLinkSpecs)
      = ([ ("lo", { Name := "lo", ConfigLayer := 0, Settings := "loopback" }),
           ("eth0", { Name := "eth0", ConfigLayer := 0, Settings := "default+operator" }) ],
         [Error.other "nothing to merge"]) := by
  rw [sampleLinkSpecs_sorted]
  decide


/-! ## Link merge controller: the writes and the clean up -/

theorem modifyLoop_recorded {σ : Type} (lib : LinkLibrary) (r : Runtime σ)
    (entries : List (ID × LinkSpecSpec)) :
    ∀ (st : σ) (log : List RuntimeCall),
      (LinkMergeController.modifyLoop lib (recordingRuntime r) (st, log) entries).2
          = (LinkMergeController.modifyLoop lib r st entries).2
        ∧ (LinkMergeController.modifyLoop lib (recordingRuntime r) (st, log) entries).1.1
          = (LinkMergeController.modifyLoop lib r st entries).1
        ∧ ((LinkMergeController.modifyLoop lib r st entries).2 = none →
            (LinkMergeController.modifyLoop lib (recordingRuntime r) (st, log) entries).1.2
              = log ++ entries.map (updateCall lib)) := by
  induction entries with
  | nil =>
    intro st log
    simp [LinkMergeController.modifyLoop]
  | cons e rest ih =>
    intro st log
    obtain ⟨id, link⟩ := e
    rcases hu : r.Update st (lib.NewLinkSpec lib.NamespaceName id) (setLinkStatus link)
      with ⟨st2, _ | err⟩
    · have h1 : LinkMergeController.modifyLoop lib r st ((id, link) :: rest)
          = LinkMergeController.modifyLoop lib r st2 rest := by
        simp [LinkMergeController.modifyLoop, hu]
      have h2 : LinkMergeController.modifyLoop lib (recordingRuntime r) (st, log)
            ((id, link) :: rest)
          = LinkMergeController.modifyLoop lib (recordingRuntime r)
              (st2, log ++ [updateCall lib (id, link)]) rest := by
        simp [LinkMergeController.modifyLoop, recordingRuntime, hu, updateCall]
      rw [h1, h2]
      obtain ⟨g1, g2, g3⟩ := ih st2 (log ++ [updateCall lib (id, link)])
      refine ⟨g1, g2, ?_⟩
      intro hn
      rw [g3 hn]
      simp
    · have h1 : LinkMergeController.modifyLoop lib r st ((id, link) :: rest)
          = (st2, some (.wrapped "error updating resource" err)) := by
        simp [LinkMergeController.modifyLoop, hu]
      have h2 : LinkMergeController.modifyLoop lib (recordingRuntime r) (st, log)
            ((id, link) :: rest)
          = ((st2, log ++ [updateCall lib (id, link)]),
              some (.wrapped "error updating resource" err)) := by
        simp [LinkMergeController.modifyLoop, recordingRuntime, hu, updateCall]
      rw [h1, h2]
      simp

theorem cleanupLoop_recorded {σ : Type} (r : Runtime σ) (links : List (ID × LinkSpecSpec))
    (list : List Resource) :
    ∀ (st : σ) (log : List RuntimeCall),
      (LinkMergeController.cleanupLoop (recordingRuntime r) links (st, log) list).2
          = (LinkMergeController.cleanupLoop r links st list).2
        ∧ (LinkMergeController.cleanupLoop (recordingRuntime r) links (st, log) list).1.1
          = (LinkMergeController.cleanupLoop r links st list).1
        ∧ ((LinkMergeController.cleanupLoop r links st list).2 = none →
            ∃ torn : List (Resource × Bool),
              torn.map Prod.fst = list.filter (notMerged links)
                ∧ (LinkMergeController.cleanupLoop (recordingRuntime r) links (st, log)
                    list).1.2
                  = log ++ torn.flatMap (fun p => cleanupCallsOf p.1.Metadata p.2)) := by
  induction list with
  | nil =>
    intro st log
    refine ⟨rfl, rfl, ?_⟩
    intro _
    exact ⟨[], rfl, by simp [LinkMergeController.cleanupLoop]⟩
  | cons res rest ih =>
    intro st log
    by_cases hk : (links.lookup res.Metadata.ID).isNone = true
    · have hf : (res :: rest).filter (notMerged links) = res :: rest.filter (notMerged links) := by
        simp [notMerged, hk]
      rcases ht : r.Teardown st res.Metadata with ⟨st2, err | ready⟩
      · have h1 : LinkMergeController.cleanupLoop r links st (res :: rest)
            = (st2, some (.wrapped "error cleaning up addresses" err)) := by
          simp [LinkMergeController.cleanupLoop, hk, ht]
        have h2 : LinkMergeController.cleanupLoop (recordingRuntime r) links (st, log)
              (res :: rest)
            = ((st2, log ++ [.Teardown res.Metadata none]),
                some (.wrapped "error cleaning up addresses" err)) := by
          simp [LinkMergeController.cleanupLoop, recordingRuntime, hk, ht]
        rw [h1, h2]
        simp
      · cases ready with
        | false =>
          have h1 : LinkMergeController.cleanupLoop r links st (res :: rest)
              = LinkMergeController.cleanupLoop r links st2 rest := by
            simp [LinkMergeController.cleanupLoop, hk, ht]
          have h2 : LinkMergeController.cleanupLoop (recordingRuntime r) links (st, log)
                (res :: rest)
              = LinkMergeController.cleanupLoop (recordingRuntime r) links
                  (st2, log ++ [.Teardown res.Metadata (some false)]) rest := by
            simp [LinkMergeController.cleanupLoop, recordingRuntime, hk, ht]
          rw [h1, h2, hf]
          obtain ⟨g1, g2, g3⟩ := ih st2 (log ++ [.Teardown res.Metadata (some false)])
          refine ⟨g1, g2, ?_⟩
          intro hn
          obtain ⟨torn, t1, t2⟩ := g3 hn
          refine ⟨(res, false) :: torn, by simp [t1], ?_⟩
          rw [t2]
          simp [cleanupCallsOf]
        | true =>
          rcases hd : r.Destroy st2 res.Metadata with ⟨st3, _ | err⟩
          · have h1 : LinkMergeController.cleanupLoop r links st (res :: rest)
                = LinkMergeController.cleanupLoop r links st3 rest := by
              simp [LinkMergeController.cleanupLoop, hk, ht, hd]
            have h2 : LinkMergeController.cleanupLoop (recordingRuntime r) links (st, log)
                  (res :: rest)
                = LinkMergeController.cleanupLoop (recordingRuntime r) links
                    (st3, log ++ [.Teardown res.Metadata (some true)]
                      ++ [.Destroy res.Metadata]) rest := by
              simp [LinkMergeController.cleanupLoop, recordingRuntime, hk, ht, hd]
            rw [h1, h2, hf]
            obtain ⟨g1, g2, g3⟩ := ih st3
              (log ++ [.Teardown res.Metadata (some true)] ++ [.Destroy res.Metadata])
            refine ⟨g1, g2, ?_⟩
            intro hn
            obtain ⟨torn, t1, t2⟩ := g3 hn
            refine ⟨(res, true) :: torn, by simp [t1], ?_⟩
            rw [t2]
            simp [cleanupCallsOf]
          · have h1 : LinkMergeController.cleanupLoop r links st (res :: rest)
                = (st3, some (.wrapped "error cleaning up addresses" err)) := by
              simp [LinkMergeController.cleanupLoop, hk, ht, hd]
            have h2 : LinkMergeController.cleanupLoop (recordingRuntime r) links (st, log)
                  (res :: rest)
                = ((st3, log ++ [.Teardown res.Metadata (some true)]
                      ++ [.Destroy res.Metadata]),
                    some (.wrapped "error cleaning up addresses" err)) := by
              simp [LinkMergeController.cleanupLoop, recordingRuntime, hk, ht, hd]
            rw [h1, h2]
            simp
    · have hf : (res :: rest).filter (notMerged links) = rest.filter (notMerged links) := by
        simp [notMerged, hk]
      have h1 : LinkMergeController.cleanupLoop r links st (res :: rest)
          = LinkMergeController.cleanupLoop r links st rest := by
        simp [LinkMergeController.cleanupLoop, hk]
      have h2 : LinkMergeController.cleanupLoop (recordingRuntime r) links (st, log)
            (res :: rest)
          = LinkMergeController.cleanupLoop (recordingRuntime r) links (st, log) rest := by
        simp [LinkMergeController.cleanupLoop, hk]
      rw [h1, h2, hf]
      exact ih st log


theorem lookup_mem (links : List (ID × LinkSpecSpec)) (id : ID) (link : LinkSpecSpec)
    (h : links.lookup id = some link) : (id, link) ∈ links := by
  induction links with
  | nil => simp [List.lookup] at h
  | cons kw rest ih =>
    obtain ⟨k, w⟩ := kw
    by_cases hk : id = k
    · subst hk
      simp [List.lookup] at h
      subst h
      exact List.mem_cons_self _ _
    · have h2 : (id == k) = false := by simpa using hk
      simp [List.lookup, h2] at h
      exact List.mem_cons_of_mem _ (ih h)

theorem mergeLinks_has_entry (lib : LinkLibrary) (sorted : List LinkSpecSpec)
    (s : LinkSpecSpec) (hs : s ∈ sorted) :
    ∃ link, (mergeLinks lib sorted).1.lookup (lib.LinkID s.Name) = some link := by
  rw [mergeLinks_lookup]
  have hmem : s ∈ layersOf lib (lib.LinkID s.Name) sorted := by
    simp [layersOf, hs]
  cases hl : layersOf lib (lib.LinkID s.Name) sorted with
  | nil =>
    rw [hl] at hmem
    exact absurd hmem (List.not_mem_nil _)
  | cons first higher => exact ⟨_, rfl⟩

theorem mem_cleanup_calls (torn : List (Resource × Bool)) (call : RuntimeCall) :
    call ∈ torn.flatMap (fun p => cleanupCallsOf p.1.Metadata p.2)
      ↔ ∃ p ∈ torn, call = .Teardown p.1.Metadata (some p.2)
          ∨ (p.2 = true ∧ call = .Destroy p.1.Metadata) := by
  rw [List.mem_flatMap]
  constructor
  · rintro ⟨p, hp, hc⟩
    refine ⟨p, hp, ?_⟩
    obtain ⟨res, ready⟩ := p
    cases ready <;> simp [cleanupCallsOf] at hc ⊢
    · exact hc
    · exact hc
  · rintro ⟨p, hp, hc⟩
    refine ⟨p, hp, ?_⟩
    obtain ⟨res, ready⟩ := p
    cases ready <;> simp [cleanupCallsOf] at hc ⊢
    · exact hc
    · exact hc


theorem iteration_recorded_next {σ : Type} (lib : LinkLibrary) (r : Runtime σ) (st : σ)
    (items : List Resource) (specs : List LinkSpecSpec)
    (hlist : r.List st lib.ConfigNamespaceName lib.LinkSpecType = .ok items)
    (hspecs : linkSpecs items = some specs)
    (hnext : (LinkMergeController.iteration lib (recordingRuntime r) (st, [])).2.2 = .next) :
    ∃ (st2 : σ) (list : List Resource) (torn : List (Resource × Bool)),
      LinkMergeController.modifyLoop lib r st
          (lib.rangeLinks (mergeLinks lib (lib.sortSlice linkLess specs)).1) = (st2, none)
        ∧ r.List st2 lib.NamespaceName lib.LinkSpecType = .ok list
        ∧ (LinkMergeController.cleanupLoop r
            (mergeLinks lib (lib.sortSlice linkLess specs)).1 st2 list).2 = none
        ∧ torn.map Prod.fst
            = list.filter (notMerged (mergeLinks lib (lib.sortSlice linkLess specs)).1)
        ∧ (LinkMergeController.iteration lib (recordingRuntime r) (st, [])).1.2
            = (lib.rangeLinks (mergeLinks lib (lib.sortSlice linkLess specs)).1).map
                (updateCall lib)
              ++ torn.flatMap (fun p => cleanupCallsOf p.1.Metadata p.2)
        ∧ (LinkMergeController.iteration lib (recordingRuntime r) (st, [])).1.1
            = (LinkMergeController.cleanupLoop r
                (mergeLinks lib (lib.sortSlice linkLess specs)).1 st2 list).1 := by
  have hl : (recordingRuntime r).List (st, []) lib.ConfigNamespaceName lib.LinkSpecType
      = .ok items := hlist
  obtain ⟨m1, m2, m3⟩ := modifyLoop_recorded lib r
    (lib.rangeLinks (mergeLinks lib (lib.sortSlice linkLess specs)).1) st []
  rcases hmr : LinkMergeController.modifyLoop lib (recordingRuntime r) (st, [])
      (lib.rangeLinks (mergeLinks lib (lib.sortSlice linkLess specs)).1)
    with ⟨⟨s2, log2⟩, _ | err⟩
  · rw [hmr] at m1 m2 m3
    simp only at m1 m2 m3
    have hm : LinkMergeController.modifyLoop lib r st
        (lib.rangeLinks (mergeLinks lib (lib.sortSlice linkLess specs)).1) = (s2, none) :=
      Prod.ext m2.symm m1.symm
    have hlog2 : log2 = (lib.rangeLinks (mergeLinks lib (lib.sortSlice linkLess specs)).1).map
        (updateCall lib) := by
      rw [m3 m1.symm]
      simp
    rcases hl2 : r.List s2 lib.NamespaceName lib.LinkSpecType with err | list
    · have hl2r : (recordingRuntime r).List (s2, log2) lib.NamespaceName lib.LinkSpecType
          = .error err := hl2
      simp [LinkMergeController.iteration, hl, hspecs, hmr, hl2r] at hnext
    · have hl2r : (recordingRuntime r).List (s2, log2) lib.NamespaceName lib.LinkSpecType
          = .ok list := hl2
      obtain ⟨c1, c2, c3⟩ := cleanupLoop_recorded r
        (mergeLinks lib (lib.sortSlice linkLess specs)).1 list s2 log2
      rcases hcr : LinkMergeController.cleanupLoop (recordingRuntime r)
          (mergeLinks lib (lib.sortSlice linkLess specs)).1 (s2, log2) list
        with ⟨⟨s3, log3⟩, _ | err⟩
      · rw [hcr] at c1 c2 c3
        simp only at c1 c2 c3
        obtain ⟨torn, t1, t2⟩ := c3 c1.symm
        have hit : LinkMergeController.iteration lib (recordingRuntime r) (st, [])
            = ((s3, log3), (mergeLinks lib (lib.sortSlice linkLess specs)).2, .next) := by
          simp [LinkMergeController.iteration, hl, hspecs, hmr, hl2r, hcr]
        refine ⟨s2, list, torn, hm, hl2, c1.symm, t1, ?_, ?_⟩
        · rw [hit]
          show log3 = _
          rw [t2, hlog2]
        · rw [hit]
          exact c2
      · simp [LinkMergeController.iteration, hl, hspecs, hmr, hl2r, hcr] at hnext
  · simp [LinkMergeController.iteration, hl, hspecs, hmr] at hnext

/-- C26: in an iteration of `LinkMergeController` that ends without an error (every store
operation succeeded), with `sort.Slice` and `range` yielding permutations: the calls made
on the store are one `Modify` for each entry of `links`, then the clean up calls for the
listed resources of the output namespace whose id is not a key of `links`; every link id
derived from a config spec is a key of `links`, its `Modify` call is made on the
`LinkSpec` of that id in the output namespace and its function overwrites the spec with
the merged spec; every listed resource whose id is not a key is torn down; a resource is
destroyed exactly when its `Teardown` answered that it is ready; and every `Teardown` or
`Destroy` is for a listed resource whose id is not a key of `links`. -/
theorem link_merge_writes_and_cleans {σ : Type} (lib : LinkLibrary) (r : Runtime σ) (st : σ)
    (items : List Resource) (specs : List LinkSpecSpec)
    (hlist : r.List st lib.ConfigNamespaceName lib.LinkSpecType = .ok items)
    (hspecs : linkSpecs items = some specs)
    (hperm : (lib.sortSlice linkLess specs).Perm specs)
    (hrange : (lib.rangeLinks (mergeLinks lib (lib.sortSlice linkLess specs)).1).Perm
      (mergeLinks lib (lib.sortSlice linkLess specs)).1)
    (hnext : (LinkMergeController.iteration lib (recordingRuntime r) (st, [])).2.2 = .next) :
    ∃ (st2 : σ) (list : List Resource) (torn : List (Resource × Bool)),
      LinkMergeController.modifyLoop lib r st
          (lib.rangeLinks (mergeLinks lib (lib.sortSlice linkLess specs)).1) = (st2, none)
        ∧ r.List st2 lib.NamespaceName lib.LinkSpecType = .ok list
        ∧ torn.map Prod.fst
            = list.filter (notMerged (mergeLinks lib (lib.sortSlice linkLess specs)).1)
        ∧ (LinkMergeController.iteration lib (recordingRuntime r) (st, [])).1.2
            = (lib.rangeLinks (mergeLinks lib (lib.sortSlice linkLess specs)).1).map
                (updateCall lib)
              ++ torn.flatMap (fun p => cleanupCallsOf p.1.Metadata p.2)
        ∧ (∀ s ∈ specs, ∃ link,
            (mergeLinks lib (lib.sortSlice linkLess specs)).1.lookup (lib.LinkID s.Name)
                = some link
              ∧ RuntimeCall.Update (lib.NewLinkSpec lib.NamespaceName (lib.LinkID s.Name))
                    (setLinkStatus link
                      (lib.NewLinkSpec lib.NamespaceName (lib.LinkID s.Name)))
                  ∈ (LinkMergeController.iteration lib (recordingRuntime r) (st, [])).1.2
              ∧ ∀ md old, setLinkStatus link (.LinkSpec md old) = some (.LinkSpec md link))
        ∧ (∀ res ∈ list,
            (mergeLinks lib (lib.sortSlice linkLess specs)).1.lookup res.Metadata.ID = none →
            ∃ ready, RuntimeCall.Teardown res.Metadata (some ready)
              ∈ (LinkMergeController.iteration lib (recordingRuntime r) (st, [])).1.2)
        ∧ (∀ md, RuntimeCall.Destroy md
              ∈ (LinkMergeController.iteration lib (recordingRuntime r) (st, [])).1.2
            ↔ RuntimeCall.Teardown md (some true)
              ∈ (LinkMergeController.iteration lib (recordingRuntime r) (st, [])).1.2)
        ∧ (∀ md, (RuntimeCall.Destroy md
                ∈ (LinkMergeController.iteration lib (recordingRuntime r) (st, [])).1.2
              ∨ ∃ ready, RuntimeCall.Teardown md ready
                ∈ (LinkMergeController.iteration lib (recordingRuntime r) (st, [])).1.2) →
            (mergeLinks lib (lib.sortSlice linkLess specs)).1.lookup md.ID = none
              ∧ ∃ res ∈ list, res.Metadata = md) := by
  obtain ⟨st2, list, torn, hm, hl2, _, ht, hcalls, _⟩ :=
    iteration_recorded_next lib r st items specs hlist hspecs hnext
  have htorn : ∀ p ∈ torn, p.1 ∈ list
      ∧ (mergeLinks lib (lib.sortSlice linkLess specs)).1.lookup p.1.Metadata.ID = none := by
    intro p hp
    have : p.1 ∈ torn.map Prod.fst := List.mem_map_of_mem _ hp
    rw [ht] at this
    obtain ⟨h1, h2⟩ := List.mem_filter.mp this
    exact ⟨h1, by simpa [notMerged] using h2⟩
  have hupd : ∀ call ∈ (lib.rangeLinks (mergeLinks lib (lib.sortSlice linkLess specs)).1).map
      (updateCall lib), ∃ e f, call = RuntimeCall.Update e f := by
    intro call hc
    obtain ⟨entry, _, he⟩ := List.mem_map.mp hc
    exact ⟨_, _, he.symm⟩
  refine ⟨st2, list, torn, hm, hl2, ht, hcalls, ?_, ?_, ?_, ?_⟩
  · intro s hs
    obtain ⟨link, hlink⟩ := mergeLinks_has_entry lib (lib.sortSlice linkLess specs) s
      (hperm.symm.subset hs)
    refine ⟨link, hlink, ?_, fun _ _ => rfl⟩
    rw [hcalls]
    apply List.mem_append_left
    have hmem := hrange.symm.subset (lookup_mem _ _ _ hlink)
    exact List.mem_map.mpr ⟨(lib.LinkID s.Name, link), hmem, rfl⟩
  · intro res hres hnone
    have hf : res ∈ list.filter (notMerged (mergeLinks lib (lib.sortSlice linkLess specs)).1) :=
      List.mem_filter.mpr ⟨hres, by simp [notMerged, hnone]⟩
    rw [← ht] at hf
    obtain ⟨p, hp, hpr⟩ := List.mem_map.mp hf
    refine ⟨p.2, ?_⟩
    rw [hcalls]
    apply List.mem_append_right
    rw [mem_cleanup_calls]
    exact ⟨p, hp, Or.inl (by rw [hpr])⟩
  · intro md
    rw [hcalls]
    constructor
    · intro h
      rcases List.mem_append.mp h with h | h
      · obtain ⟨e, f, hef⟩ := hupd _ h
        exact absurd hef (by simp)
      · obtain ⟨p, hp, hc | ⟨hready, hc⟩⟩ := (mem_cleanup_calls torn _).mp h
        · exact absurd hc (by simp)
        · apply List.mem_append_right
          rw [mem_cleanup_calls]
          refine ⟨p, hp, Or.inl ?_⟩
          have : md = p.1.Metadata := by simpa using hc
          rw [this, hready]
    · intro h
      rcases List.mem_append.mp h with h | h
      · obtain ⟨e, f, hef⟩ := hupd _ h
        exact absurd hef (by simp)
      · obtain ⟨p, hp, hc | ⟨_, hc⟩⟩ := (mem_cleanup_calls torn _).mp h
        · apply List.mem_append_right
          rw [mem_cleanup_calls]
          have hc2 : md = p.1.Metadata ∧ true = p.2 := by simpa using hc
          exact ⟨p, hp, Or.inr ⟨hc2.2.symm, by rw [hc2.1]⟩⟩
        · exact absurd hc (by simp)
  · intro md h
    rw [hcalls] at h
    have key : ∀ call, (call = RuntimeCall.Destroy md ∨ ∃ ready, call = RuntimeCall.Teardown md ready) →
        call ∈ (lib.rangeLinks (mergeLinks lib (lib.sortSlice linkLess specs)).1).map
              (updateCall lib)
            ++ torn.flatMap (fun p => cleanupCallsOf p.1.Metadata p.2) →
        ∃ p ∈ torn, p.1.Metadata = md := by
      intro call hform hmem
      rcases List.mem_append.mp hmem with h | h
      · obtain ⟨e, f, hef⟩ := hupd _ h
        rcases hform with h1 | ⟨ready, h1⟩ <;> rw [h1] at hef <;> exact absurd hef (by simp)
      · obtain ⟨p, hp, hc | ⟨_, hc⟩⟩ := (mem_cleanup_calls torn _).mp h
        · rcases hform with h1 | ⟨ready, h1⟩
          · rw [h1] at hc
            exact absurd hc (by simp)
          · rw [h1] at hc
            have : md = p.1.Metadata ∧ ready = some p.2 := by simpa using hc
            exact ⟨p, hp, this.1.symm⟩
        · rcases hform with h1 | ⟨ready, h1⟩
          · rw [h1] at hc
            have : md = p.1.Metadata := by simpa using hc
            exact ⟨p, hp, this.symm⟩
          · rw [h1] at hc
            exact absurd hc (by simp)
    have hp : ∃ p ∈ torn, p.1.Metadata = md := by
      rcases h with h | ⟨ready, h⟩
      · exact key _ (Or.inl rfl) h
      · exact key _ (Or.inr ⟨ready, rfl⟩) h
    obtain ⟨p, hp, hmd⟩ := hp
    obtain ⟨h1, h2⟩ := htorn p hp
    rw [hmd] at h2
    exact ⟨h2, p.1, h1, hmd⟩


/-- The sample store after one iteration: `eth0` and `lo` hold their merged specs in the
output namespace, `eth1` is torn down and destroyed, `eth2`, which has a finalizer, is
torn down and kept, and the failed merge of layer 1 of `eth0` is logged. -/
theorem sampleLinkStore_iteration :
    LinkMergeController.iteration sampleLinkLibrary (recordingRuntime sampleRuntime)
        (sampleLinkStore, [])
      = ((sampleLinkItems ++
          [ .LinkSpec
              { sampleLinkMetadata "network" "eth2" ["network.LinkSpecController"] with
                Phase := .PhaseTearingDown }
              { Name := "eth2", ConfigLayer := 0, Settings := "old" },
            .LinkSpec (sampleLinkMetadata "network" "eth0" [])
              { Name := "eth0", ConfigLayer := 0, Settings := "default+operator" },
            .LinkSpec (sampleLinkMetadata "network" "lo" [])
              { Name := "lo", ConfigLayer := 0, Settings := "loopback" } ],
          [ .Update
              (.LinkSpec (sampleLinkMetadata "network" "eth0" [])
                { Name := "", ConfigLayer := 0, Settings := "" })
              (some (.LinkSpec (sampleLinkMetadata "network" "eth0" [])
                { Name := "eth0", ConfigLayer := 0, Settings := "default+operator" })),
            .Update
              (.LinkSpec (sampleLinkMetadata "network" "lo" [])
                { Name := "", ConfigLayer := 0, Settings := "" })
              (some (.LinkSpec (sampleLinkMetadata "network" "lo" [])
                { Name := "lo", ConfigLayer := 0, Settings := "loopback" })),
            .Teardown (sampleLinkMetadata "network" "eth1" []) (some true),
            .Destroy (sampleLinkMetadata "network" "eth1" []),
            .Teardown (sampleLinkMetadata "network" "eth2" ["network.LinkSpecController"])
              (some false) ]),
         [Error.other "nothing to merge"], Outcome.next) := by
  have hl : (recordingRuntime sampleRuntime).List (sampleLinkStore, [])
      sampleLinkLibrary.ConfigNamespaceName sampleLinkLibrary.LinkSpecType
      = .ok sampleLinkItems := by
    rfl
  have hs : linkSpecs sampleLinkItems = some sampleLinkSpecs := rfl
  simp only [LinkMergeController.iteration, hl, hs, sampleLinkSpecs_sorted]
  rfl

/-- Witness of C26: the sample store, in which the iteration ends without an error. -/
theorem link_merge_writes_and_cleans_witness :
    sampleRuntime.List sampleLinkStore sampleLinkLibrary.ConfigNamespaceName
        sampleLinkLibrary.LinkSpecType = .ok sampleLinkItems
      ∧ linkSpecs sampleLinkItems = some sampleLinkSpecs
      ∧ (LinkMergeController.iteration sampleLinkLibrary (recordingRuntime sampleRuntime)
          (sampleLinkStore, [])).2.2 = .next
      ∧ ∀ md, RuntimeCall.Destroy md
            ∈ (LinkMergeController.iteration sampleLinkLibrary (recordingRuntime sampleRuntime)
                (sampleLinkStore, [])).1.2
          ↔ RuntimeCall.Teardown md (some true)
            ∈ (LinkMergeController.iteration sampleLinkLibrary (recordingRuntime sampleRuntime)
                (sampleLinkStore, [])).1.2 := by
  have hnext : (LinkMergeController.iteration sampleLinkLibrary (recordingRuntime sampleRuntime)
      (sampleLinkStore, [])).2.2 = .next := by
    rw [sampleLinkStore_iteration]
  obtain ⟨_, _, _, _, _, _, _, _, _, h, _⟩ :=
    link_merge_writes_and_cleans sampleLinkLibrary sampleRuntime sampleLinkStore
      sampleLinkItems sampleLinkSpecs (by rfl) rfl
      (by rw [sampleLinkSpecs_sorted]; decide) (List.reverse_perm _) hnext
  exact ⟨by rfl, rfl, hnext, h⟩

end Talos
